import Mathlib

/-! Skeletal-representation refiner: crest reordering, grid tangents, the refinement
objective, the crest length search and curvature pass, and the transform into the unit cube.

A shallow embedding of `vtkSlicerSkeletalRepresentationRefinerLogic.cxx`. C++ `double` values
are read as exact rationals, `std::vector` as `List`, and the members of the logic object as
fields of a record that is passed explicitly. Classes whose sources are not part of the
translation unit (`vtkSrep`, `vtkSlicerSkeletalRepresentationInterpolater`, `vtkMath`) are taken
as parameters; where a statement is about the interpolater itself, it is modelled from its
description.
-/

namespace SRepRefiner

/-! ## Vectors and spokes -/

/-- A C array `double[3]`. -/
@[ext]
structure Vec3 where
  x : ℚ
  y : ℚ
  z : ℚ
deriving DecidableEq

/-- Componentwise difference. -/
def Vec3.sub (a b : Vec3) : Vec3 := ⟨a.x - b.x, a.y - b.y, a.z - b.z⟩

/-- Componentwise sum. -/
def Vec3.add (a b : Vec3) : Vec3 := ⟨a.x + b.x, a.y + b.y, a.z + b.z⟩

/-- Scaling by a number. -/
def Vec3.smul (k : ℚ) (a : Vec3) : Vec3 := ⟨k * a.x, k * a.y, k * a.z⟩

/-- The inner product computed by `vtkMath::Dot`. -/
def Dot (a b : Vec3) : ℚ := a.x * b.x + a.y * b.y + a.z * b.z

/-- Modelled from the spec: the class `vtkSpoke` (declared in `vtkSpoke.h`, whose source is not
at hand). A spoke is a skeletal point, a direction and a radius. -/
structure vtkSpoke where
  skeletalPoint : Vec3
  direction : Vec3
  radius : ℚ
deriving DecidableEq

/-- Modelled from the spec: `vtkSpoke::GetBoundaryPoint`, the derived point
`skeletalPoint + radius * direction`. -/
def vtkSpoke.GetBoundaryPoint (s : vtkSpoke) : Vec3 :=
  s.skeletalPoint.add (Vec3.smul s.radius s.direction)

/-! ## `ReorderCrestSpokes` -/

/-- One `output.push_back(input[i])`: reading past the end of `input` has no defined result,
so the step is fallible. -/
def pushAt {α : Type} (input : List α) (output : List α) (i : Nat) : Option (List α) :=
  match input[i]? with
  | some x => some (output ++ [x])
  | none => none

/-- Body of the second loop of `ReorderCrestSpokes`: the left spoke
`input[input.size() - (i - nCols + 1)]`, then the right spoke `input[i]`. -/
def pushSidePair {α : Type} (input : List α) (nCols : Nat) (output : List α) (i : Nat) :
    Option (List α) := do
  let out ← pushAt input output (input.length - (i - nCols + 1))
  pushAt input out i

/-- The function `ReorderCrestSpokes(nRows, nCols, input, output)`. The three loops run over the counter
`i`; `nRows` is not read by the body. Sizes are natural numbers: the unsigned subtraction
`input.size() - 2 * nCols` is meaningful only when it does not wrap, which is the case for
every crest list of the size the callers pass. -/
def ReorderCrestSpokes {α : Type} (_nRows nCols : Nat) (input output : List α) :
    Option (List α) := do
  let out1 ← (List.range' 0 nCols).foldlM (pushAt input) output
  let nSideSpokes := (input.length - 2 * nCols) / 2
  let out2 ← (List.range' nCols nSideSpokes).foldlM (pushSidePair input nCols) out1
  let beginCrestIndex := out2.length
  let out3 ← (List.range' (nCols + nSideSpokes)
      (input.length - nSideSpokes - (nCols + nSideSpokes))).foldlM (pushAt input) out2
  pure (out3.take beginCrestIndex ++ (out3.drop beginCrestIndex).reverse)

/-- Alternating merge `x₀, y₀, x₁, y₁, …` of two lists; describes the side spokes of the
reordered crest. -/
def interleave {α : Type} : List α → List α → List α
  | x :: xs, y :: ys => x :: y :: interleave xs ys
  | _, _ => []

/-! ## `ComputeDiff` and `ComputeDerivative` -/

/-- The function `ComputeDiff(head, tail, factor, output)`. -/
def ComputeDiff (head tail : Vec3) (factor : ℚ) : Vec3 :=
  ⟨factor * (head.x - tail.x), factor * (head.y - tail.y), factor * (head.z - tail.z)⟩

/-- The three reads `skeletalPoints[id*3]`, `skeletalPoints[id*3+1]`, `skeletalPoints[id*3+2]`.
A read past the end of the vector has no defined value in C++; it is given `0` here. -/
def pointAt (skeletalPoints : List ℚ) (id : Nat) : Vec3 :=
  ⟨skeletalPoints.getD (id * 3) 0, skeletalPoints.getD (id * 3 + 1) 0,
    skeletalPoints.getD (id * 3 + 2) 0⟩

/-- The function `ComputeDerivative(skeletalPoints, intr, intc, nRows, intCols, dXdu, dXdv)`; the result is
the pair `(dXdu, dXdv)`. The `static_cast<size_t>` conversions are `Int.toNat`: the callers pass
positions of the grid, which are not negative. -/
def ComputeDerivative (skeletalPoints : List ℚ) (intr intc nRows intCols : Int) : Vec3 × Vec3 :=
  let nCols : Nat := intCols.toNat
  let r : Nat := intr.toNat
  let c : Nat := intc.toNat
  let id : Nat := r * nCols + c
  let dXdu :=
    if r = 0 then
      ComputeDiff (pointAt skeletalPoints (id + nCols)) (pointAt skeletalPoints id) 1
    else if r = (nRows - 1).toNat then
      ComputeDiff (pointAt skeletalPoints id) (pointAt skeletalPoints (id - nCols)) 1
    else
      ComputeDiff (pointAt skeletalPoints (id + nCols)) (pointAt skeletalPoints (id - nCols))
        (1 / 2)
  let dXdv :=
    if c = 0 then
      ComputeDiff (pointAt skeletalPoints (id + 1)) (pointAt skeletalPoints id) 1
    else if c = nCols - 1 then
      ComputeDiff (pointAt skeletalPoints id) (pointAt skeletalPoints (id - 1)) 1
    else
      ComputeDiff (pointAt skeletalPoints (id + 1)) (pointAt skeletalPoints (id - 1)) (1 / 2)
  (dXdu, dXdv)

/-- Row-major storage of a grid of skeletal points: point `(r, c)` occupies the three entries
starting at `3 * (r * nCols + c)`. -/
def flattenGrid (P : Nat → Nat → Vec3) (nRows nCols : Nat) : List ℚ :=
  (List.range (nRows * nCols)).flatMap fun id =>
    [(P (id / nCols) (id % nCols)).x, (P (id / nCols) (id % nCols)).y,
      (P (id / nCols) (id % nCols)).z]

/-! ## Interpolation positions built by `Refine` -/

/-- The test `no interpolation at corners` of `Refine`, with `tol = 1e-6`; `abs` is the
absolute value of a `double`. -/
def isQuadCorner (u v : ℚ) : Bool :=
  let tol : ℚ := 1 / 1000000
  (decide (|u| < tol) && decide (|v| < tol)) || (decide (|u| < tol) && decide (|v - 1| < tol))
    || (decide (|u - 1| < tol) && decide (|v| < tol))
    || (decide (|u - 1| < tol) && decide (|v - 1| < tol))

/-- The value of `mInterpolatePositions` after the block `make tuples of interpolation
positions (u,v)` of `Refine(stepSize, endCriterion, maxIter, interpolationLevel)`:
`shares = 2^interpolationLevel`, `interval = 1.0 / shares`, every `(i * interval, j * interval)`
for `i, j = 0..shares` that is not a quad corner, and the extra pair `(0, 0)` at level `0`.
The conversion of `pow(2, interpolationLevel)` to `int` is exact for levels below `31`. -/
def RefineInterpolatePositions (interpolationLevel : Nat) : List (ℚ × ℚ) :=
  let shares : Nat := 2 ^ interpolationLevel
  let interval : ℚ := 1 / (shares : ℚ)
  let grid := (List.range (shares + 1)).flatMap fun i =>
    (List.range (shares + 1)).filterMap fun j =>
      let u : ℚ := (i : ℚ) * interval
      let v : ℚ := (j : ℚ) * interval
      if isQuadCorner u v then none else some (u, v)
  if interpolationLevel = 0 then grid ++ [(0, 0)] else grid

/-! ## Collaborators and the state of the logic object -/

/-- What `SetCornerDxdu`, `SetCornerDxdv` and the `cornerSpokes` argument of `Interpolate` hand
to a `vtkSlicerSkeletalRepresentationInterpolater`: four corner spokes and, in the order in
which they are passed, four `u`-tangents and four `v`-tangents. -/
structure InterpolaterSetup where
  cornerSpokes : List vtkSpoke
  cornerDxdu : List Vec3
  cornerDxdv : List Vec3

/-- The operations of classes that the file calls but does not define: the grid class `vtkSrep`
(over an arbitrary carrier `Srep`), the interpolater, the per-spoke penalty of `vtkSpoke` and
`vtkMath::Normalize`. Every function below is parametric in them. -/
structure Collaborators (Srep : Type) where
  IsEmpty : Srep → Bool
  GetNumRows : Srep → Int
  GetNumCols : Srep → Int
  GetSpoke : Srep → Int → Int → vtkSpoke
  GetAllSkeletalPoints : Srep → List ℚ
  Refine : Srep → List ℚ → Srep
  Interpolate : InterpolaterSetup → ℚ → ℚ → vtkSpoke
  Normalize : Vec3 → Vec3
  GetRSradPenalty : vtkSpoke → List vtkSpoke → Bool → List vtkSpoke → Bool → ℚ → ℚ

/-- The members of `vtkSlicerSkeletalRepresentationRefinerLogic` read or written by the
objective function. A null image pointer is `none`; an image is the map from a voxel index to
its pixel. -/
structure RefinerLogic (Srep : Type) where
  mSrep : Option Srep
  mAntiAliasedImage : Option (Int → Int → Int → ℚ)
  mGradDistImage : Option (Int → Int → Int → Vec3)
  mTransformationMat : Nat → Nat → ℚ
  mWtImageMatch : ℚ
  mWtNormalMatch : ℚ
  mWtSrad : ℚ
  mInterpolatePositions : List (ℚ × ℚ)
  mCoeffArray : List ℚ
  mNumRows : Int
  mNumCols : Int
  mFirstCost : Bool

/-- The setter `SetWeights(wtImageMatch, wtNormal, wtSrad)`. -/
def SetWeights {Srep : Type} (L : RefinerLogic Srep) (wtImageMatch wtNormal wtSrad : ℚ) :
    RefinerLogic Srep :=
  { L with mWtImageMatch := wtImageMatch, mWtNormalMatch := wtNormal, mWtSrad := wtSrad }

/-! ## `ComputeDistance` -/

/-- The constant `voxelSpacing = 0.005`. -/
def voxelSpacing : ℚ := 5 / 1000

/-- The conversion `static_cast<int>` of a `double`: rounding toward zero when the result fits
the 32-bit `int`. Outside that range the conversion is undefined in C++; the conversion
instruction of the x86-64 machine then yields `INT_MIN = -2147483648`, and that is the value
taken here. -/
def truncToInt (q : ℚ) : Int :=
  let t : Int := if 0 ≤ q then ⌊q⌋ else ⌈q⌉
  if -2147483648 ≤ t ∧ t ≤ 2147483647 then t else -2147483648

/-- Rounding to the nearest integer, a tie going to the even neighbour: the rounding of the
significand in IEEE-754 arithmetic. -/
def roundHalfEven (x : ℚ) : Int :=
  let f : Int := ⌊x⌋
  if x - f < 1 / 2 then f
  else if x - f > 1 / 2 then f + 1
  else if f % 2 = 0 then f else f + 1

/-- The value of an arithmetic result `q` stored in a `float`: the IEEE-754 single-precision
number nearest to `q`, ties to even. A `float` has `24` significant bits and least exponent
`-126`, so the spacing of the floats around `q` is `2^(e-23)` with `e = max(⌊log2 |q|⌋, -126)`.
A magnitude beyond the largest `float`, which the machine turns into an infinity, has no
counterpart among the rationals; the formula is continued there. -/
def roundToFloat (q : ℚ) : ℚ :=
  if q = 0 then 0
  else
    let e : Int := max (Int.log 2 |q|) (-126)
    let ulp : ℚ := (2 : ℚ) ^ (e - 23)
    (roundHalfEven (q / ulp) : ℚ) * ulp

/-- One coordinate of the voxel looked up by `ComputeDistance`: the transformed coordinate is
divided by the voxel spacing, `0.5` is added, the sum is truncated and then clamped, first from
above by `static_cast<int>(1 / voxelSpacing - 1)` and then from below by `0`. -/
def voxelCoord (p scale shift : ℚ) : Int :=
  let pt := p * scale + shift
  let pt := pt / voxelSpacing
  let x := truncToInt (pt + 1 / 2)
  let maxX := truncToInt (1 / voxelSpacing - 1)
  let x := if x > maxX then maxX else x
  if x < 0 then 0 else x

/-- The voxel `{x, y, z}` at which `ComputeDistance` reads both images. -/
def voxelIndex {Srep : Type} (L : RefinerLogic Srep) (theSpoke : vtkSpoke) : Int × Int × Int :=
  let pt := theSpoke.GetBoundaryPoint
  (voxelCoord pt.x (L.mTransformationMat 0 0) (L.mTransformationMat 3 0),
   voxelCoord pt.y (L.mTransformationMat 1 1) (L.mTransformationMat 3 1),
   voxelCoord pt.z (L.mTransformationMat 2 2) (L.mTransformationMat 3 2))

/-- The function `ComputeDistance(theSpoke, normalMatch)`. The result is the returned value
paired with the value of `*normalMatch` on return. The pixel is read into `float dist`, and
`dist * dist` is a product of two `float` values, rounded to a `float` before it is widened to
the `double distSqr`. -/
def ComputeDistance {Srep : Type} (K : Collaborators Srep) (L : RefinerLogic Srep)
    (theSpoke : vtkSpoke) (normalMatch : ℚ) : ℚ × ℚ :=
  let idx := voxelIndex L theSpoke
  match L.mAntiAliasedImage with
  | none => (-10000, normalMatch)
  | some image =>
    let dist := image idx.1 idx.2.1 idx.2.2
    match L.mGradDistImage with
    | none => (-10000, normalMatch)
    | some gradImage =>
      let grad := gradImage idx.1 idx.2.1 idx.2.2
      let normalVector := K.Normalize grad
      let spokeDir := theSpoke.direction
      let dotProduct := Dot normalVector spokeDir
      let distSqr := roundToFloat (dist * dist)
      (distSqr, normalMatch + distSqr * (1 - dotProduct))

/-! ## Interpolater set-up at each call site -/

/-- The functions that configure an interpolater for one grid quad. -/
inductive CallSite where
  | InterpolateSrep
  | ConnectImpliedBoundaryPts
  | TotalDistOfLeftTopSpoke
  | TotalDistOfRightTopSpoke
  | TotalDistOfLeftBotSpoke
  | TotalDistOfRightBotSpoke
  | FindTopLeftNeigbors
  | FindTopRightNeigbors
  | FindBotLeftNeigbors
  | FindBotRightNeigbors
deriving DecidableEq

/-- The grid cells whose spokes are stored in `cornerSpokes[0]`, …, `cornerSpokes[3]` by each
function, as written in its `GetSpoke` calls (`r`, `c` are the function's own arguments or loop
counters). -/
def cornerCells : CallSite → Int → Int → List (Int × Int)
  | .InterpolateSrep, r, c => [(r, c), (r + 1, c), (r + 1, c + 1), (r, c + 1)]
  | .ConnectImpliedBoundaryPts, r, c => [(r, c), (r + 1, c), (r + 1, c + 1), (r, c + 1)]
  | .TotalDistOfLeftTopSpoke, r, c => [(r, c), (r + 1, c), (r + 1, c + 1), (r, c + 1)]
  | .TotalDistOfRightTopSpoke, r, c => [(r, c - 1), (r + 1, c - 1), (r + 1, c), (r, c)]
  | .TotalDistOfLeftBotSpoke, r, c => [(r - 1, c), (r, c), (r, c + 1), (r - 1, c + 1)]
  | .TotalDistOfRightBotSpoke, r, c => [(r - 1, c - 1), (r, c - 1), (r, c), (r - 1, c)]
  | .FindTopLeftNeigbors, r, c => [(r, c), (r + 1, c), (r + 1, c + 1), (r, c + 1)]
  | .FindTopRightNeigbors, r, c => [(r, c - 1), (r + 1, c - 1), (r + 1, c), (r, c)]
  | .FindBotLeftNeigbors, r, c => [(r - 1, c), (r, c), (r, c + 1), (r - 1, c + 1)]
  | .FindBotRightNeigbors, r, c => [(r - 1, c - 1), (r, c - 1), (r, c), (r - 1, c)]

/-- The grid cells at which each function evaluates `ComputeDerivative` for the tangents it
passes, in this order, as the four arguments `(dXdu11, dXdu21, dXdu22, dXdu12)` of
`SetCornerDxdu` (and likewise `SetCornerDxdv`): the cell of the `ComputeDerivative` call that
fills `dXdu11`, then the one that fills `dXdu21`, then `dXdu22`, then `dXdu12`. -/
def tangentCells : CallSite → Int → Int → List (Int × Int)
  | .InterpolateSrep, r, c => [(r, c), (r + 1, c), (r + 1, c + 1), (r, c + 1)]
  | .ConnectImpliedBoundaryPts, r, c => [(r, c), (r + 1, c), (r + 1, c + 1), (r, c + 1)]
  | .TotalDistOfLeftTopSpoke, r, c => [(r, c), (r + 1, c), (r + 1, c + 1), (r, c + 1)]
  | .TotalDistOfRightTopSpoke, r, c => [(r, c - 1), (r + 1, c - 1), (r + 1, c), (r, c)]
  | .TotalDistOfLeftBotSpoke, r, c => [(r - 1, c), (r, c), (r, c + 1), (r - 1, c + 1)]
  | .TotalDistOfRightBotSpoke, r, c => [(r - 1, c - 1), (r, c - 1), (r, c), (r - 1, c)]
  | .FindTopLeftNeigbors, r, c => [(r, c), (r + 1, c), (r + 1, c + 1), (r, c + 1)]
  | .FindTopRightNeigbors, r, c => [(r, c - 1), (r + 1, c - 1), (r, c), (r + 1, c)]
  | .FindBotLeftNeigbors, r, c => [(r - 1, c), (r, c), (r - 1, c + 1), (r, c + 1)]
  | .FindBotRightNeigbors, r, c => [(r - 1, c - 1), (r, c - 1), (r - 1, c), (r, c)]

/-- The interpolater as configured by a call site for the quad it derives from `(r, c)`:
`getSpoke` is the grid's `GetSpoke`, `skeletalPoints` the vector given to
`ComputeDerivative`. -/
def interpolaterSetup (getSpoke : Int → Int → vtkSpoke) (skeletalPoints : List ℚ)
    (nRows nCols : Int) (site : CallSite) (r c : Int) : InterpolaterSetup :=
  { cornerSpokes := (cornerCells site r c).map fun p => getSpoke p.1 p.2
    cornerDxdu := (tangentCells site r c).map fun p =>
      (ComputeDerivative skeletalPoints p.1 p.2 nRows nCols).1
    cornerDxdv := (tangentCells site r c).map fun p =>
      (ComputeDerivative skeletalPoints p.1 p.2 nRows nCols).2 }

/-- The set-up made inside the functions that receive the grid as a `vtkSrep`: skeletal points,
row and column counts all come from the grid itself. -/
def srepSetup {Srep : Type} (K : Collaborators Srep) (srep : Srep) (site : CallSite)
    (r c : Int) : InterpolaterSetup :=
  interpolaterSetup (K.GetSpoke srep) (K.GetAllSkeletalPoints srep) (K.GetNumRows srep)
    (K.GetNumCols srep) site r c

/-! ## The four `TotalDistOf…Spoke` functions -/

/-- Common body of the four `TotalDistOf…Spoke` functions: set up the interpolater, interpolate
at `(u, v)`, and add `ComputeDistance` of the interpolated spoke to a local `imageDist = 0.0`.
The result is the returned value paired with the updated `*normalMatch`. -/
def totalDistAt {Srep : Type} (K : Collaborators Srep) (L : RefinerLogic Srep) (site : CallSite)
    (tempSrep : Srep) (u v : ℚ) (r c : Int) (normalMatch : ℚ) : ℚ × ℚ :=
  let interpolatedSpoke := K.Interpolate (srepSetup K tempSrep site r c) u v
  let res := ComputeDistance K L interpolatedSpoke normalMatch
  (0 + res.1, res.2)

/-- The function `TotalDistOfLeftTopSpoke(tempSrep, u, v, r, c, normalMatch)`. -/
def TotalDistOfLeftTopSpoke {Srep : Type} (K : Collaborators Srep) (L : RefinerLogic Srep)
    (tempSrep : Srep) (u v : ℚ) (r c : Int) (normalMatch : ℚ) : ℚ × ℚ :=
  totalDistAt K L .TotalDistOfLeftTopSpoke tempSrep u v r c normalMatch

/-- The function `TotalDistOfRightTopSpoke(tempSrep, u, v, r, c, normalMatch)`. -/
def TotalDistOfRightTopSpoke {Srep : Type} (K : Collaborators Srep) (L : RefinerLogic Srep)
    (tempSrep : Srep) (u v : ℚ) (r c : Int) (normalMatch : ℚ) : ℚ × ℚ :=
  totalDistAt K L .TotalDistOfRightTopSpoke tempSrep u v r c normalMatch

/-- The function `TotalDistOfLeftBotSpoke(tempSrep, u, v, r, c, normalMatch)`. -/
def TotalDistOfLeftBotSpoke {Srep : Type} (K : Collaborators Srep) (L : RefinerLogic Srep)
    (tempSrep : Srep) (u v : ℚ) (r c : Int) (normalMatch : ℚ) : ℚ × ℚ :=
  totalDistAt K L .TotalDistOfLeftBotSpoke tempSrep u v r c normalMatch

/-- The function `TotalDistOfRightBotSpoke(tempSrep, u, v, r, c, normalMatch)`. -/
def TotalDistOfRightBotSpoke {Srep : Type} (K : Collaborators Srep) (L : RefinerLogic Srep)
    (tempSrep : Srep) (u v : ℚ) (r c : Int) (normalMatch : ℚ) : ℚ × ℚ :=
  totalDistAt K L .TotalDistOfRightBotSpoke tempSrep u v r c normalMatch

/-! ## `EvaluateObjectiveFunction` -/

/-- The `if`/`else if` chain inside the position loop of `EvaluateObjectiveFunction`: which
`TotalDistOf…Spoke` functions are called for the spoke at `(r, c)`, in the order of the calls. -/
def quadDispatch (mNumRows mNumCols r c : Int) : List CallSite :=
  if r = 0 ∧ c = 0 then [.TotalDistOfLeftTopSpoke]
  else if r = 0 ∧ c = mNumCols - 1 then [.TotalDistOfRightTopSpoke]
  else if r = mNumRows - 1 ∧ c = 0 then [.TotalDistOfLeftBotSpoke]
  else if r = mNumRows - 1 ∧ c = mNumCols - 1 then [.TotalDistOfRightBotSpoke]
  else if r = 0 then [.TotalDistOfRightTopSpoke, .TotalDistOfLeftTopSpoke]
  else if r = mNumRows - 1 then [.TotalDistOfRightBotSpoke, .TotalDistOfLeftBotSpoke]
  else if c = 0 then [.TotalDistOfLeftBotSpoke, .TotalDistOfLeftTopSpoke]
  else if c = mNumCols - 1 then [.TotalDistOfRightBotSpoke, .TotalDistOfRightTopSpoke]
  else [.TotalDistOfRightBotSpoke, .TotalDistOfRightTopSpoke, .TotalDistOfLeftBotSpoke,
    .TotalDistOfLeftTopSpoke]

/-- One statement `imageDist += TotalDistOf…Spoke(tempSrep, u, v, r, c, &normal)`, acting on
the pair `(imageDist, normal)`. -/
def addTotalDist {Srep : Type} (K : Collaborators Srep) (L : RefinerLogic Srep) (tempSrep : Srep)
    (u v : ℚ) (r c : Int) (acc : ℚ × ℚ) (site : CallSite) : ℚ × ℚ :=
  let res := totalDistAt K L site tempSrep u v r c acc.2
  (acc.1 + res.1, res.2)

/-- Body of the loop over `mInterpolatePositions` for the spoke at `(r, c)`. -/
def positionStep {Srep : Type} (K : Collaborators Srep) (L : RefinerLogic Srep) (tempSrep : Srep)
    (r c : Int) (acc : ℚ × ℚ) (uv : ℚ × ℚ) : ℚ × ℚ :=
  (quadDispatch L.mNumRows L.mNumCols r c).foldl (addTotalDist K L tempSrep uv.1 uv.2 r c) acc

/-- Body of the loop `for(int i = 0; i < spokeNum; ++i)`: the distance of spoke `i` itself,
then the interpolated spokes around it at every interpolation position. The quotient and
remainder by `mNumCols` are those of C++ `int`; `Refine` assigns `mNumCols` a non-zero column
count. -/
def spokeStep {Srep : Type} (K : Collaborators Srep) (L : RefinerLogic Srep) (tempSrep : Srep)
    (acc : ℚ × ℚ) (i : Nat) : ℚ × ℚ :=
  let r : Int := Int.tdiv i L.mNumCols
  let c : Int := Int.tmod i L.mNumCols
  let thisSpoke := K.GetSpoke tempSrep r c
  let res := ComputeDistance K L thisSpoke acc.2
  L.mInterpolatePositions.foldl (positionStep K L tempSrep r c) (acc.1 + res.1, res.2)

/-- The number `spokeNum = static_cast<int>(mCoeffArray.size()) / 4`. -/
def spokeNum {Srep : Type} (L : RefinerLogic Srep) : Nat := L.mCoeffArray.length / 4

/-- Part 1 of `EvaluateObjectiveFunction`: the pair `(imageDist, normal)` after the loop over
all spokes, both starting at `0.0`. -/
def imageMatchTerms {Srep : Type} (K : Collaborators Srep) (L : RefinerLogic Srep)
    (tempSrep : Srep) : ℚ × ℚ :=
  (List.range (spokeNum L)).foldl (spokeStep K L tempSrep) (0, 0)

/-! ## Neighbours for the `rSrad` penalty -/

/-- The parametric step `stepV = mInterpolatePositions[0].second` (and `stepU = stepV`). An
empty position list has no first element; the step is then read as `0`. -/
def neighborStep {Srep : Type} (L : RefinerLogic Srep) : ℚ :=
  (L.mInterpolatePositions.getD 0 (0, 0)).2

/-- The function `FindTopLeftNeigbors(r, c, input, neighborU, neighborV)`; the result is the
pair of the two output vectors. -/
def FindTopLeftNeigbors {Srep : Type} (K : Collaborators Srep) (L : RefinerLogic Srep)
    (r c : Int) (input : Srep) (neighborU neighborV : List vtkSpoke) :
    List vtkSpoke × List vtkSpoke :=
  let interpolater := srepSetup K input .FindTopLeftNeigbors r c
  let stepV := neighborStep L
  let stepU := stepV
  (neighborU ++ [K.Interpolate interpolater stepU 0],
   neighborV ++ [K.Interpolate interpolater 0 stepV])

/-- The function `FindTopRightNeigbors(r, c, input, neighborU, neighborV)`. -/
def FindTopRightNeigbors {Srep : Type} (K : Collaborators Srep) (L : RefinerLogic Srep)
    (r c : Int) (input : Srep) (neighborU neighborV : List vtkSpoke) :
    List vtkSpoke × List vtkSpoke :=
  let interpolater := srepSetup K input .FindTopRightNeigbors r c
  let stepV := neighborStep L
  let stepU := stepV
  (neighborU ++ [K.Interpolate interpolater stepU 1],
   neighborV ++ [K.Interpolate interpolater 0 (1 - stepV)])

/-- The function `FindBotLeftNeigbors(r, c, input, neighborU, neighborV)`. -/
def FindBotLeftNeigbors {Srep : Type} (K : Collaborators Srep) (L : RefinerLogic Srep)
    (r c : Int) (input : Srep) (neighborU neighborV : List vtkSpoke) :
    List vtkSpoke × List vtkSpoke :=
  let interpolater := srepSetup K input .FindBotLeftNeigbors r c
  let stepV := neighborStep L
  let stepU := stepV
  (neighborU ++ [K.Interpolate interpolater (1 - stepU) 0],
   neighborV ++ [K.Interpolate interpolater 0 stepV])

/-- The function `FindBotRightNeigbors(r, c, input, neighborU, neighborV)`. -/
def FindBotRightNeigbors {Srep : Type} (K : Collaborators Srep) (L : RefinerLogic Srep)
    (r c : Int) (input : Srep) (neighborU neighborV : List vtkSpoke) :
    List vtkSpoke × List vtkSpoke :=
  let interpolater := srepSetup K input .FindBotRightNeigbors r c
  let stepV := neighborStep L
  let stepU := stepV
  (neighborU ++ [K.Interpolate interpolater (1 - stepU) 1],
   neighborV ++ [K.Interpolate interpolater 1 (1 - stepV)])

/-- A primary spoke together with what `SetNeighborU(neighborU, isForward)` and
`SetNeighborV(neighborV, isForward)` stored on it. -/
structure SpokeWithNeighbors where
  spoke : vtkSpoke
  neighborU : List vtkSpoke
  forwardU : Bool
  neighborV : List vtkSpoke
  forwardV : Bool

/-- Body of the double loop of `ComputeRSradPenalty` for the spoke at `(r, c)`: the branch
taken, the neighbour finders it calls, the `pop_back` it applies and the two flags it sets. -/
def spokeNeighbors {Srep : Type} (K : Collaborators Srep) (L : RefinerLogic Srep) (input : Srep)
    (nRows nCols r c : Int) : SpokeWithNeighbors :=
  let thisSpoke := K.GetSpoke input r c
  if r = 0 ∧ c = 0 then
    let n := FindTopLeftNeigbors K L r c input [] []
    ⟨thisSpoke, n.1, true, n.2, true⟩
  else if r = 0 ∧ c = nCols - 1 then
    let n := FindTopRightNeigbors K L r c input [] []
    ⟨thisSpoke, n.1, true, n.2, false⟩
  else if r = 0 then
    let n := FindTopRightNeigbors K L r c input [] []
    let n := FindTopLeftNeigbors K L r c input n.1 n.2
    ⟨thisSpoke, n.1.dropLast, true, n.2, false⟩
  else if r = nRows - 1 ∧ c = 0 then
    let n := FindBotLeftNeigbors K L r c input [] []
    ⟨thisSpoke, n.1, false, n.2, true⟩
  else if r = nRows - 1 ∧ c = nCols - 1 then
    let n := FindBotRightNeigbors K L r c input [] []
    ⟨thisSpoke, n.1, false, n.2, false⟩
  else if r = nRows - 1 then
    let n := FindBotRightNeigbors K L r c input [] []
    let n := FindBotLeftNeigbors K L r c input n.1 n.2
    ⟨thisSpoke, n.1.dropLast, false, n.2, false⟩
  else if c = 0 then
    let n := FindBotLeftNeigbors K L r c input [] []
    let n := FindTopLeftNeigbors K L r c input n.1 n.2
    ⟨thisSpoke, n.1, false, n.2.dropLast, true⟩
  else if c = nCols - 1 then
    let n := FindBotRightNeigbors K L r c input [] []
    let n := FindTopRightNeigbors K L r c input n.1 n.2
    ⟨thisSpoke, n.1, false, n.2.dropLast, false⟩
  else
    let n := FindBotRightNeigbors K L r c input [] []
    let n := FindTopLeftNeigbors K L r c input n.1 n.2
    ⟨thisSpoke, n.1, false, n.2, false⟩

/-- The function `ComputeRSradPenalty(input)`: `0.0` for an empty grid, otherwise the sum over
all primary spokes, in row-major order, of `GetRSradPenalty(step)`. -/
def ComputeRSradPenalty {Srep : Type} (K : Collaborators Srep) (L : RefinerLogic Srep)
    (input : Srep) : ℚ :=
  if K.IsEmpty input then 0
  else
    let nRows := K.GetNumRows input
    let nCols := K.GetNumCols input
    let primarySpokes := (List.range nRows.toNat).flatMap fun r =>
      (List.range nCols.toNat).map fun c => spokeNeighbors K L input nRows nCols r c
    let step := neighborStep L
    primarySpokes.foldl
      (fun penalty s =>
        penalty + K.GetRSradPenalty s.spoke s.neighborU s.forwardU s.neighborV s.forwardV step)
      0

/-- The function `EvaluateObjectiveFunction(coeff)`. The result is the returned cost paired with
the logic object on return; the only member the function assigns is `mFirstCost`. The copy
`tempSrep` is `mSrep` refined by `coeff`. -/
def EvaluateObjectiveFunction {Srep : Type} (K : Collaborators Srep) (L : RefinerLogic Srep)
    (coeff : List ℚ) : ℚ × RefinerLogic Srep :=
  match L.mSrep with
  | none => (-100000, L)
  | some srep =>
    let tempSrep := K.Refine srep coeff
    let terms := imageMatchTerms K L tempSrep
    let imageDist := terms.1
    let normal := terms.2
    let srad := ComputeRSradPenalty K L tempSrep
    let L' := if L.mFirstCost then { L with mFirstCost := false } else L
    (L.mWtImageMatch * imageDist + L.mWtNormalMatch * normal + L.mWtSrad * srad, L')

/-! ## The grid objects behind the pointers -/

/-- Modelled from the spec: the store of `vtkSrep` objects, the grid living at each address and
`none` where no object lives. A grid object owns its spokes, so objects at different addresses
share no storage: `Any fork of the grid for a throwaway cost evaluation must be a full deep
copy`. -/
def SrepStore (Srep : Type) : Type := Nat → Option Srep

/-- Modelled from the spec: the call `target->DeepCopy(*source)` of `vtkSrep`, whose source is
not at hand, on the object made by `new vtkSrep()` at `target`: that object becomes `a full
deep copy` of the object at `source`, and no other object changes. -/
def SrepStore.DeepCopy {Srep : Type} (store : SrepStore Srep) (target source : Nat) :
    SrepStore Srep :=
  fun a => if a = target then store source else store a

/-- Modelled from the spec: a member function of `vtkSrep` that changes its receiver in place,
such as `Refine(coeff)` or the `SetNeighborU`/`SetNeighborV` calls made on the spokes of a
grid: the object at `target` becomes `f` of what it was, and no other object changes. -/
def SrepStore.Mutate {Srep : Type} (store : SrepStore Srep) (target : Nat) (f : Srep → Srep) :
    SrepStore Srep :=
  fun a => if a = target then (store a).map f else store a

/-- The statement `delete tempSrep`: no object lives at `target` any more. -/
def SrepStore.Delete {Srep : Type} (store : SrepStore Srep) (target : Nat) : SrepStore Srep :=
  fun a => if a = target then none else store a

/-- The logic object with the grid `g` in place of what its member `mSrep` holds; every other
member is kept. -/
def RefinerLogic.atGrid {A B : Type} (L : RefinerLogic A) (g : Option B) : RefinerLogic B where
  mSrep := g
  mAntiAliasedImage := L.mAntiAliasedImage
  mGradDistImage := L.mGradDistImage
  mTransformationMat := L.mTransformationMat
  mWtImageMatch := L.mWtImageMatch
  mWtNormalMatch := L.mWtNormalMatch
  mWtSrad := L.mWtSrad
  mInterpolatePositions := L.mInterpolatePositions
  mCoeffArray := L.mCoeffArray
  mNumRows := L.mNumRows
  mNumCols := L.mNumCols
  mFirstCost := L.mFirstCost

/-- The function `EvaluateObjectiveFunction(coeff)` with the grid objects made explicit. The
member `mSrep` of `L` is the address held by the pointer, `fresh` is the address returned by
`new vtkSrep()`, and `annotate` is the effect on a grid of the `SetNeighborU`/`SetNeighborV`
calls that `ComputeRSradPenalty` makes on its spokes. The statements touching the store are, in
order, `tempSrep->DeepCopy(*mSrep)`, `tempSrep->Refine(coeff)`, the annotations and
`delete tempSrep`. The result is the returned cost, the logic object and the store on return;
it is `none` when `mSrep` points to no object, which has no defined behaviour. -/
def EvaluateObjectiveFunctionOnStore {Srep : Type} (K : Collaborators Srep)
    (L : RefinerLogic Nat) (store : SrepStore Srep) (fresh : Nat) (annotate : Srep → Srep)
    (coeff : List ℚ) : Option (ℚ × RefinerLogic Nat × SrepStore Srep) :=
  match L.mSrep with
  | none => some (-100000, L, store)
  | some p =>
    let store1 := store.DeepCopy fresh p
    let store2 := store1.Mutate fresh fun g => K.Refine g coeff
    match store2 fresh with
    | none => none
    | some tempSrep =>
      let terms := imageMatchTerms K (L.atGrid (store p)) tempSrep
      let imageDist := terms.1
      let normal := terms.2
      let srad := ComputeRSradPenalty K (L.atGrid (store p)) tempSrep
      let store3 := store2.Mutate fresh annotate
      let L2 := if L.mFirstCost then { L with mFirstCost := false } else L
      let store4 := store3.Delete fresh
      some (L.mWtImageMatch * imageDist + L.mWtNormalMatch * normal + L.mWtSrad * srad, L2,
        store4)

/-! ## Derived descriptions used in the statements -/

/-- The spokes handed to `ComputeDistance` while the spoke at `(r, c)` is processed: the spoke
itself, then one interpolated spoke per interpolation position and dispatched quad. -/
def sampledSpokesAt {Srep : Type} (K : Collaborators Srep) (L : RefinerLogic Srep)
    (tempSrep : Srep) (i : Nat) : List vtkSpoke :=
  let r : Int := Int.tdiv i L.mNumCols
  let c : Int := Int.tmod i L.mNumCols
  K.GetSpoke tempSrep r c :: L.mInterpolatePositions.flatMap fun uv =>
    (quadDispatch L.mNumRows L.mNumCols r c).map fun site =>
      K.Interpolate (srepSetup K tempSrep site r c) uv.1 uv.2

/-- All spokes handed to `ComputeDistance` by one evaluation, in call order. -/
def sampledSpokes {Srep : Type} (K : Collaborators Srep) (L : RefinerLogic Srep)
    (tempSrep : Srep) : List vtkSpoke :=
  (List.range (spokeNum L)).flatMap (sampledSpokesAt K L tempSrep)

/-- One accumulation step `imageDist += ComputeDistance(spoke, &normal)` on the pair
`(imageDist, normal)`. -/
def accumulate {Srep : Type} (K : Collaborators Srep) (L : RefinerLogic Srep) (acc : ℚ × ℚ)
    (s : vtkSpoke) : ℚ × ℚ :=
  ((acc.1 + (ComputeDistance K L s acc.2).1), (ComputeDistance K L s acc.2).2)

/-- The four corner cells of the grid quad whose top-left cell is `(qr, qc)`, in the fixed
order (row,col), (row+1,col), (row+1,col+1), (row,col+1). -/
def quadCorners (qr qc : Int) : List (Int × Int) :=
  [(qr, qc), (qr + 1, qc), (qr + 1, qc + 1), (qr, qc + 1)]

/-- The quads sampled for the spoke at `(r, c)` at one interpolation position, each given by
the cells of its four corner spokes. -/
def sampledQuads (mNumRows mNumCols r c : Int) : List (List (Int × Int)) :=
  (quadDispatch mNumRows mNumCols r c).map fun site => cornerCells site r c

/-! ## Concrete data for instantiating the statements -/

/-- A plain grid: row and column counts and the spokes in row-major order. -/
structure GridSrep where
  nRows : Int
  nCols : Int
  spokes : List vtkSpoke

/-- Spoke `(r, c)` of a plain grid (a zero spoke outside it). -/
def GridSrep.spokeAt (g : GridSrep) (r c : Int) : vtkSpoke :=
  g.spokes.getD (r * g.nCols + c).toNat ⟨⟨0, 0, 0⟩, ⟨0, 0, 0⟩, 0⟩

/-- Collaborators over plain grids, for evaluating the functions on explicit inputs:
`Refine` keeps the grid, `Interpolate` returns the first corner spoke, `Normalize` keeps the
vector and the per-spoke penalty is `0`. -/
def gridCollaborators : Collaborators GridSrep where
  IsEmpty g := g.spokes.isEmpty
  GetNumRows g := g.nRows
  GetNumCols g := g.nCols
  GetSpoke g r c := g.spokeAt r c
  GetAllSkeletalPoints g :=
    g.spokes.flatMap fun s => [s.skeletalPoint.x, s.skeletalPoint.y, s.skeletalPoint.z]
  Refine g _ := g
  Interpolate setup _ _ := setup.cornerSpokes.getD 0 ⟨⟨0, 0, 0⟩, ⟨0, 0, 0⟩, 0⟩
  Normalize n := n
  GetRSradPenalty _ _ _ _ _ _ := 0

/-- A spoke at skeletal point `(x, y, 0)` pointing along `z` with radius `1`. -/
def flatSpoke (x y : ℚ) : vtkSpoke := ⟨⟨x, y, 0⟩, ⟨0, 0, 1⟩, 1⟩

/-- A `2 × 2` grid whose skeletal points `(0,0,0)`, `(1,0,0)`, `(0,1,0)`, `(2,1,0)` do not form
a parallelogram. -/
def skewGrid : GridSrep :=
  ⟨2, 2, [flatSpoke 0 0, flatSpoke 1 0, flatSpoke 0 1, flatSpoke 2 1]⟩

/-- A logic object holding `skewGrid` with both images absent, unit weights, the level-1
interpolation positions and one coefficient 4-tuple per spoke. -/
def skewLogic : RefinerLogic GridSrep where
  mSrep := some skewGrid
  mAntiAliasedImage := none
  mGradDistImage := none
  mTransformationMat := fun _ _ => 0
  mWtImageMatch := 1
  mWtNormalMatch := 1
  mWtSrad := 1
  mInterpolatePositions := RefineInterpolatePositions 1
  mCoeffArray := List.replicate 16 0
  mNumRows := 2
  mNumCols := 2
  mFirstCost := true

/-- The logic object `skewLogic` with its grid pointer null. -/
def emptyLogic : RefinerLogic GridSrep := { skewLogic with mSrep := none }

/-- The logic object `skewLogic` with a distance image that is zero everywhere and a gradient
image pointing along `z` everywhere. -/
def zeroFieldLogic : RefinerLogic GridSrep :=
  { skewLogic with
    mAntiAliasedImage := some fun _ _ _ => 0
    mGradDistImage := some fun _ _ _ => ⟨0, 0, 1⟩ }

/-- The logic object `skewLogic` with a distance image that is `4097/4096 = 1 + 2^-12`
everywhere, a value a `float` holds exactly, and a gradient image pointing along `y`. -/
def fineFieldLogic : RefinerLogic GridSrep :=
  { skewLogic with
    mAntiAliasedImage := some fun _ _ _ => 4097 / 4096
    mGradDistImage := some fun _ _ _ => ⟨0, 1, 0⟩ }

/-- Collaborators over plain grids whose per-spoke penalty is the number of neighbours stored
on the spoke, `U` and `V` together. -/
def countingCollaborators : Collaborators GridSrep :=
  { gridCollaborators with
    GetRSradPenalty := fun _ neighborU _ neighborV _ _ =>
      ((neighborU.length + neighborV.length : Nat) : ℚ) }

/-- A `3 × 3` grid of flat spokes at the points `(r, c, 0)`. -/
def flatGrid3 : GridSrep :=
  ⟨3, 3, [flatSpoke 0 0, flatSpoke 0 1, flatSpoke 0 2, flatSpoke 1 0, flatSpoke 1 1,
    flatSpoke 1 2, flatSpoke 2 0, flatSpoke 2 1, flatSpoke 2 2]⟩

/-- A store with the grid `skewGrid` at address `0` and no other object. -/
def skewStore : SrepStore GridSrep := fun a => if a = 0 then some skewGrid else none

/-- A grid of skeletal points `P[r,c] = (r, c, r*c)`. -/
def sampleGrid (r c : Nat) : Vec3 := ⟨r, c, r * c⟩

/-! ## `OptimizeCrestSpokeLength` -/

/-- The constant `epsilon = 1e-5` of `OptimizeCrestSpokeLength`. -/
def crestEpsilon : ℚ := 1 / 100000

/-- Modelled from the spec: `vtkSpoke::SetRadius`, which replaces the radius and keeps the
skeletal point and the direction. -/
def vtkSpoke.SetRadius (s : vtkSpoke) (r : ℚ) : vtkSpoke := { s with radius := r }

/-- Modelled from the spec: `vtkSpoke::SetSkeletalPoint`, which replaces the skeletal point and
keeps the direction and the radius. -/
def vtkSpoke.SetSkeletalPoint (s : vtkSpoke) (x y z : ℚ) : vtkSpoke :=
  { s with skeletalPoint := ⟨x, y, z⟩ }

/-- The value of an `int` that is assigned the arithmetic result `x`: `x` itself inside the
32-bit range. An `iter++` beyond `INT_MAX` is undefined in C++; the machine wraps around to
`INT_MIN`. -/
def wrapInt32 (x : Int) : Int := (x + 2147483648) % 4294967296 - 2147483648

/-- The local variables of `OptimizeCrestSpokeLength` that live across iterations; the radius
of the target spoke always equals `newR`. The counter `iter` is an `int`. -/
structure CrestSearch where
  newR : ℚ
  stepSize : ℚ
  dist : ℚ
  oldDist : ℚ
  iter : Int

/-- The distance seen by the search at radius `r`:
`distanceFunction->FunctionValue` at the boundary point of the target spoke with that radius. -/
def radiusDistance (distanceFunction : Vec3 → ℚ) (targetSpoke : vtkSpoke) (r : ℚ) : ℚ :=
  distanceFunction (targetSpoke.SetRadius r).GetBoundaryPoint

/-- One pass through the body of the `while` loop up to and including `iter++`: shorten the
spoke when `dist > 0`, lengthen it otherwise, re-evaluate the distance, and when
`oldDist * dist < 0` divide the step by `10` and remember the new distance. -/
def crestBody (distanceFunction : Vec3 → ℚ) (targetSpoke : vtkSpoke) (s : CrestSearch) :
    CrestSearch :=
  if s.dist > 0 then
    let newR := s.newR - s.stepSize
    let dist := radiusDistance distanceFunction targetSpoke newR
    if s.oldDist * dist < 0 then ⟨newR, s.stepSize / 10, dist, dist, wrapInt32 (s.iter + 1)⟩
    else ⟨newR, s.stepSize, dist, s.oldDist, wrapInt32 (s.iter + 1)⟩
  else
    let newR := s.newR + s.stepSize
    let dist := radiusDistance distanceFunction targetSpoke newR
    if s.oldDist * dist < 0 then ⟨newR, s.stepSize / 10, dist, dist, wrapInt32 (s.iter + 1)⟩
    else ⟨newR, s.stepSize, dist, s.oldDist, wrapInt32 (s.iter + 1)⟩

/-- The loop `while(abs(dist) > epsilon) { …; iter++; if(iter > maxIter) break; }` run for at
most `fuel` passes; the result is the state on leaving the loop. -/
def crestLoop (distanceFunction : Vec3 → ℚ) (targetSpoke : vtkSpoke) (maxIter : Int) :
    Nat → CrestSearch → CrestSearch
  | 0, s => s
  | fuel + 1, s =>
    if |s.dist| > crestEpsilon then
      let s' := crestBody distanceFunction targetSpoke s
      if s'.iter > maxIter then s'
      else crestLoop distanceFunction targetSpoke maxIter fuel s'
    else s

/-- The states at the head of every pass of the same loop, followed by the state on leaving
it. -/
def crestTrace (distanceFunction : Vec3 → ℚ) (targetSpoke : vtkSpoke) (maxIter : Int) :
    Nat → CrestSearch → List CrestSearch
  | 0, s => [s]
  | fuel + 1, s =>
    if |s.dist| > crestEpsilon then
      let s' := crestBody distanceFunction targetSpoke s
      if s'.iter > maxIter then [s, s']
      else s :: crestTrace distanceFunction targetSpoke maxIter fuel s'
    else [s]

/-- The state before the loop: `dist` at the current radius, `newR = oldR`, `iter = 0`,
`oldDist = dist`. -/
def crestStart (distanceFunction : Vec3 → ℚ) (targetSpoke : vtkSpoke) (stepSize : ℚ) :
    CrestSearch :=
  ⟨targetSpoke.radius, stepSize, distanceFunction targetSpoke.GetBoundaryPoint,
    distanceFunction targetSpoke.GetBoundaryPoint, 0⟩

/-- The number of passes after which the `break` has certainly been taken when `maxIter` is
below `INT_MAX`: `iter` counts the passes from `0` and the loop is left as soon as
`iter > maxIter`. With `maxIter = INT_MAX` no value of the `int iter` exceeds `maxIter`, the
`break` is never taken, and the loop ends only when the distance comes within `epsilon`. -/
def crestFuel (maxIter : Int) : Nat := maxIter.toNat + 1

/-- The local state with which `OptimizeCrestSpokeLength` leaves its loop. -/
def crestFinal (distanceFunction : Vec3 → ℚ) (targetSpoke : vtkSpoke) (stepSize : ℚ)
    (maxIter : Int) : CrestSearch :=
  crestLoop distanceFunction targetSpoke maxIter (crestFuel maxIter)
    (crestStart distanceFunction targetSpoke stepSize)

/-- The function `OptimizeCrestSpokeLength(distanceFunction, targetSpoke, stepSize, maxIter)`;
the result is the target spoke on return. Every pass calls `SetRadius(newR)`, and before the
first pass `newR` is the spoke's own radius. The loop is run with the fuel `crestFuel maxIter`,
which for `maxIter` below `INT_MAX` is enough for it to end. -/
def OptimizeCrestSpokeLength (distanceFunction : Vec3 → ℚ) (targetSpoke : vtkSpoke)
    (stepSize : ℚ) (maxIter : Int) : vtkSpoke :=
  targetSpoke.SetRadius (crestFinal distanceFunction targetSpoke stepSize maxIter).newR

/-! ## The curvature pass of `RefineCrestSpokes` -/

/-- Body of the last loop of `RefineCrestSpokes` for one crest spoke, given the maximum and
minimum curvature at the nearest mesh point: `rCrest = 1 / max(abs(curr_max), abs(curr_min))`,
`rDiff = radius - rCrest`, nothing changes when `rDiff <= 0`, otherwise the skeletal point moves
by `rDiff` along the direction and the radius becomes `rCrest`. When both curvatures are `0`
the `double` quotient is `+∞`, so `rDiff` is `-∞` and the spoke is skipped. -/
def curvatureStep (curr_max curr_min : ℚ) (s : vtkSpoke) : vtkSpoke :=
  if max |curr_max| |curr_min| = 0 then s
  else
    let rCrest := 1 / max |curr_max| |curr_min|
    let rDiff := s.radius - rCrest
    if rDiff ≤ 0 then s
    else
      let u := s.direction
      let skeletalPt := s.skeletalPoint
      (s.SetSkeletalPoint (skeletalPt.x + u.x * rDiff) (skeletalPt.y + u.y * rDiff)
        (skeletalPt.z + u.z * rDiff)).SetRadius rCrest

/-- The two passes of `RefineCrestSpokes` over the crest spokes: the length search for every
spoke, then the curvature step for every spoke, where `curvatureAt` gives the maximum and
minimum curvature stored at the mesh point nearest to a boundary point. -/
def RefineCrestSpokes (distanceFunction : Vec3 → ℚ) (curvatureAt : Vec3 → ℚ × ℚ)
    (crestSpokes : List vtkSpoke) (stepSize : ℚ) (maxIter : Int) : List vtkSpoke :=
  let optimized := crestSpokes.map fun s =>
    OptimizeCrestSpokeLength distanceFunction s stepSize maxIter
  optimized.map fun s =>
    curvatureStep (curvatureAt s.GetBoundaryPoint).1 (curvatureAt s.GetBoundaryPoint).2 s

/-! ## `TransformSrep2ImageCS` -/

/-- The array `bounds[6]` filled by `vtkPoints::GetBounds`: minimum and maximum of the `x`, `y`
and `z` coordinates of the points (the uninitialised bounds `1, -1, 1, -1, 1, -1` when there
is no point). -/
def GetBounds : List Vec3 → List ℚ
  | [] => [1, -1, 1, -1, 1, -1]
  | p :: ps =>
    [ps.foldl (fun m q => min m q.x) p.x, ps.foldl (fun m q => max m q.x) p.x,
     ps.foldl (fun m q => min m q.y) p.y, ps.foldl (fun m q => max m q.y) p.y,
     ps.foldl (fun m q => min m q.z) p.z, ps.foldl (fun m q => max m q.z) p.z]

/-- The transformed ranges `(xrangeTrans, yrangeTrans, zrangeTrans)` chosen by the four-way
branch of `TransformSrep2ImageCS`. -/
def transformedRanges (xrange yrange zrange : ℚ) : ℚ × ℚ × ℚ :=
  if xrange ≥ yrange ∧ xrange ≥ zrange then (1, yrange / xrange, zrange / xrange)
  else if yrange ≥ xrange ∧ yrange ≥ zrange then (xrange / yrange, 1, zrange / yrange)
  else if zrange ≥ xrange ∧ zrange ≥ yrange then (xrange / zrange, yrange / zrange, 1)
  else (1, 1, 1)

/-- The function `TransformSrep2ImageCS(input, mat4x4)` on a grid whose `IsEmpty()` is `isEmpty`
and whose `GetAllSpokes()` is `spokes`; the result is the matrix on return. For an empty grid
the matrix is left as it was; otherwise all sixteen entries are assigned. Coordinates are
exact: the single-precision storage of `vtkPoints` is not modelled. -/
def TransformSrep2ImageCS (isEmpty : Bool) (spokes : List vtkSpoke) (mat4x4 : Nat → Nat → ℚ) :
    Nat → Nat → ℚ :=
  if isEmpty then mat4x4
  else
    let bounds := GetBounds (spokes.map fun s => s.GetBoundaryPoint)
    let xrange := bounds.getD 1 0 - bounds.getD 0 0
    let yrange := bounds.getD 3 0 - bounds.getD 2 0
    let zrange := bounds.getD 5 0 - bounds.getD 4 0
    let t := transformedRanges xrange yrange zrange
    let xrangeTrans := t.1
    let yrangeTrans := t.2.1
    let zrangeTrans := t.2.2
    let xoriginTrans := 1 / 2 - xrangeTrans / 2
    let yoriginTrans := 1 / 2 - yrangeTrans / 2
    let zoriginTrans := 1 / 2 - zrangeTrans / 2
    fun i j =>
      match i, j with
      | 0, 0 => xrangeTrans / xrange
      | 1, 1 => yrangeTrans / yrange
      | 2, 2 => zrangeTrans / zrange
      | 3, 0 => xoriginTrans - xrangeTrans * bounds.getD 0 0 / xrange
      | 3, 1 => yoriginTrans - yrangeTrans * bounds.getD 2 0 / yrange
      | 3, 2 => zoriginTrans - zrangeTrans * bounds.getD 4 0 / zrange
      | 3, 3 => 1
      | 0, 1 => 0
      | 0, 2 => 0
      | 0, 3 => 0
      | 1, 0 => 0
      | 1, 2 => 0
      | 1, 3 => 0
      | 2, 0 => 0
      | 2, 1 => 0
      | 2, 3 => 0
      | _, _ => mat4x4 i j

/-- The point `[x, y, z, 1] * mat4x4` as computed by `ComputeDistance` and `Transform2ImageCS`:
each coordinate is scaled by the diagonal entry and shifted by the entry of row `3`. -/
def applyTransform (mat4x4 : Nat → Nat → ℚ) (p : Vec3) : Vec3 :=
  ⟨p.x * mat4x4 0 0 + mat4x4 3 0, p.y * mat4x4 1 1 + mat4x4 3 1, p.z * mat4x4 2 2 + mat4x4 3 2⟩

/-- The bounding box `bounds[6]` of the boundary points of a list of spokes, as computed at the
start of `TransformSrep2ImageCS`. -/
def boundaryBounds (spokes : List vtkSpoke) : List ℚ :=
  GetBounds (spokes.map fun s => s.GetBoundaryPoint)

/-- The extent `bounds[2*axis+1] - bounds[2*axis]` of a bounding box along an axis
(`0`, `1`, `2` for `x`, `y`, `z`). -/
def boundsRange (bounds : List ℚ) (axis : Nat) : ℚ :=
  bounds.getD (2 * axis + 1) 0 - bounds.getD (2 * axis) 0

/-- The largest of the three extents of a bounding box. -/
def maxRange (bounds : List ℚ) : ℚ :=
  max (max (boundsRange bounds 0) (boundsRange bounds 1)) (boundsRange bounds 2)

/-- Three spokes whose boundary points `(0,0,1)`, `(4,1,1)` and `(2,2,3)` span a box of extents
`4`, `2` and `2`. -/
def boxSpokes : List vtkSpoke :=
  [flatSpoke 0 0, flatSpoke 4 1, ⟨⟨2, 2, 0⟩, ⟨0, 0, 1⟩, 3⟩]

/-! ## The interpolater, from its description -/

/-- Modelled from the spec: the cubic Hermite basis function weighting the value at end `k` of
the unit interval (`k = 0` or `1`), part of the `bicubic Hermite blend` of the interpolater
`vtkSlicerSkeletalRepresentationInterpolater`, whose source is not at hand. -/
def hermiteValue (k : Nat) (t : ℚ) : ℚ :=
  if k = 0 then 2 * t ^ 3 - 3 * t ^ 2 + 1 else -2 * t ^ 3 + 3 * t ^ 2

/-- Modelled from the spec: the cubic Hermite basis function weighting the derivative input at
end `k` of the unit interval, part of the same blend of the interpolater. -/
def hermiteSlope (k : Nat) (t : ℚ) : ℚ :=
  if k = 0 then t ^ 3 - 2 * t ^ 2 + t else t ^ 3 - t ^ 2

/-- Modelled from the spec: the parametric corner `(u, v)` of the quad at which corner spoke `k`
sits, the interpolater's fixed corner order (row,col), (row+1,col), (row+1,col+1), (row,col+1)
being `(0,0)`, `(1,0)`, `(1,1)`, `(0,1)`. -/
def cornerParam (k : Nat) : Nat × Nat :=
  match k with
  | 0 => (0, 0)
  | 1 => (1, 0)
  | 2 => (1, 1)
  | _ => (0, 1)

/-- Modelled from the spec: the `bicubic Hermite blend of the four corners` of the interpolater,
for one scalar quantity with corner values `c` and derivative inputs `du`, `dv` at the four
corners. -/
def hermiteBlend (u v : ℚ) (c du dv : List ℚ) : ℚ :=
  ([0, 1, 2, 3].map fun k =>
    hermiteValue (cornerParam k).1 u * hermiteValue (cornerParam k).2 v * c.getD k 0
      + hermiteSlope (cornerParam k).1 u * hermiteValue (cornerParam k).2 v * du.getD k 0
      + hermiteValue (cornerParam k).1 u * hermiteSlope (cornerParam k).2 v * dv.getD k 0).sum

/-- Modelled from the spec: the same blend of the interpolater applied to each coordinate of a
vector quantity. -/
def hermiteBlendVec (u v : ℚ) (c du dv : List Vec3) : Vec3 :=
  ⟨hermiteBlend u v (c.map fun p => p.x) (du.map fun p => p.x) (dv.map fun p => p.x),
   hermiteBlend u v (c.map fun p => p.y) (du.map fun p => p.y) (dv.map fun p => p.y),
   hermiteBlend u v (c.map fun p => p.z) (du.map fun p => p.z) (dv.map fun p => p.z)⟩

/-- Modelled from the spec: the method `Interpolate(u, v, cornerSpokes, interpolatedSpoke)` of
`vtkSlicerSkeletalRepresentationInterpolater`, whose source is not at hand: `the produced
spoke's skeletal point, direction, and radius are each obtained by a bicubic Hermite blend of
the four corners using the supplied tangents as the Hermite basis's derivative inputs;
direction is renormalized after blending`. The spec does not say how a tangent vector enters
the blend of the scalar radius, so that is the parameter `radiusSlope`; `normalize` is
`vtkMath::Normalize`. -/
def hermiteInterpolate (normalize : Vec3 → Vec3) (radiusSlope : Vec3 → ℚ)
    (setup : InterpolaterSetup) (u v : ℚ) : vtkSpoke :=
  { skeletalPoint := hermiteBlendVec u v (setup.cornerSpokes.map fun s => s.skeletalPoint)
      setup.cornerDxdu setup.cornerDxdv
    direction := normalize (hermiteBlendVec u v (setup.cornerSpokes.map fun s => s.direction)
      setup.cornerDxdu setup.cornerDxdv)
    radius := hermiteBlend u v (setup.cornerSpokes.map fun s => s.radius)
      (setup.cornerDxdu.map radiusSlope) (setup.cornerDxdv.map radiusSlope) }

/-! ## `InterpolateCrest` -/

/-- The vector `steps` of `InterpolateCrest`: `i * interval` for `i = 0..shares`, with
`int shares = static_cast<int>(pow(2, interpolationLevel))` and `interval = 1.0 / shares`. From
level `31` on the power does not fit an `int`, `shares` is negative and the loop
`for(int i = 0; i <= shares; ++i)` pushes nothing. -/
def crestSteps (interpolationLevel : Nat) : List ℚ :=
  let shares : Int := truncToInt ((2 : ℚ) ^ interpolationLevel)
  let interval : ℚ := 1 / (shares : ℚ)
  (List.range (shares + 1).toNat).map fun i : Nat => (i : ℚ) * interval

/-- The vector `skeletalPts` filled at the start of `InterpolateCrest`: the three coordinates
of the skeletal point of every interior spoke, in order. -/
def crestSkeletalPts (interiorSpokes : List vtkSpoke) : List ℚ :=
  interiorSpokes.flatMap fun s => [s.skeletalPoint.x, s.skeletalPoint.y, s.skeletalPoint.z]

/-- One loop `for(size_t sj = 0; sj < steps.size(); ++sj)` of `InterpolateCrest`, acting on the
pair of output vectors `(crest, interior)`. The loop makes `in1` and `in2` for every step and
pushes one onto each vector. With `alongV` the calls are `Interpolate(0.0, steps[sj])` for
`in1` and `Interpolate(1.0, steps[sj])` for `in2`, otherwise `Interpolate(steps[sj], 0.0)` and
`Interpolate(steps[sj], 1.0)`; `crestFirst` tells whether `crest` receives `in1` (and
`interior` receives `in2`) or the other way round; `reversed` tells whether the two
`std::reverse` calls on the segments added by this loop follow it. -/
def pushInterpolated (interpolate : InterpolaterSetup → ℚ → ℚ → vtkSpoke) (steps : List ℚ)
    (setup : InterpolaterSetup) (alongV crestFirst reversed : Bool)
    (out : List vtkSpoke × List vtkSpoke) : List vtkSpoke × List vtkSpoke :=
  let in1 := steps.map fun t => if alongV then interpolate setup 0 t else interpolate setup t 0
  let in2 := steps.map fun t => if alongV then interpolate setup 1 t else interpolate setup t 1
  let newCrest := if crestFirst then in1 else in2
  let newInterior := if crestFirst then in2 else in1
  if reversed then (out.1 ++ newCrest.reverse, out.2 ++ newInterior.reverse)
  else (out.1 ++ newCrest, out.2 ++ newInterior)

/-- The tangents handed to `SetCornerDxdu(dXdu11, dXdu21, dXdu22, dXdu12)` and
`SetCornerDxdv(dXdv11, dXdv21, dXdv22, dXdv12)` in iteration `i` of the loop `top row` of
`InterpolateCrest`. The arguments `dXdu11`, `dXdv11` are the contents of these two local arrays
on entry to the iteration. The loop body assigns `dXdu11[0]` (twice) and `dXdu11[1]` from
`dXdu21`, and `dXdv11[2]` (twice) and `dXdv11[1]` from `dXdv21`; it has no statement assigning
`dXdu11[2]` or `dXdv11[0]`. -/
def topRowTangents (dXdu11 dXdv11 : Vec3) (skeletalPts : List ℚ) (i nRows nCols : Nat) :
    List Vec3 × List Vec3 :=
  let d21 := ComputeDerivative skeletalPts 0 i nRows nCols
  let d22 := ComputeDerivative skeletalPts 0 (i + 1 : Nat) nRows nCols
  let dXdu11 : Vec3 := ⟨d21.1.x, d21.1.y, dXdu11.z⟩
  let dXdv11 : Vec3 := ⟨dXdv11.x, d21.2.y, d21.2.z⟩
  let dXdu12 : Vec3 := ⟨d22.1.x, d22.1.y, d22.1.z⟩
  let dXdv12 : Vec3 := ⟨d22.2.x, d22.2.y, d22.2.z⟩
  ([dXdu11, d21.1, d22.1, dXdu12], [dXdv11, d21.2, d22.2, dXdv12])

/-- Body of the loop `top row` of `InterpolateCrest` for column `i`. The local arrays `dXdu11`
and `dXdv11` are declared without an initial value and the components `dXdu11[2]`, `dXdv11[0]`
are assigned nowhere in this loop, so in every iteration they hold the contents the arrays had
when the function was entered: the parameters `dXdu11`, `dXdv11`. A read of a vector element
past its end has no value: the result is then `none`. -/
def topRowBlock (interpolate : InterpolaterSetup → ℚ → ℚ → vtkSpoke) (dXdu11 dXdv11 : Vec3)
    (crestSpoke interiorSpokes : List vtkSpoke) (steps : List ℚ) (nRows nCols : Nat)
    (out : List vtkSpoke × List vtkSpoke) (i : Nat) : Option (List vtkSpoke × List vtkSpoke) := do
  let tangents := topRowTangents dXdu11 dXdv11 (crestSkeletalPts interiorSpokes) i nRows nCols
  let c0 ← crestSpoke[i]?
  let c1 ← interiorSpokes[i]?
  let c2 ← interiorSpokes[i + 1]?
  let c3 ← crestSpoke[i + 1]?
  pure (pushInterpolated interpolate steps ⟨[c0, c1, c2, c3], tangents.1, tangents.2⟩
    true true false out)

/-- The block `top right edge` of `InterpolateCrest`: the derivatives at `(0, nCols-1)` and
`(1, nCols-1)` with `dXdv` multiplied by `-1`, copied to the other two corners. -/
def topRightBlock (interpolate : InterpolaterSetup → ℚ → ℚ → vtkSpoke)
    (crestSpoke interiorSpokes : List vtkSpoke) (steps : List ℚ) (nRows nCols : Nat)
    (out : List vtkSpoke × List vtkSpoke) : Option (List vtkSpoke × List vtkSpoke) := do
  let skeletalPts := crestSkeletalPts interiorSpokes
  let c0 ← interiorSpokes[nCols - 1]?
  let c1 ← interiorSpokes[nCols - 1 + nCols]?
  let c2 ← crestSpoke[nCols + 1]?
  let c3 ← crestSpoke[nCols - 1]?
  let d11 := ComputeDerivative skeletalPts 0 ((nCols : Int) - 1) nRows nCols
  let d21 := ComputeDerivative skeletalPts 1 ((nCols : Int) - 1) nRows nCols
  let dXdv11 := Vec3.smul (-1) d11.2
  let dXdv21 := Vec3.smul (-1) d21.2
  pure (pushInterpolated interpolate steps
    ⟨[c0, c1, c2, c3], [d11.1, d21.1, d21.1, d11.1], [dXdv11, dXdv21, dXdv21, dXdv11]⟩
    false false false out)

/-- Body of the loop `right col` of `InterpolateCrest` for the loop counter `i`. -/
def rightColBlock (interpolate : InterpolaterSetup → ℚ → ℚ → vtkSpoke)
    (crestSpoke interiorSpokes : List vtkSpoke) (steps : List ℚ) (nRows nCols : Nat)
    (out : List vtkSpoke × List vtkSpoke) (i : Nat) : Option (List vtkSpoke × List vtkSpoke) :=
  let skeletalPts := crestSkeletalPts interiorSpokes
  let r : Nat := (i - nCols) / 2 + 1
  let c : Nat := nCols - 1
  if (i - nCols) % 2 = 0 then pure out
  else do
    let interiorId := nCols * (r + 1) - 1
    let c0 ← interiorSpokes[interiorId]?
    let c1 ← interiorSpokes[interiorId + nCols]?
    let c2 ← crestSpoke[i + 2]?
    let c3 ← crestSpoke[i]?
    let c2 ← if r = nRows - 2 then crestSpoke[i + nCols]? else pure c2
    let d12 := ComputeDerivative skeletalPts r c nRows nCols
    let d22 := ComputeDerivative skeletalPts (r + 1 : Nat) c nRows nCols
    let dXdv12 := Vec3.smul (-1) d12.2
    let dXdv22 := Vec3.smul (-1) d22.2
    pure (pushInterpolated interpolate steps
      ⟨[c0, c1, c2, c3], [d12.1, d22.1, d22.1, d12.1], [dXdv12, dXdv22, dXdv22, dXdv12]⟩
      false false false out)

/-- Body of the loop `Bottom row from right to left` of `InterpolateCrest` for the loop
counter `i`. -/
def bottomRowBlock (interpolate : InterpolaterSetup → ℚ → ℚ → vtkSpoke)
    (crestSpoke interiorSpokes : List vtkSpoke) (steps : List ℚ) (nRows nCols : Nat)
    (out : List vtkSpoke × List vtkSpoke) (i : Nat) : Option (List vtkSpoke × List vtkSpoke) := do
  let skeletalPts := crestSkeletalPts interiorSpokes
  let c : Nat := i - nCols - 2 * (nRows - 2)
  let d11 := ComputeDerivative skeletalPts ((nRows : Int) - 1) c nRows nCols
  let d12 := ComputeDerivative skeletalPts ((nRows : Int) - 1) (c + 1 : Nat) nRows nCols
  let interiorId := (nRows - 1) * nCols + c
  let c0 ← interiorSpokes[interiorId]?
  let c1 ← crestSpoke[i]?
  let c2 ← crestSpoke[i + 1]?
  let c3 ← interiorSpokes[interiorId + 1]?
  pure (pushInterpolated interpolate steps
    ⟨[c0, c1, c2, c3], [d11.1, d11.1, d12.1, d12.1], [d11.2, d11.2, d12.2, d12.2]⟩
    true false true out)

/-- Body of the loop `left col from down up` of `InterpolateCrest` for the loop counter `i`,
with the extra quad at the grid corner `(0, 0)` when `i == nCols`. -/
def leftColBlock (interpolate : InterpolaterSetup → ℚ → ℚ → vtkSpoke)
    (crestSpoke interiorSpokes : List vtkSpoke) (steps : List ℚ) (nRows nCols : Nat)
    (out : List vtkSpoke × List vtkSpoke) (i : Nat) : Option (List vtkSpoke × List vtkSpoke) :=
  let skeletalPts := crestSkeletalPts interiorSpokes
  let r : Nat := (i - nCols) / 2 + 1
  let interiorId := nCols * r
  if (i - nCols) % 2 = 0 then do
    let c0 ← crestSpoke[i]?
    let c1 ← crestSpoke[i + 2]?
    let c2 ← interiorSpokes[interiorId + nCols]?
    let c3 ← interiorSpokes[interiorId]?
    let d12 := ComputeDerivative skeletalPts r 0 nRows nCols
    let d22 := ComputeDerivative skeletalPts (r + 1 : Nat) 0 nRows nCols
    let out := pushInterpolated interpolate steps
      ⟨[c0, c1, c2, c3], [d12.1, d22.1, d22.1, d12.1], [d12.2, d22.2, d22.2, d12.2]⟩
      false true true out
    if i = nCols then do
      let e0 ← crestSpoke[0]?
      let e1 ← crestSpoke[i]?
      let e2 ← interiorSpokes[interiorId]?
      let e3 ← interiorSpokes[0]?
      let f12 := ComputeDerivative skeletalPts 0 0 nRows nCols
      let f22 := ComputeDerivative skeletalPts 1 0 nRows nCols
      pure (pushInterpolated interpolate steps
        ⟨[e0, e1, e2, e3], [f12.1, f22.1, f22.1, f12.1], [f12.2, f22.2, f22.2, f12.2]⟩
        false true true out)
    else pure out
  else pure out

/-- The function `InterpolateCrest(crestSpoke, interiorSpokes, interpolationLevel, nRows, nCols,
crest, interior)`; the result is the pair of the output vectors `(crest, interior)` on return,
or `none` when an element past the end of `crestSpoke` or `interiorSpokes` is read.
`interpolate` is the interpolater's `Interpolate`, and `dXdu11`, `dXdv11` are the contents of
the two local arrays of that name on entry. The row and column counts are natural numbers here
(the callers pass those of a grid, `nRows ≥ 2`): the loop `right col` runs over
`i = nCols+1, nCols+3, …` below `nCols + 2*(nRows-2)`, the loop `Bottom row` over
`i = crestSpoke.size()-2` down to `nCols + 2*(nRows-2)`, the loop `left col` over
`i = nCols + 2*(nRows-2) - 2, …` down to `nCols` in steps of `2`. -/
def InterpolateCrest (interpolate : InterpolaterSetup → ℚ → ℚ → vtkSpoke) (dXdu11 dXdv11 : Vec3)
    (crestSpoke interiorSpokes : List vtkSpoke) (interpolationLevel nRows nCols : Nat)
    (crest interior : List vtkSpoke) : Option (List vtkSpoke × List vtkSpoke) := do
  let steps := crestSteps interpolationLevel
  let out ← (List.range (nCols - 1)).foldlM
    (topRowBlock interpolate dXdu11 dXdv11 crestSpoke interiorSpokes steps nRows nCols)
    (crest, interior)
  let out ← topRightBlock interpolate crestSpoke interiorSpokes steps nRows nCols out
  let out ← ((List.range (nRows - 2)).map fun k => nCols + 1 + 2 * k).foldlM
    (rightColBlock interpolate crestSpoke interiorSpokes steps nRows nCols) out
  let out ← (List.range' (nCols + 2 * (nRows - 2))
      (crestSpoke.length - 1 - (nCols + 2 * (nRows - 2)))).reverse.foldlM
    (bottomRowBlock interpolate crestSpoke interiorSpokes steps nRows nCols) out
  ((List.range (nRows - 2)).reverse.map fun k => nCols + 2 * k).foldlM
    (leftColBlock interpolate crestSpoke interiorSpokes steps nRows nCols) out

/-! ## `Transform2ImageCS` -/

/-- The function `Transform2ImageCS(ptInput, ptOutput)`; the result is `ptOutput`. -/
def Transform2ImageCS {Srep : Type} (L : RefinerLogic Srep) (ptInput : Vec3) : Int × Int × Int :=
  let p0 := ptInput.x * L.mTransformationMat 0 0 + L.mTransformationMat 3 0
  let p1 := ptInput.y * L.mTransformationMat 1 1 + L.mTransformationMat 3 1
  let p2 := ptInput.z * L.mTransformationMat 2 2 + L.mTransformationMat 3 2
  let p0 := p0 / voxelSpacing
  let p1 := p1 / voxelSpacing
  let p2 := p2 / voxelSpacing
  let x := truncToInt (p0 + 1 / 2)
  let y := truncToInt (p1 + 1 / 2)
  let z := truncToInt (p2 + 1 / 2)
  let maxX := truncToInt (1 / voxelSpacing - 1)
  let maxY := truncToInt (1 / voxelSpacing - 1)
  let maxZ := truncToInt (1 / voxelSpacing - 1)
  let x := if x > maxX then maxX else x
  let y := if y > maxY then maxY else y
  let z := if z > maxZ then maxZ else z
  let x := if x < 0 then 0 else x
  let y := if y < 0 then 0 else y
  let z := if z < 0 then 0 else z
  (x, y, z)

/-! ## More concrete data -/

/-- Which of the four branches of `TransformSrep2ImageCS` assigns the transformed ranges:
`0`, `1`, `2` for the branches led by `xrange`, `yrange`, `zrange`, and `3` for the final
`else` that sets all three to `1`. -/
def transformedRangesBranch (xrange yrange zrange : ℚ) : Nat :=
  if xrange ≥ yrange ∧ xrange ≥ zrange then 0
  else if yrange ≥ xrange ∧ yrange ≥ zrange then 1
  else if zrange ≥ xrange ∧ zrange ≥ yrange then 2
  else 3

/-- Collaborators over plain grids whose `Interpolate` records the parametric position it is
asked for: the spoke it returns has the skeletal point `(u, v, 0)`. -/
def probeCollaborators : Collaborators GridSrep :=
  { gridCollaborators with Interpolate := fun _ u v => ⟨⟨u, v, 0⟩, ⟨0, 0, 1⟩, 1⟩ }

/-- The logic object `skewLogic` with a distance image that is `1` everywhere and a gradient
image that is the unit vector `(0, 0, -1)` everywhere. -/
def opposedFieldLogic : RefinerLogic GridSrep :=
  { skewLogic with
    mAntiAliasedImage := some fun _ _ _ => 1
    mGradDistImage := some fun _ _ _ => ⟨0, 0, -1⟩ }

/-- The logic object `skewLogic` with the identity transform, for a grid that already lies in
the unit cube. -/
def unitCubeLogic : RefinerLogic GridSrep :=
  { skewLogic with mTransformationMat := fun i j => if i = j then 1 else 0 }

/-- The affine grid of skeletal points `P[r,c] = A + r*U + c*V`. -/
def affineGrid (A U V : Vec3) (r c : Nat) : Vec3 :=
  (A.add (Vec3.smul r U)).add (Vec3.smul c V)

/-- A crest of ten spokes and a `3 × 4` grid of interior spokes at the points of `sampleGrid`,
for running `InterpolateCrest`. -/
def crestRing : List vtkSpoke := (List.range 10).map fun k : Nat => flatSpoke k (-1)

/-- The interior spokes that go with `crestRing`: spoke `(r, c)` of a `3 × 4` grid has the
skeletal point `sampleGrid r c`. -/
def crestInterior : List vtkSpoke :=
  (List.range 12).map fun id => ⟨sampleGrid (id / 4) (id % 4), ⟨0, 0, 1⟩, 1⟩

/-! ## Crest reordering: proofs -/

theorem pushAt_eq {α : Type} (input out : List α) (i : Nat) (h : i < input.length) :
    pushAt input out i = some (out ++ [input[i]]) := by
  simp [pushAt, List.getElem?_eq_getElem h]

theorem pushAt_range {α : Type} (input : List α) :
    ∀ (n a : Nat) (out : List α), a + n ≤ input.length →
      (List.range' a n).foldlM (pushAt input) out = some (out ++ (input.drop a).take n) := by
  intro n
  induction n with
  | zero => intro a out _; simp [List.range']
  | succ n ih =>
    intro a out h
    have ha : a < input.length := by omega
    rw [List.range'_succ, List.foldlM_cons, pushAt_eq input out a ha]
    rw [List.drop_eq_getElem_cons ha, List.take_succ_cons]
    simp only [Option.some_bind, Option.bind_eq_bind]
    rw [ih (a + 1) _ (by omega)]
    simp

theorem pushSidePair_eq {α : Type} (input out : List α) (nCols i : Nat)
    (h : i < input.length) (hk : i - nCols < input.reverse.length) :
    pushSidePair input nCols out i = some (out ++ [input.reverse[i - nCols], input[i]]) := by
  have hb : input.length - (i - nCols + 1) < input.length := by omega
  simp only [pushSidePair, pushAt_eq input out _ hb, Option.bind_eq_bind, Option.some_bind,
    pushAt_eq input _ i h, List.getElem_reverse]
  have e : input.length - 1 - (i - nCols) = input.length - (i - nCols + 1) := by omega
  simp [e]

theorem pushPairs_range {α : Type} (input : List α) (nCols : Nat) :
    ∀ (n k : Nat) (out : List α), nCols + k + n ≤ input.length →
      (List.range' (nCols + k) n).foldlM (pushSidePair input nCols) out
      = some (out ++ interleave ((input.reverse.drop k).take n)
                                ((input.drop (nCols + k)).take n)) := by
  intro n
  induction n with
  | zero => intro k out _; simp [List.range', interleave]
  | succ n ih =>
    intro k out h1
    have ha : nCols + k < input.length := by omega
    have hk : k < input.reverse.length := by simp; omega
    have hk2 : nCols + k - nCols < input.reverse.length := by simp; omega
    rw [List.range'_succ, List.foldlM_cons,
      pushSidePair_eq input out nCols _ ha hk2]
    rw [List.drop_eq_getElem_cons ha, List.drop_eq_getElem_cons hk, List.take_succ_cons,
      List.take_succ_cons]
    simp only [Option.some_bind, Option.bind_eq_bind, interleave]
    have := ih (k + 1) (out ++ [input.reverse[nCols + k - nCols], input[nCols + k]])
      (by omega)
    rw [show nCols + (k + 1) = nCols + k + 1 from rfl] at this
    rw [this]
    simp

theorem interleave_length {α : Type} : ∀ (xs ys : List α), xs.length = ys.length →
    (interleave xs ys).length = 2 * xs.length
  | [], [], _ => by simp [interleave]
  | [], _ :: _, h => by simp at h
  | _ :: _, [], h => by simp at h
  | x :: xs, y :: ys, h => by
    simp only [interleave, List.length_cons]
    rw [interleave_length xs ys (by simpa using h)]
    omega

theorem interleave_perm {α : Type} : ∀ (xs ys : List α), xs.length = ys.length →
    (interleave xs ys).Perm (xs ++ ys)
  | [], [], _ => by simp [interleave]
  | [], _ :: _, h => by simp at h
  | _ :: _, [], h => by simp at h
  | x :: xs, y :: ys, h => by
    simp only [interleave, List.cons_append]
    refine List.Perm.cons x ?_
    refine List.Perm.trans (List.Perm.cons y (interleave_perm xs ys (by simpa using h))) ?_
    exact List.perm_middle.symm

theorem interleave_getElem? {α : Type} : ∀ (xs ys : List α) (k : Nat), xs.length = ys.length →
    (interleave xs ys)[2 * k]? = xs[k]? ∧ (interleave xs ys)[2 * k + 1]? = ys[k]?
  | [], [], k, _ => by simp [interleave]
  | [], _ :: _, _, h => by simp at h
  | _ :: _, [], _, h => by simp at h
  | x :: xs, y :: ys, 0, _ => by simp [interleave]
  | x :: xs, y :: ys, k + 1, h => by
    have := interleave_getElem? xs ys k (by simpa using h)
    simp only [interleave]
    rw [show 2 * (k + 1) = 2 * k + 1 + 1 from by ring]
    simpa using this

/-- Closed form of the reordered crest: the caller's `output`, the top row, the side spokes
paired left/right, and the bottom row reversed. -/
theorem ReorderCrestSpokes_eq {α : Type} (nRows nCols : Nat) (input : List α)
    (hr : 2 ≤ nRows) (hsize : input.length = 2 * (nRows + nCols - 2)) (output : List α) :
    ReorderCrestSpokes nRows nCols input output
      = some (output ++ input.take nCols
          ++ interleave (input.reverse.take (nRows - 2)) ((input.drop nCols).take (nRows - 2))
          ++ ((input.drop (nCols + (nRows - 2))).take nCols).reverse) := by
  have hs : (input.length - 2 * nCols) / 2 = nRows - 2 := by omega
  have hcnt : input.length - (nRows - 2) - (nCols + (nRows - 2)) = nCols := by omega
  unfold ReorderCrestSpokes
  rw [pushAt_range input nCols 0 output (by omega)]
  simp only [Option.bind_eq_bind, Option.some_bind, hs, hcnt]
  have := pushPairs_range input nCols (nRows - 2) 0 (output ++ (input.drop 0).take nCols) (by omega)
  simp only [Nat.add_zero, List.drop_zero] at this
  simp only [List.drop_zero]
  rw [this]
  simp only [Option.some_bind]
  rw [pushAt_range input nCols _ _ (by omega)]
  simp only [Option.some_bind, List.take_left, List.drop_left, Option.pure_def]

/-- C1. For `nRows ≥ 2`, `nCols ≥ 2` and a crest list of size `2*(nRows+nCols-2)`,
`ReorderCrestSpokes` called with an empty `output` returns a list of the same size that is a
permutation of `input`: no spoke is duplicated or dropped. -/
theorem C1_ReorderCrestSpokes_perm {α : Type} (nRows nCols : Nat) (input : List α)
    (hr : 2 ≤ nRows) (_hc : 2 ≤ nCols) (hsize : input.length = 2 * (nRows + nCols - 2)) :
    ∃ out, ReorderCrestSpokes nRows nCols input [] = some out ∧
      out.length = input.length ∧ out.Perm input := by
  refine ⟨_, ReorderCrestSpokes_eq nRows nCols input hr hsize [], ?_, ?_⟩
  · have hl : (input.reverse.take (nRows - 2)).length
        = ((input.drop nCols).take (nRows - 2)).length := by
      simp only [List.length_take, List.length_reverse, List.length_drop]; omega
    simp only [List.nil_append, List.length_append, List.length_reverse, List.length_take,
      List.length_drop, interleave_length _ _ hl]
    omega
  · have hl : (input.reverse.take (nRows - 2)).length
        = ((input.drop nCols).take (nRows - 2)).length := by
      simp only [List.length_take, List.length_reverse, List.length_drop]; omega
    have hsplit : input = input.take nCols ++ ((input.drop nCols).take (nRows - 2)
        ++ ((input.drop (nCols + (nRows - 2))).take nCols
        ++ input.drop (nCols + (nRows - 2) + nCols))) := by
      conv_lhs => rw [← List.take_append_drop nCols input]
      congr 1
      conv_lhs => rw [← List.take_append_drop (nRows - 2) (input.drop nCols)]
      congr 1
      rw [List.drop_drop]
      conv_lhs => rw [← List.take_append_drop nCols (input.drop (nCols + (nRows - 2)))]
      rw [List.drop_drop]
    have hrev : input.reverse.take (nRows - 2)
        = (input.drop (nCols + (nRows - 2) + nCols)).reverse := by
      rw [List.take_reverse]
      congr 2
      omega
    simp only [List.nil_append, List.append_assoc]
    conv_rhs => rw [hsplit]
    refine List.Perm.append_left _ ?_
    refine List.Perm.trans (List.Perm.append_right _ (interleave_perm _ _ hl)) ?_
    rw [hrev, List.append_assoc]
    refine List.Perm.trans List.perm_append_comm ?_
    rw [List.append_assoc]
    refine List.Perm.append_left _ ?_
    exact List.Perm.append (List.reverse_perm _) (List.reverse_perm _)

/-- C1 on a `3 × 3` crest of eight spokes. -/
theorem C1_ReorderCrestSpokes_perm_witness :
    ∃ out, ReorderCrestSpokes 3 3 [10, 11, 12, 13, 14, 15, 16, 17] [] = some out ∧
      out.length = [10, 11, 12, 13, 14, 15, 16, 17].length ∧
      out.Perm [10, 11, 12, 13, 14, 15, 16, 17] :=
  C1_ReorderCrestSpokes_perm 3 3 [10, 11, 12, 13, 14, 15, 16, 17] (by decide) (by decide)
    (by decide)

/-- C2. For a crest list of size `N = 2*(nRows+nCols-2)` with `nRows ≥ 2`, `nCols ≥ 2` and
`s = nRows-2`, the output of `ReorderCrestSpokes` is the top row forward
(`output[i] = input[i]` for `i < nCols`), then the side spokes paired left/right
(`output[nCols+2k] = input[N-1-k]`, `output[nCols+2k+1] = input[nCols+k]` for `k < s`), then the
bottom row reversed (`output[nCols+2s+j] = input[N-s-1-j]` for `j < nCols`). -/
theorem C2_ReorderCrestSpokes_layout {α : Type} (nRows nCols : Nat) (input : List α)
    (hr : 2 ≤ nRows) (_hc : 2 ≤ nCols) (hsize : input.length = 2 * (nRows + nCols - 2)) :
    ∃ out, ReorderCrestSpokes nRows nCols input [] = some out ∧
      out.length = input.length ∧
      (∀ i, i < nCols → out[i]? = input[i]?) ∧
      (∀ k, k < nRows - 2 →
        out[nCols + 2 * k]? = input[input.length - 1 - k]? ∧
        out[nCols + 2 * k + 1]? = input[nCols + k]?) ∧
      (∀ j, j < nCols →
        out[nCols + 2 * (nRows - 2) + j]? = input[input.length - (nRows - 2) - 1 - j]?) := by
  have hl : (input.reverse.take (nRows - 2)).length
      = ((input.drop nCols).take (nRows - 2)).length := by
    simp only [List.length_take, List.length_reverse, List.length_drop]; omega
  have hA : (input.take nCols).length = nCols := by
    simp only [List.length_take]; omega
  have hB : (interleave (input.reverse.take (nRows - 2))
      ((input.drop nCols).take (nRows - 2))).length = 2 * (nRows - 2) := by
    rw [interleave_length _ _ hl]; simp only [List.length_take, List.length_reverse]; omega
  have hC : (((input.drop (nCols + (nRows - 2))).take nCols).reverse).length = nCols := by
    simp only [List.length_reverse, List.length_take, List.length_drop]; omega
  refine ⟨_, ReorderCrestSpokes_eq nRows nCols input hr hsize [], ?_, ?_, ?_, ?_⟩
  · simp only [List.nil_append, List.length_append, hA, hB, hC]; omega
  · intro i hi
    simp only [List.nil_append, List.append_assoc]
    rw [List.getElem?_append_left (by omega), List.getElem?_take]
    simp [hi]
  · intro k hk
    have hi := interleave_getElem? _ _ k hl
    simp only [List.nil_append]
    constructor
    · rw [List.getElem?_append_left (by simp only [List.length_append, hA, hB]; omega),
        List.getElem?_append_right (by omega), hA,
        show nCols + 2 * k - nCols = 2 * k from by omega, hi.1, List.getElem?_take,
        if_pos hk, List.getElem?_reverse (by omega)]
    · rw [List.getElem?_append_left (by simp only [List.length_append, hA, hB]; omega),
        List.getElem?_append_right (by omega), hA,
        show nCols + 2 * k + 1 - nCols = 2 * k + 1 from by omega, hi.2, List.getElem?_take,
        if_pos hk, List.getElem?_drop]
  · intro j hj
    simp only [List.nil_append]
    rw [List.getElem?_append_right (by simp only [List.length_append, hA, hB]; omega)]
    simp only [List.length_append, hA, hB]
    rw [show nCols + 2 * (nRows - 2) + j - (nCols + 2 * (nRows - 2)) = j from by omega,
      List.getElem?_reverse (by simp only [List.length_take, List.length_drop]; omega),
      List.getElem?_take, List.getElem?_drop]
    simp only [List.length_take, List.length_drop]
    rw [if_pos (by omega)]
    congr 1
    omega

/-- C2 on a `4 × 2` crest of eight spokes. -/
theorem C2_ReorderCrestSpokes_layout_witness :
    ∃ out, ReorderCrestSpokes 4 2 [10, 11, 12, 13, 14, 15, 16, 17] [] = some out ∧
      out.length = [10, 11, 12, 13, 14, 15, 16, 17].length ∧
      (∀ i, i < 2 → out[i]? = [10, 11, 12, 13, 14, 15, 16, 17][i]?) ∧
      (∀ k, k < 4 - 2 →
        out[2 + 2 * k]? = [10, 11, 12, 13, 14, 15, 16, 17][
          [10, 11, 12, 13, 14, 15, 16, 17].length - 1 - k]? ∧
        out[2 + 2 * k + 1]? = [10, 11, 12, 13, 14, 15, 16, 17][2 + k]?) ∧
      (∀ j, j < 2 →
        out[2 + 2 * (4 - 2) + j]? = [10, 11, 12, 13, 14, 15, 16, 17][
          [10, 11, 12, 13, 14, 15, 16, 17].length - (4 - 2) - 1 - j]?) :=
  C2_ReorderCrestSpokes_layout 4 2 [10, 11, 12, 13, 14, 15, 16, 17] (by decide) (by decide)
    (by decide)

/-! ## Grid tangents: proofs -/

theorem flatTriples_length (f : Nat → Vec3) (n : Nat) :
    ((List.range n).flatMap fun id => [(f id).x, (f id).y, (f id).z]).length = 3 * n := by
  induction n with
  | zero => simp
  | succ n ih => rw [List.range_succ, List.flatMap_append, List.length_append, ih]; simp; omega

theorem flatTriples_getElem? (f : Nat → Vec3) (n i : Nat) (hi : i < n) :
    ((List.range n).flatMap fun id => [(f id).x, (f id).y, (f id).z])[i * 3]? = some (f i).x ∧
    ((List.range n).flatMap fun id => [(f id).x, (f id).y, (f id).z])[i * 3 + 1]?
      = some (f i).y ∧
    ((List.range n).flatMap fun id => [(f id).x, (f id).y, (f id).z])[i * 3 + 2]?
      = some (f i).z := by
  induction n with
  | zero => omega
  | succ n ih =>
    rw [List.range_succ, List.flatMap_append]
    by_cases h : i < n
    · have := ih h
      rw [List.getElem?_append_left (by rw [flatTriples_length]; omega),
        List.getElem?_append_left (by rw [flatTriples_length]; omega),
        List.getElem?_append_left (by rw [flatTriples_length]; omega)]
      exact this
    · have e : i = n := by omega
      subst e
      rw [List.getElem?_append_right (by rw [flatTriples_length]; omega),
        List.getElem?_append_right (by rw [flatTriples_length]; omega),
        List.getElem?_append_right (by rw [flatTriples_length]; omega), flatTriples_length]
      rw [show i * 3 - 3 * i = 0 from by omega, show i * 3 + 1 - 3 * i = 1 from by omega,
        show i * 3 + 2 - 3 * i = 2 from by omega]
      simp

/-- Reading the row-major storage at a cell of the grid returns that cell's point. -/
theorem pointAt_flattenGrid (P : Nat → Nat → Vec3) (nRows nCols r c : Nat)
    (hr : r < nRows) (hc : c < nCols) :
    pointAt (flattenGrid P nRows nCols) (r * nCols + c) = P r c := by
  have hid : r * nCols + c < nRows * nCols := by
    calc r * nCols + c < r * nCols + nCols := by omega
      _ = (r + 1) * nCols := by ring
      _ ≤ nRows * nCols := Nat.mul_le_mul_right _ hr
  have hdiv : (r * nCols + c) / nCols = r := by
    rw [Nat.add_comm, Nat.add_mul_div_right _ _ (by omega), Nat.div_eq_of_lt hc, Nat.zero_add]
  have hmod : (r * nCols + c) % nCols = c := by
    rw [Nat.add_comm, Nat.add_mul_mod_self_right, Nat.mod_eq_of_lt hc]
  have h := flatTriples_getElem? (fun id => P (id / nCols) (id % nCols)) (nRows * nCols)
    (r * nCols + c) hid
  simp only [hdiv, hmod] at h
  unfold pointAt flattenGrid
  simp only [List.getD_eq_getElem?_getD, h.1, h.2.1, h.2.2, Option.getD_some]

/-- The differences taken by `ComputeDerivative` on a row-major grid, cell by cell. -/
theorem ComputeDerivative_flattenGrid (P : Nat → Nat → Vec3) (nRows nCols r c : Nat)
    (hR : 2 ≤ nRows) (hC : 2 ≤ nCols) (hr : r < nRows) (hc : c < nCols) :
    ComputeDerivative (flattenGrid P nRows nCols) r c nRows nCols =
      (if r = 0 then (P 1 c).sub (P 0 c)
       else if r = nRows - 1 then (P r c).sub (P (r - 1) c)
       else Vec3.smul (1 / 2) ((P (r + 1) c).sub (P (r - 1) c)),
       if c = 0 then (P r 1).sub (P r 0)
       else if c = nCols - 1 then (P r c).sub (P r (c - 1))
       else Vec3.smul (1 / 2) ((P r (c + 1)).sub (P r (c - 1)))) := by
  have hn : ((nRows : Int) - 1).toNat = nRows - 1 := by omega
  have h0 := pointAt_flattenGrid P nRows nCols r c hr hc
  unfold ComputeDerivative
  simp only [Int.toNat_ofNat, hn]
  refine Prod.ext ?_ ?_
  · simp only
    by_cases hr0 : r = 0
    · subst hr0
      have h1 := pointAt_flattenGrid P nRows nCols 1 c (by omega) hc
      rw [show 0 * nCols + c + nCols = 1 * nCols + c from by ring, h1, h0]
      simp [ComputeDiff, Vec3.sub]
    · by_cases hrl : r = nRows - 1
      · have h1 := pointAt_flattenGrid P nRows nCols (r - 1) c (by omega) hc
        rw [show r * nCols + c - nCols = (r - 1) * nCols + c from by
          obtain ⟨k, rfl⟩ : ∃ k, r = k + 1 := ⟨r - 1, by omega⟩
          simp [Nat.add_mul]; omega, h1, h0]
        simp only [if_neg hr0, if_pos hrl]
        simp [ComputeDiff, Vec3.sub]
      · have h1 := pointAt_flattenGrid P nRows nCols (r - 1) c (by omega) hc
        have h2 := pointAt_flattenGrid P nRows nCols (r + 1) c (by omega) hc
        rw [show r * nCols + c - nCols = (r - 1) * nCols + c from by
          obtain ⟨k, rfl⟩ : ∃ k, r = k + 1 := ⟨r - 1, by omega⟩
          simp [Nat.add_mul]; omega,
          show r * nCols + c + nCols = (r + 1) * nCols + c from by ring, h1, h2]
        simp only [if_neg hr0, if_neg hrl]
        simp [ComputeDiff, Vec3.sub, Vec3.smul]
  · simp only
    by_cases hc0 : c = 0
    · subst hc0
      have h1 := pointAt_flattenGrid P nRows nCols r 1 hr (by omega)
      rw [show r * nCols + 0 + 1 = r * nCols + 1 from rfl, h1, h0]
      simp [ComputeDiff, Vec3.sub]
    · by_cases hcl : c = nCols - 1
      · have h1 := pointAt_flattenGrid P nRows nCols r (c - 1) hr (by omega)
        rw [show r * nCols + c - 1 = r * nCols + (c - 1) from by omega, h1, h0]
        simp only [if_neg hc0, if_pos hcl]
        simp [ComputeDiff, Vec3.sub]
      · have h1 := pointAt_flattenGrid P nRows nCols r (c - 1) hr (by omega)
        have h2 := pointAt_flattenGrid P nRows nCols r (c + 1) hr (by omega)
        rw [show r * nCols + c - 1 = r * nCols + (c - 1) from by omega,
          show r * nCols + c + 1 = r * nCols + (c + 1) from rfl, h1, h2]
        simp only [if_neg hc0, if_neg hcl]
        simp [ComputeDiff, Vec3.sub, Vec3.smul]

/-- C3. On a row-major grid `P` of `nRows ≥ 2` by `nCols ≥ 2` skeletal points,
`ComputeDerivative` at a cell `(r, c)` of the grid returns `dXdu = P[1,c] - P[0,c]` for `r = 0`,
`dXdu = P[r,c] - P[r-1,c]` for `r = nRows-1` and `dXdu = 0.5 * (P[r+1,c] - P[r-1,c])`
otherwise, and for `dXdv` the same differences along the row: the one-sided differences are not
halved, the central ones are. -/
theorem C3_ComputeDerivative_differences (P : Nat → Nat → Vec3) (nRows nCols r c : Nat)
    (hR : 2 ≤ nRows) (hC : 2 ≤ nCols) (hr : r < nRows) (hc : c < nCols) :
    ComputeDerivative (flattenGrid P nRows nCols) r c nRows nCols =
      (if r = 0 then (P 1 c).sub (P 0 c)
       else if r = nRows - 1 then (P r c).sub (P (r - 1) c)
       else Vec3.smul (1 / 2) ((P (r + 1) c).sub (P (r - 1) c)),
       if c = 0 then (P r 1).sub (P r 0)
       else if c = nCols - 1 then (P r c).sub (P r (c - 1))
       else Vec3.smul (1 / 2) ((P r (c + 1)).sub (P r (c - 1)))) :=
  ComputeDerivative_flattenGrid P nRows nCols r c hR hC hr hc

/-- C3 at cell `(1, 0)` of the `3 × 3` grid `sampleGrid`. -/
theorem C3_ComputeDerivative_differences_witness :
    ComputeDerivative (flattenGrid sampleGrid 3 3) (1 : Nat) (0 : Nat) (3 : Nat) (3 : Nat) =
      (if 1 = 0 then (sampleGrid 1 0).sub (sampleGrid 0 0)
       else if 1 = 3 - 1 then (sampleGrid 1 0).sub (sampleGrid (1 - 1) 0)
       else Vec3.smul (1 / 2) ((sampleGrid (1 + 1) 0).sub (sampleGrid (1 - 1) 0)),
       if 0 = 0 then (sampleGrid 1 1).sub (sampleGrid 1 0)
       else if 0 = 3 - 1 then (sampleGrid 1 0).sub (sampleGrid 1 (0 - 1))
       else Vec3.smul (1 / 2) ((sampleGrid 1 (0 + 1)).sub (sampleGrid 1 (0 - 1)))) :=
  C3_ComputeDerivative_differences sampleGrid 3 3 1 0 (by decide) (by decide) (by decide)
    (by decide)

/-! ## Interpolater set-up: proofs -/

/-- At every call site other than the three neighbour finders `FindTopRightNeigbors`,
`FindBotLeftNeigbors` and `FindBotRightNeigbors`, the tangents are computed at the cells of the
corner spokes, in the same order. -/
theorem tangentCells_eq_cornerCells (site : CallSite) (r c : Int)
    (h1 : site ≠ .FindTopRightNeigbors) (h2 : site ≠ .FindBotLeftNeigbors)
    (h3 : site ≠ .FindBotRightNeigbors) :
    tangentCells site r c = cornerCells site r c := by
  cases site <;> simp_all [tangentCells, cornerCells]

/-- Every call site stores the corner spokes in the fixed order (row,col), (row+1,col),
(row+1,col+1), (row,col+1) of one quad. -/
theorem cornerCells_fixed_order (site : CallSite) (r c : Int) :
    ∃ qr qc, cornerCells site r c = quadCorners qr qc := by
  cases site
  case TotalDistOfRightTopSpoke => exact ⟨r, c - 1, by simp [cornerCells, quadCorners]⟩
  case TotalDistOfLeftBotSpoke => exact ⟨r - 1, c, by simp [cornerCells, quadCorners]⟩
  case TotalDistOfRightBotSpoke => exact ⟨r - 1, c - 1, by simp [cornerCells, quadCorners]⟩
  case FindTopRightNeigbors => exact ⟨r, c - 1, by simp [cornerCells, quadCorners]⟩
  case FindBotLeftNeigbors => exact ⟨r - 1, c, by simp [cornerCells, quadCorners]⟩
  case FindBotRightNeigbors => exact ⟨r - 1, c - 1, by simp [cornerCells, quadCorners]⟩
  all_goals exact ⟨r, c, by simp [cornerCells, quadCorners]⟩

/-- C4. On the grid `skewGrid`, `FindTopRightNeigbors` at `(r, c) = (0, 1)` stores the spoke of
cell `(1, 1)` as corner 2 and the spoke of cell `(0, 1)` as corner 3, but passes as tangent 2
the derivative computed at `(0, 1)` and as tangent 3 the one computed at `(1, 1)`: the
`v`-tangent handed over for corner 2 is `(1,0,0)` while `ComputeDerivative` at that corner's cell
gives `(2,0,0)`. -/
theorem C4_FindTopRightNeigbors_tangents_swapped :
    cornerCells .FindTopRightNeigbors 0 1 = [(0, 0), (1, 0), (1, 1), (0, 1)] ∧
    tangentCells .FindTopRightNeigbors 0 1 = [(0, 0), (1, 0), (0, 1), (1, 1)] ∧
    (srepSetup gridCollaborators skewGrid .FindTopRightNeigbors 0 1).cornerDxdv[2]?
      = some ⟨1, 0, 0⟩ ∧
    (ComputeDerivative (gridCollaborators.GetAllSkeletalPoints skewGrid) 1 1
      (gridCollaborators.GetNumRows skewGrid) (gridCollaborators.GetNumCols skewGrid)).2
      = ⟨2, 0, 0⟩ := by
  refine ⟨by simp [cornerCells], by simp [tangentCells], ?_, ?_⟩
  · simp [srepSetup, interpolaterSetup, tangentCells, ComputeDerivative, gridCollaborators,
      skewGrid, flatSpoke, pointAt, ComputeDiff]
  · simp [ComputeDerivative, gridCollaborators, skewGrid, flatSpoke, pointAt, ComputeDiff]

/-! ## The objective function: proofs -/

/-- The value returned by `ComputeDistance` does not depend on the incoming `*normalMatch`, and
the outgoing one is the incoming one plus a spoke-dependent increment. -/
theorem ComputeDistance_split {Srep : Type} (K : Collaborators Srep) (L : RefinerLogic Srep)
    (s : vtkSpoke) (nm : ℚ) :
    ComputeDistance K L s nm
      = ((ComputeDistance K L s 0).1, nm + (ComputeDistance K L s 0).2) := by
  unfold ComputeDistance
  cases L.mAntiAliasedImage with
  | none => simp
  | some image =>
    cases L.mGradDistImage with
    | none => simp
    | some g => simp

theorem foldl_accumulate {Srep : Type} (K : Collaborators Srep) (L : RefinerLogic Srep) :
    ∀ (l : List vtkSpoke) (acc : ℚ × ℚ),
      l.foldl (accumulate K L) acc
        = (acc.1 + (l.map fun s => (ComputeDistance K L s 0).1).sum,
           acc.2 + (l.map fun s => (ComputeDistance K L s 0).2).sum)
  | [], acc => by simp
  | s :: l, acc => by
    rw [List.foldl_cons, foldl_accumulate K L l]
    have h := ComputeDistance_split K L s acc.2
    simp only [accumulate, List.map_cons, List.sum_cons]
    rw [h]
    refine Prod.ext ?_ ?_ <;> simp only <;> ring

theorem positionStep_eq {Srep : Type} (K : Collaborators Srep) (L : RefinerLogic Srep)
    (tempSrep : Srep) (r c : Int) (acc : ℚ × ℚ) (uv : ℚ × ℚ) :
    positionStep K L tempSrep r c acc uv
      = ((quadDispatch L.mNumRows L.mNumCols r c).map fun site =>
          K.Interpolate (srepSetup K tempSrep site r c) uv.1 uv.2).foldl (accumulate K L) acc := by
  unfold positionStep
  rw [List.foldl_map]
  congr 1
  funext a site
  simp [addTotalDist, totalDistAt, accumulate]

theorem foldl_positionStep {Srep : Type} (K : Collaborators Srep) (L : RefinerLogic Srep)
    (tempSrep : Srep) (r c : Int) :
    ∀ (ps : List (ℚ × ℚ)) (acc : ℚ × ℚ),
      ps.foldl (positionStep K L tempSrep r c) acc
        = (ps.flatMap fun uv => (quadDispatch L.mNumRows L.mNumCols r c).map fun site =>
            K.Interpolate (srepSetup K tempSrep site r c) uv.1 uv.2).foldl (accumulate K L) acc
  | [], acc => by simp
  | uv :: ps, acc => by
    rw [List.foldl_cons, foldl_positionStep K L tempSrep r c ps, positionStep_eq,
      List.flatMap_cons, List.foldl_append]

theorem spokeStep_eq {Srep : Type} (K : Collaborators Srep) (L : RefinerLogic Srep)
    (tempSrep : Srep) (acc : ℚ × ℚ) (i : Nat) :
    spokeStep K L tempSrep acc i
      = (sampledSpokesAt K L tempSrep i).foldl (accumulate K L) acc := by
  unfold spokeStep sampledSpokesAt
  simp only [List.foldl_cons, foldl_positionStep]
  rfl

theorem foldl_spokeStep {Srep : Type} (K : Collaborators Srep) (L : RefinerLogic Srep)
    (tempSrep : Srep) :
    ∀ (is : List Nat) (acc : ℚ × ℚ),
      is.foldl (spokeStep K L tempSrep) acc
        = (is.flatMap (sampledSpokesAt K L tempSrep)).foldl (accumulate K L) acc
  | [], acc => by simp
  | i :: is, acc => by
    rw [List.foldl_cons, foldl_spokeStep K L tempSrep is, spokeStep_eq, List.flatMap_cons,
      List.foldl_append]

/-- The pair `(imageDist, normal)` is the sum, over all spokes handed to `ComputeDistance`, of
the returned values and of the increments of `*normalMatch`. -/
theorem imageMatchTerms_eq {Srep : Type} (K : Collaborators Srep) (L : RefinerLogic Srep)
    (tempSrep : Srep) :
    imageMatchTerms K L tempSrep
      = (((sampledSpokes K L tempSrep).map fun s => (ComputeDistance K L s 0).1).sum,
         ((sampledSpokes K L tempSrep).map fun s => (ComputeDistance K L s 0).2).sum) := by
  unfold imageMatchTerms sampledSpokes
  rw [foldl_spokeStep, foldl_accumulate]
  simp

theorem imageMatchTerms_SetWeights {Srep : Type} (K : Collaborators Srep)
    (L : RefinerLogic Srep) (tempSrep : Srep) (a b c : ℚ) :
    imageMatchTerms K (SetWeights L a b c) tempSrep = imageMatchTerms K L tempSrep := rfl

theorem ComputeRSradPenalty_SetWeights {Srep : Type} (K : Collaborators Srep)
    (L : RefinerLogic Srep) (tempSrep : Srep) (a b c : ℚ) :
    ComputeRSradPenalty K (SetWeights L a b c) tempSrep = ComputeRSradPenalty K L tempSrep := rfl

/-- The cost returned when the grid is present. -/
theorem EvaluateObjectiveFunction_cost {Srep : Type} (K : Collaborators Srep)
    (L : RefinerLogic Srep) (srep : Srep) (coeff : List ℚ) (h : L.mSrep = some srep) :
    (EvaluateObjectiveFunction K L coeff).1
      = L.mWtImageMatch * (imageMatchTerms K L (K.Refine srep coeff)).1
        + L.mWtNormalMatch * (imageMatchTerms K L (K.Refine srep coeff)).2
        + L.mWtSrad * ComputeRSradPenalty K L (K.Refine srep coeff) := by
  unfold EvaluateObjectiveFunction
  rw [h]

/-- C5. When the grid is present, `EvaluateObjectiveFunction` returns
`wImage*imageDist + wNormal*normalMatch + wSrad*srad`, with `imageDist` the sum of the values
returned by all `ComputeDistance` calls, `normalMatch` the sum of their normal-match increments
and `srad` the value of `ComputeRSradPenalty`; so for a fixed grid, field and coefficient vector
the cost is linear in the weights. -/
theorem C5_cost_is_weighted_sum {Srep : Type} (K : Collaborators Srep) (L : RefinerLogic Srep)
    (srep : Srep) (coeff : List ℚ) (h : L.mSrep = some srep) (w1 w2 w3 : ℚ) :
    (EvaluateObjectiveFunction K L coeff).1
      = L.mWtImageMatch
          * ((sampledSpokes K L (K.Refine srep coeff)).map fun s =>
              (ComputeDistance K L s 0).1).sum
        + L.mWtNormalMatch
          * ((sampledSpokes K L (K.Refine srep coeff)).map fun s =>
              (ComputeDistance K L s 0).2).sum
        + L.mWtSrad * ComputeRSradPenalty K L (K.Refine srep coeff) ∧
    (EvaluateObjectiveFunction K (SetWeights L w1 w2 w3) coeff).1
      = w1 * (EvaluateObjectiveFunction K (SetWeights L 1 0 0) coeff).1
        + w2 * (EvaluateObjectiveFunction K (SetWeights L 0 1 0) coeff).1
        + w3 * (EvaluateObjectiveFunction K (SetWeights L 0 0 1) coeff).1 := by
  constructor
  · rw [EvaluateObjectiveFunction_cost K L srep coeff h, imageMatchTerms_eq]
  · have hw : ∀ a b c : ℚ, (SetWeights L a b c).mSrep = some srep := fun _ _ _ => h
    rw [EvaluateObjectiveFunction_cost K _ srep coeff (hw w1 w2 w3),
      EvaluateObjectiveFunction_cost K _ srep coeff (hw 1 0 0),
      EvaluateObjectiveFunction_cost K _ srep coeff (hw 0 1 0),
      EvaluateObjectiveFunction_cost K _ srep coeff (hw 0 0 1)]
    simp only [imageMatchTerms_SetWeights, ComputeRSradPenalty_SetWeights]
    simp only [SetWeights]
    ring

/-- C5 on `skewLogic` with the weights `(2, 3, 5)`. -/
theorem C5_cost_is_weighted_sum_witness :
    skewLogic.mSrep = some skewGrid ∧
    (EvaluateObjectiveFunction gridCollaborators (SetWeights skewLogic 2 3 5) []).1
      = 2 * (EvaluateObjectiveFunction gridCollaborators (SetWeights skewLogic 1 0 0) []).1
        + 3 * (EvaluateObjectiveFunction gridCollaborators (SetWeights skewLogic 0 1 0) []).1
        + 5 * (EvaluateObjectiveFunction gridCollaborators (SetWeights skewLogic 0 0 1) []).1 :=
  ⟨rfl, (C5_cost_is_weighted_sum gridCollaborators skewLogic skewGrid [] rfl 2 3 5).2⟩

/-- C6. With the grid absent (`mSrep` null) `EvaluateObjectiveFunction` returns the sentinel
`-100000.0` for every coefficient vector and every weight configuration and leaves the whole
logic object, the first-cost flag included, as it was. -/
theorem C6_absent_grid_sentinel {Srep : Type} (K : Collaborators Srep) (L : RefinerLogic Srep)
    (coeff : List ℚ) (h : L.mSrep = none) :
    EvaluateObjectiveFunction K L coeff = (-100000, L) := by
  unfold EvaluateObjectiveFunction
  rw [h]

/-- C6 on `emptyLogic`. -/
theorem C6_absent_grid_sentinel_witness :
    emptyLogic.mSrep = none ∧
    EvaluateObjectiveFunction gridCollaborators emptyLogic [1, 2, 3, 4] = (-100000, emptyLogic) :=
  ⟨rfl, C6_absent_grid_sentinel gridCollaborators emptyLogic [1, 2, 3, 4] rfl⟩

/-- With an image absent every `ComputeDistance` call returns `-10000` and leaves
`*normalMatch` as it was. -/
theorem ComputeDistance_absent {Srep : Type} (K : Collaborators Srep) (L : RefinerLogic Srep)
    (h : L.mAntiAliasedImage = none ∨ L.mGradDistImage = none) (s : vtkSpoke) (nm : ℚ) :
    ComputeDistance K L s nm = (-10000, nm) := by
  unfold ComputeDistance
  cases hi : L.mAntiAliasedImage with
  | none => rfl
  | some image =>
    cases hg : L.mGradDistImage with
    | none => rfl
    | some g => simp [hi, hg] at h

/-- The cost with the grid present and an image absent: `-10000` per `ComputeDistance` call,
weighted by `wImage`, plus the weighted penalty. -/
theorem absent_image_cost {Srep : Type} (K : Collaborators Srep) (L : RefinerLogic Srep)
    (srep : Srep) (coeff : List ℚ) (h : L.mSrep = some srep)
    (himg : L.mAntiAliasedImage = none ∨ L.mGradDistImage = none) :
    (EvaluateObjectiveFunction K L coeff).1
      = L.mWtImageMatch * (-10000 * ((sampledSpokes K L (K.Refine srep coeff)).length : ℚ))
        + L.mWtSrad * ComputeRSradPenalty K L (K.Refine srep coeff) := by
  rw [EvaluateObjectiveFunction_cost K L srep coeff h, imageMatchTerms_eq]
  have h1 : ∀ l : List vtkSpoke,
      (l.map fun s => (ComputeDistance K L s 0).1).sum = -10000 * (l.length : ℚ) := by
    intro l
    induction l with
    | nil => simp
    | cons s l ih =>
      rw [List.map_cons, List.sum_cons, ih, ComputeDistance_absent K L himg, List.length_cons]
      push_cast
      ring
  have h2 : ∀ l : List vtkSpoke, (l.map fun s => (ComputeDistance K L s 0).2).sum = 0 := by
    intro l
    induction l with
    | nil => simp
    | cons s l ih =>
      rw [List.map_cons, List.sum_cons, ih, ComputeDistance_absent K L himg]
      ring
  simp only [h1, h2]
  ring

/-- C7 (amended statement). With the grid present and the distance image or the gradient image absent,
`EvaluateObjectiveFunction` returns `wImage * (-10000 * N) + wSrad * srad`, where `N` is the
number of `ComputeDistance` calls and `srad` the value of `ComputeRSradPenalty`; the cost is
below zero exactly when `wSrad * srad < 10000 * N * wImage`. -/
theorem C7_absent_image_cost {Srep : Type} (K : Collaborators Srep) (L : RefinerLogic Srep)
    (srep : Srep) (coeff : List ℚ) (h : L.mSrep = some srep)
    (himg : L.mAntiAliasedImage = none ∨ L.mGradDistImage = none) :
    (EvaluateObjectiveFunction K L coeff).1
      = L.mWtImageMatch * (-10000 * ((sampledSpokes K L (K.Refine srep coeff)).length : ℚ))
        + L.mWtSrad * ComputeRSradPenalty K L (K.Refine srep coeff) ∧
    ((EvaluateObjectiveFunction K L coeff).1 < 0 ↔
      L.mWtSrad * ComputeRSradPenalty K L (K.Refine srep coeff)
        < 10000 * ((sampledSpokes K L (K.Refine srep coeff)).length : ℚ) * L.mWtImageMatch) := by
  have hcost := absent_image_cost K L srep coeff h himg
  refine ⟨hcost, ?_⟩
  rw [hcost]
  constructor <;> intro hlt <;> linarith

/-- C7 (amended statement) on `skewLogic`, whose distance image is absent. -/
theorem C7_absent_image_cost_witness :
    skewLogic.mSrep = some skewGrid ∧ skewLogic.mAntiAliasedImage = none ∧
    (EvaluateObjectiveFunction gridCollaborators skewLogic []).1
      = skewLogic.mWtImageMatch
          * (-10000 * ((sampledSpokes gridCollaborators skewLogic
              (gridCollaborators.Refine skewGrid [])).length : ℚ))
        + skewLogic.mWtSrad * ComputeRSradPenalty gridCollaborators skewLogic
            (gridCollaborators.Refine skewGrid []) :=
  ⟨rfl, rfl, (C7_absent_image_cost gridCollaborators skewLogic skewGrid [] rfl (Or.inl rfl)).1⟩

/-- C7 (counterexample). The logic object `skewLogic` holds a grid and no distance image; with
the weights `(0, 1, 0)` the cost returned is `0`, which is not below zero. -/
theorem C7_counterexample :
    (SetWeights skewLogic 0 1 0).mSrep = some skewGrid ∧
    (SetWeights skewLogic 0 1 0).mAntiAliasedImage = none ∧
    (EvaluateObjectiveFunction gridCollaborators (SetWeights skewLogic 0 1 0) []).1 = 0 ∧
    ¬ (EvaluateObjectiveFunction gridCollaborators (SetWeights skewLogic 0 1 0) []).1 < 0 := by
  have hv : (EvaluateObjectiveFunction gridCollaborators (SetWeights skewLogic 0 1 0) []).1
      = 0 := by
    rw [absent_image_cost gridCollaborators (SetWeights skewLogic 0 1 0) skewGrid [] rfl
      (Or.inl rfl)]
    simp [SetWeights]
  exact ⟨rfl, rfl, hv, by rw [hv]; exact lt_irrefl 0⟩

/-! ## Interpolation positions, distance term and quad dispatch: proofs -/

theorem not_mem_grid_of_isQuadCorner (shares : Nat) (interval a b : ℚ)
    (h : isQuadCorner a b = true) :
    (a, b) ∉ (List.range (shares + 1)).flatMap fun i =>
      (List.range (shares + 1)).filterMap fun j =>
        if isQuadCorner ((i : ℚ) * interval) ((j : ℚ) * interval) then none
        else some ((i : ℚ) * interval, (j : ℚ) * interval) := by
  intro hmem
  rw [List.mem_flatMap] at hmem
  obtain ⟨i, _, hi⟩ := hmem
  rw [List.mem_filterMap] at hi
  obtain ⟨j, _, hj⟩ := hi
  by_cases hq : isQuadCorner ((i : ℚ) * interval) ((j : ℚ) * interval) = true
  · rw [if_pos hq] at hj
    exact Option.noConfusion hj
  · rw [if_neg hq] at hj
    have e := Option.some.inj hj
    have e1 : (i : ℚ) * interval = a := congrArg Prod.fst e
    have e2 : (j : ℚ) * interval = b := congrArg Prod.snd e
    rw [e1, e2] at hq
    exact hq h

/-- C8 (amended statement). For every interpolation level `L ≥ 1` the list of interpolation positions
built by `Refine` contains none of the four quad corners `(0,0)`, `(0,1)`, `(1,0)`, `(1,1)`; at
level `0` the list is the single pair `(0,0)`. -/
theorem C8_positions_skip_corners (L : Nat) (hL : 1 ≤ L) :
    ((0, 0) ∉ RefineInterpolatePositions L ∧ (0, 1) ∉ RefineInterpolatePositions L ∧
      (1, 0) ∉ RefineInterpolatePositions L ∧ (1, 1) ∉ RefineInterpolatePositions L) ∧
    RefineInterpolatePositions 0 = [(0, 0)] := by
  have hne : L ≠ 0 := by omega
  refine ⟨?_, ?_⟩
  · unfold RefineInterpolatePositions
    simp only [if_neg hne]
    refine ⟨?_, ?_, ?_, ?_⟩ <;>
      exact not_mem_grid_of_isQuadCorner _ _ _ _ (by norm_num [isQuadCorner])
  · simp [RefineInterpolatePositions, List.range_succ, isQuadCorner]

/-- C8 (amended statement) at interpolation level `1`. -/
theorem C8_positions_skip_corners_witness :
    ((0, 0) ∉ RefineInterpolatePositions 1 ∧ (0, 1) ∉ RefineInterpolatePositions 1 ∧
      (1, 0) ∉ RefineInterpolatePositions 1 ∧ (1, 1) ∉ RefineInterpolatePositions 1) ∧
    RefineInterpolatePositions 0 = [(0, 0)] :=
  C8_positions_skip_corners 1 (by decide)

/-- C8 (counterexample). At interpolation level `0` the position list built by `Refine`
contains the quad corner `(0,0)`. -/
theorem C8_counterexample : (0, 0) ∈ RefineInterpolatePositions 0 := by
  simp [RefineInterpolatePositions]

/-- The product `1 * 1` is a `float`. -/
theorem roundToFloat_one : roundToFloat 1 = 1 := by
  have hlog : Int.log 2 |(1 : ℚ)| = 0 := by
    rw [abs_one]; exact Int.log_one_right 2
  unfold roundToFloat
  rw [if_neg one_ne_zero, hlog]
  have hf : ⌊(1 : ℚ) / (2 : ℚ) ^ ((max (0 : Int) (-126)) - 23)⌋ = 8388608 := by
    rw [Int.floor_eq_iff]; norm_num
  simp only [roundHalfEven, hf]
  norm_num

/-- The square of `1 + 2^-12` lies halfway between two neighbouring `float`s and is rounded to
the even one, `1 + 2^-11`. -/
theorem roundToFloat_fine : roundToFloat (4097 / 4096 * (4097 / 4096)) = 2049 / 2048 := by
  have he : (4097 / 4096 * (4097 / 4096) : ℚ) = 16785409 / 16777216 := by norm_num
  have hlog : Int.log 2 |(16785409 / 16777216 : ℚ)| = 0 := by
    rw [abs_of_pos (by norm_num), Int.log_of_one_le_right 2 (by norm_num)]
    have : ⌊(16785409 / 16777216 : ℚ)⌋₊ = 1 := by
      rw [Nat.floor_eq_iff (by norm_num)]; norm_num
    rw [this]; simp
  rw [he]
  unfold roundToFloat
  rw [if_neg (by norm_num), hlog]
  have hf : ⌊(16785409 / 16777216 : ℚ) / (2 : ℚ) ^ ((max (0 : Int) (-126)) - 23)⌋
      = 8392704 := by
    rw [Int.floor_eq_iff]; norm_num
  simp only [roundHalfEven, hf]
  norm_num

/-- The value and the increment of `ComputeDistance` when both images are present. -/
theorem ComputeDistance_present {Srep : Type} (K : Collaborators Srep) (L : RefinerLogic Srep)
    (image : Int → Int → Int → ℚ) (gradImage : Int → Int → Int → Vec3)
    (himg : L.mAntiAliasedImage = some image) (hgrad : L.mGradDistImage = some gradImage)
    (theSpoke : vtkSpoke) (normalMatch : ℚ) :
    ComputeDistance K L theSpoke normalMatch
      = (roundToFloat
          (image (voxelIndex L theSpoke).1 (voxelIndex L theSpoke).2.1 (voxelIndex L theSpoke).2.2
            * image (voxelIndex L theSpoke).1 (voxelIndex L theSpoke).2.1
              (voxelIndex L theSpoke).2.2),
         normalMatch
          + roundToFloat
              (image (voxelIndex L theSpoke).1 (voxelIndex L theSpoke).2.1
                  (voxelIndex L theSpoke).2.2
                * image (voxelIndex L theSpoke).1 (voxelIndex L theSpoke).2.1
                  (voxelIndex L theSpoke).2.2)
            * (1 - Dot (K.Normalize (gradImage (voxelIndex L theSpoke).1
                (voxelIndex L theSpoke).2.1 (voxelIndex L theSpoke).2.2)) theSpoke.direction)) := by
  unfold ComputeDistance
  rw [himg, hgrad]

/-- C9 (amended statement). With both images present and a pixel `d` of magnitude at most
`2^63`, so that `d*d` stays inside the range of `float`, `ComputeDistance` returns `fl(d*d)`,
the product rounded to single precision, where `d` is the distance image at the voxel of the
spoke's transformed boundary point, and adds `fl(d*d) * (1 - dot(n, dir))` to `*normalMatch`,
`n` being the normalised gradient at that voxel and `dir` the spoke direction. When `d*d` is
itself a `float` these are `d*d` and `d*d * (1 - dot(n, dir))`; for `d = 0` the call returns
`0` and leaves `*normalMatch` as it was. -/
theorem C9_ComputeDistance_value {Srep : Type} (K : Collaborators Srep) (L : RefinerLogic Srep)
    (image : Int → Int → Int → ℚ) (gradImage : Int → Int → Int → Vec3)
    (himg : L.mAntiAliasedImage = some image) (hgrad : L.mGradDistImage = some gradImage)
    (theSpoke : vtkSpoke) (normalMatch : ℚ)
    (_hfin : |image (voxelIndex L theSpoke).1 (voxelIndex L theSpoke).2.1
      (voxelIndex L theSpoke).2.2| ≤ 9223372036854775808) :
    ComputeDistance K L theSpoke normalMatch
      = (roundToFloat
          (image (voxelIndex L theSpoke).1 (voxelIndex L theSpoke).2.1 (voxelIndex L theSpoke).2.2
            * image (voxelIndex L theSpoke).1 (voxelIndex L theSpoke).2.1
              (voxelIndex L theSpoke).2.2),
         normalMatch
          + roundToFloat
              (image (voxelIndex L theSpoke).1 (voxelIndex L theSpoke).2.1
                  (voxelIndex L theSpoke).2.2
                * image (voxelIndex L theSpoke).1 (voxelIndex L theSpoke).2.1
                  (voxelIndex L theSpoke).2.2)
            * (1 - Dot (K.Normalize (gradImage (voxelIndex L theSpoke).1
                (voxelIndex L theSpoke).2.1 (voxelIndex L theSpoke).2.2)) theSpoke.direction)) ∧
    (roundToFloat
        (image (voxelIndex L theSpoke).1 (voxelIndex L theSpoke).2.1 (voxelIndex L theSpoke).2.2
          * image (voxelIndex L theSpoke).1 (voxelIndex L theSpoke).2.1
            (voxelIndex L theSpoke).2.2)
      = image (voxelIndex L theSpoke).1 (voxelIndex L theSpoke).2.1 (voxelIndex L theSpoke).2.2
          * image (voxelIndex L theSpoke).1 (voxelIndex L theSpoke).2.1
            (voxelIndex L theSpoke).2.2 →
      ComputeDistance K L theSpoke normalMatch
        = (image (voxelIndex L theSpoke).1 (voxelIndex L theSpoke).2.1
              (voxelIndex L theSpoke).2.2
            * image (voxelIndex L theSpoke).1 (voxelIndex L theSpoke).2.1
              (voxelIndex L theSpoke).2.2,
           normalMatch
            + image (voxelIndex L theSpoke).1 (voxelIndex L theSpoke).2.1
                (voxelIndex L theSpoke).2.2
              * image (voxelIndex L theSpoke).1 (voxelIndex L theSpoke).2.1
                (voxelIndex L theSpoke).2.2
              * (1 - Dot (K.Normalize (gradImage (voxelIndex L theSpoke).1
                  (voxelIndex L theSpoke).2.1 (voxelIndex L theSpoke).2.2))
                  theSpoke.direction))) ∧
    (image (voxelIndex L theSpoke).1 (voxelIndex L theSpoke).2.1 (voxelIndex L theSpoke).2.2 = 0 →
      ComputeDistance K L theSpoke normalMatch = (0, normalMatch)) := by
  have hval := ComputeDistance_present K L image gradImage himg hgrad theSpoke normalMatch
  refine ⟨hval, ?_, ?_⟩
  · intro hexact
    rw [hval, hexact]
  · intro hd
    rw [hval, hd]
    simp [roundToFloat]

/-- C9 (amended statement) on a distance image that is `1` everywhere with the gradient
against the spoke: the product `1 * 1` is a `float`, the call returns `1` and adds `2` to
`*normalMatch = 7`. -/
theorem C9_ComputeDistance_value_witness :
    opposedFieldLogic.mAntiAliasedImage = some (fun _ _ _ => 1) ∧
    opposedFieldLogic.mGradDistImage = some (fun _ _ _ => ⟨0, 0, -1⟩) ∧
    |(1 : ℚ)| ≤ 9223372036854775808 ∧
    ComputeDistance gridCollaborators opposedFieldLogic (flatSpoke 2 1) 7
      = (1 * 1, 7 + 1 * 1
          * (1 - Dot (gridCollaborators.Normalize ⟨0, 0, -1⟩) (flatSpoke 2 1).direction)) :=
  ⟨rfl, rfl, by norm_num,
    (C9_ComputeDistance_value gridCollaborators opposedFieldLogic (fun _ _ _ => 1)
      (fun _ _ _ => ⟨0, 0, -1⟩) rfl rfl (flatSpoke 2 1) 7 (by norm_num)).2.1
      (by rw [mul_one]; exact roundToFloat_one)⟩

/-- C9 (counterexample). On a distance image that is `d = 4097/4096` everywhere, with the
gradient `(0, 1, 0)` across the spoke direction `(0, 0, 1)`, the call returns `2049/2048` and
adds `2049/2048` to `*normalMatch`, not `d*d = 16785409/16777216`. -/
theorem C9_counterexample :
    fineFieldLogic.mAntiAliasedImage = some (fun _ _ _ => 4097 / 4096) ∧
    fineFieldLogic.mGradDistImage = some (fun _ _ _ => ⟨0, 1, 0⟩) ∧
    ComputeDistance gridCollaborators fineFieldLogic (flatSpoke 0 0) 0
      = (2049 / 2048, 2049 / 2048) ∧
    (4097 / 4096 * (4097 / 4096) : ℚ) = 16785409 / 16777216 ∧
    (ComputeDistance gridCollaborators fineFieldLogic (flatSpoke 0 0) 0).1
      ≠ 4097 / 4096 * (4097 / 4096) := by
  have hval := ComputeDistance_present gridCollaborators fineFieldLogic
    (fun _ _ _ => 4097 / 4096) (fun _ _ _ => ⟨0, 1, 0⟩) rfl rfl (flatSpoke 0 0) 0
  simp only [roundToFloat_fine] at hval
  have hres : ComputeDistance gridCollaborators fineFieldLogic (flatSpoke 0 0) 0
      = (2049 / 2048, 2049 / 2048) := by
    rw [hval]
    norm_num [Dot, gridCollaborators, flatSpoke]
  refine ⟨rfl, rfl, hres, by norm_num, ?_⟩
  rw [hres]
  norm_num

theorem quadCorners_inj (a b a2 b2 : Int) :
    quadCorners a b = quadCorners a2 b2 ↔ a = a2 ∧ b = b2 := by
  simp only [quadCorners, List.cons.injEq, Prod.mk.injEq, and_true]
  constructor
  · rintro ⟨⟨h1, h2⟩, _⟩
    exact ⟨h1, h2⟩
  · rintro ⟨rfl, rfl⟩
    simp

theorem mem_quadCorners (r c qr qc : Int) :
    (r, c) ∈ quadCorners qr qc ↔ (r = qr ∨ r = qr + 1) ∧ (c = qc ∨ c = qc + 1) := by
  simp only [quadCorners, List.mem_cons, Prod.mk.injEq, List.mem_singleton, List.not_mem_nil,
    or_false]
  constructor
  · rintro (⟨rfl, rfl⟩ | ⟨rfl, rfl⟩ | ⟨rfl, rfl⟩ | ⟨rfl, rfl⟩) <;> simp
  · rintro ⟨rfl | rfl, rfl | rfl⟩ <;> simp

/-- The quad sampled by each `TotalDistOf…Spoke` function, named by its top-left cell. -/
theorem cornerCells_totalDist (r c : Int) :
    cornerCells .TotalDistOfLeftTopSpoke r c = quadCorners r c ∧
    cornerCells .TotalDistOfRightTopSpoke r c = quadCorners r (c - 1) ∧
    cornerCells .TotalDistOfLeftBotSpoke r c = quadCorners (r - 1) c ∧
    cornerCells .TotalDistOfRightBotSpoke r c = quadCorners (r - 1) (c - 1) := by
  simp [cornerCells, quadCorners]

theorem sampledQuads_eq (nRows nCols r c : Int) :
    sampledQuads nRows nCols r c =
      if r = 0 ∧ c = 0 then [quadCorners r c]
      else if r = 0 ∧ c = nCols - 1 then [quadCorners r (c - 1)]
      else if r = nRows - 1 ∧ c = 0 then [quadCorners (r - 1) c]
      else if r = nRows - 1 ∧ c = nCols - 1 then [quadCorners (r - 1) (c - 1)]
      else if r = 0 then [quadCorners r (c - 1), quadCorners r c]
      else if r = nRows - 1 then [quadCorners (r - 1) (c - 1), quadCorners (r - 1) c]
      else if c = 0 then [quadCorners (r - 1) c, quadCorners r c]
      else if c = nCols - 1 then [quadCorners (r - 1) (c - 1), quadCorners r (c - 1)]
      else [quadCorners (r - 1) (c - 1), quadCorners r (c - 1), quadCorners (r - 1) c,
        quadCorners r c] := by
  obtain ⟨e1, e2, e3, e4⟩ := cornerCells_totalDist r c
  unfold sampledQuads quadDispatch
  split_ifs <;> simp only [List.map_cons, List.map_nil, e1, e2, e3, e4]

theorem sampledQuads_mem_iff (nRows nCols r c : Int) (hR : 2 ≤ nRows) (hC : 2 ≤ nCols)
    (hr0 : 0 ≤ r) (hr : r < nRows) (hc0 : 0 ≤ c) (hc : c < nCols) (qr qc : Int) :
    quadCorners qr qc ∈ sampledQuads nRows nCols r c ↔
      (0 ≤ qr ∧ qr + 1 < nRows ∧ 0 ≤ qc ∧ qc + 1 < nCols ∧ (r, c) ∈ quadCorners qr qc) := by
  rw [sampledQuads_eq, mem_quadCorners]
  split_ifs <;>
    simp only [List.mem_cons, List.mem_singleton, List.not_mem_nil, or_false,
      quadCorners_inj] <;> omega

theorem sampledQuads_nodup (nRows nCols r c : Int) : (sampledQuads nRows nCols r c).Nodup := by
  rw [sampledQuads_eq]
  split_ifs <;>
    simp only [List.nodup_cons, List.mem_cons, List.mem_singleton, List.not_mem_nil,
      or_false, quadCorners_inj, List.nodup_nil, not_false_eq_true, and_true] <;> omega

theorem sampledQuads_length (nRows nCols r c : Int) (hR : 2 ≤ nRows) (hC : 2 ≤ nCols) :
    (sampledQuads nRows nCols r c).length =
      (if (r = 0 ∨ r = nRows - 1) ∧ (c = 0 ∨ c = nCols - 1) then 1
       else if r = 0 ∨ r = nRows - 1 ∨ c = 0 ∨ c = nCols - 1 then 2 else 4) := by
  rw [sampledQuads_eq]
  by_cases h1 : r = 0 <;> by_cases h2 : r = nRows - 1 <;> by_cases h3 : c = 0 <;>
    by_cases h4 : c = nCols - 1 <;>
    first
    | (exfalso; omega)
    | (first | have e1 := eq_false h1 | have e1 := eq_true h1
       first | have e2 := eq_false h2 | have e2 := eq_true h2
       first | have e3 := eq_false h3 | have e3 := eq_true h3
       first | have e4 := eq_false h4 | have e4 := eq_true h4
       simp only [e1, e2, e3, e4, if_true, if_false, and_true, and_false, true_and, false_and,
         or_true, or_false, true_or, false_or, and_self, or_self, List.length_cons,
         List.length_nil])

/-- C10. On a grid of `nRows ≥ 2` by `nCols ≥ 2` spokes, the quads that
`EvaluateObjectiveFunction` samples for the spoke at `(r, c)` at each interpolation position are
exactly the grid quads that have `(r, c)` as a corner, each once: one quad at the four outer
corners of the grid, two on an edge away from the corners, four in the interior. -/
theorem C10_sampled_quads (nRows nCols r c : Int) (hR : 2 ≤ nRows) (hC : 2 ≤ nCols)
    (hr0 : 0 ≤ r) (hr : r < nRows) (hc0 : 0 ≤ c) (hc : c < nCols) :
    (∀ qr qc : Int, quadCorners qr qc ∈ sampledQuads nRows nCols r c ↔
      (0 ≤ qr ∧ qr + 1 < nRows ∧ 0 ≤ qc ∧ qc + 1 < nCols ∧ (r, c) ∈ quadCorners qr qc)) ∧
    (∀ q ∈ sampledQuads nRows nCols r c, ∃ qr qc : Int, q = quadCorners qr qc) ∧
    (sampledQuads nRows nCols r c).Nodup ∧
    (sampledQuads nRows nCols r c).length =
      (if (r = 0 ∨ r = nRows - 1) ∧ (c = 0 ∨ c = nCols - 1) then 1
       else if r = 0 ∨ r = nRows - 1 ∨ c = 0 ∨ c = nCols - 1 then 2 else 4) := by
  refine ⟨sampledQuads_mem_iff nRows nCols r c hR hC hr0 hr hc0 hc, ?_,
    sampledQuads_nodup nRows nCols r c, sampledQuads_length nRows nCols r c hR hC⟩
  intro q hq
  rw [sampledQuads, List.mem_map] at hq
  obtain ⟨site, _, rfl⟩ := hq
  exact cornerCells_fixed_order site r c

/-- C10 at the interior spoke `(1, 2)` of a `3 × 4` grid. -/
theorem C10_sampled_quads_witness :
    (∀ qr qc : Int, quadCorners qr qc ∈ sampledQuads 3 4 1 2 ↔
      (0 ≤ qr ∧ qr + 1 < 3 ∧ 0 ≤ qc ∧ qc + 1 < 4 ∧ (1, 2) ∈ quadCorners qr qc)) ∧
    (∀ q ∈ sampledQuads 3 4 1 2, ∃ qr qc : Int, q = quadCorners qr qc) ∧
    (sampledQuads 3 4 1 2).Nodup ∧
    (sampledQuads 3 4 1 2).length =
      (if ((1 : Int) = 0 ∨ (1 : Int) = 3 - 1) ∧ ((2 : Int) = 0 ∨ (2 : Int) = 4 - 1) then 1
       else if (1 : Int) = 0 ∨ (1 : Int) = 3 - 1 ∨ (2 : Int) = 0 ∨ (2 : Int) = 4 - 1 then 2
       else 4) :=
  C10_sampled_quads 3 4 1 2 (by decide) (by decide) (by decide) (by decide) (by decide)
    (by decide)

/-! ## Frame of the objective function: proofs -/

/-- Copying the object at `p` to a fresh address, changing the copy in place any number of
times and deleting it gives back the store one started from. -/
theorem store_fork_restored {Srep : Type} (store : SrepStore Srep) (fresh p : Nat)
    (f g : Srep → Srep) (hfresh : store fresh = none) :
    ((((store.DeepCopy fresh p).Mutate fresh f).Mutate fresh g).Delete fresh) = store := by
  funext a
  by_cases h : a = fresh
  · subst h
    simp only [SrepStore.Delete, if_true, hfresh]
  · simp only [SrepStore.Delete, SrepStore.Mutate, SrepStore.DeepCopy, if_neg h]

/-- C11. With the grid objects made explicit: when `mSrep` is null or points to a live grid and
`new vtkSrep()` returns an address where no object lived, `EvaluateObjectiveFunction` returns
for every coefficient vector and leaves every grid object as it found it, the caller's grid
included: what is refined and annotated is the copy at the fresh address, which is deleted.
The logic object keeps its grid pointer, transform matrix, weights, interpolation positions,
coefficient array, images and grid dimensions; the only member that can differ is the
first-cost flag, cleared when the pointer is not null and untouched when it is. The cost is
that of the function on grid values. -/
theorem C11_EvaluateObjectiveFunction_frame {Srep : Type} (K : Collaborators Srep)
    (L : RefinerLogic Nat) (store : SrepStore Srep) (fresh : Nat) (annotate : Srep → Srep)
    (coeff : List ℚ) (hfresh : store fresh = none)
    (hlive : ∀ p, L.mSrep = some p → (store p).isSome = true) :
    ∃ (cost : ℚ) (L2 : RefinerLogic Nat) (store2 : SrepStore Srep),
      EvaluateObjectiveFunctionOnStore K L store fresh annotate coeff
        = some (cost, L2, store2) ∧
      store2 = store ∧
      L2.mSrep = L.mSrep ∧
      L2.mTransformationMat = L.mTransformationMat ∧
      L2.mWtImageMatch = L.mWtImageMatch ∧
      L2.mWtNormalMatch = L.mWtNormalMatch ∧
      L2.mWtSrad = L.mWtSrad ∧
      L2.mInterpolatePositions = L.mInterpolatePositions ∧
      L2.mCoeffArray = L.mCoeffArray ∧
      L2 = { L with mFirstCost := L2.mFirstCost } ∧
      L2.mFirstCost = (if L.mSrep.isSome then false else L.mFirstCost) ∧
      cost = (EvaluateObjectiveFunction K (L.atGrid (L.mSrep.bind store)) coeff).1 := by
  obtain ⟨srep, img, grad, mat, w1, w2, w3, pos, arr, nr, nc, first⟩ := L
  cases srep with
  | none =>
    exact ⟨-100000, _, store, rfl, rfl, rfl, rfl, rfl, rfl, rfl, rfl, rfl, rfl, rfl, rfl⟩
  | some p =>
    obtain ⟨g, hg⟩ := Option.isSome_iff_exists.mp (hlive p rfl)
    have hcopy : ((store.DeepCopy fresh p).Mutate fresh fun g => K.Refine g coeff) fresh
        = some (K.Refine g coeff) := by
      simp only [SrepStore.Mutate, SrepStore.DeepCopy, if_true, hg, Option.map_some']
    have hrest := store_fork_restored store fresh p (fun g => K.Refine g coeff) annotate hfresh
    have e : EvaluateObjectiveFunctionOnStore K
        ⟨some p, img, grad, mat, w1, w2, w3, pos, arr, nr, nc, first⟩ store fresh annotate coeff
        = some ((EvaluateObjectiveFunction K
            ((⟨some p, img, grad, mat, w1, w2, w3, pos, arr, nr, nc, first⟩ :
              RefinerLogic Nat).atGrid (store p)) coeff).1,
          ⟨some p, img, grad, mat, w1, w2, w3, pos, arr, nr, nc, false⟩, store) := by
      simp only [EvaluateObjectiveFunctionOnStore, hcopy, hrest, EvaluateObjectiveFunction,
        RefinerLogic.atGrid, hg]
      cases first <;> rfl
    exact ⟨_, _, _, e, rfl, rfl, rfl, rfl, rfl, rfl, rfl, rfl, rfl, rfl, rfl⟩

/-- C11 on the store holding `skewGrid` at address `0`, the logic object of `skewLogic`
pointing to it and the fresh address `1`. -/
theorem C11_EvaluateObjectiveFunction_frame_witness :
    skewStore 1 = none ∧
    (∀ p, (skewLogic.atGrid (some 0)).mSrep = some p → (skewStore p).isSome = true) ∧
    ∃ (cost : ℚ) (L2 : RefinerLogic Nat) (store2 : SrepStore GridSrep),
      EvaluateObjectiveFunctionOnStore gridCollaborators (skewLogic.atGrid (some 0)) skewStore 1
          id [] = some (cost, L2, store2) ∧
      store2 = skewStore ∧
      L2.mSrep = (skewLogic.atGrid (some 0)).mSrep ∧
      L2.mTransformationMat = (skewLogic.atGrid (some 0)).mTransformationMat ∧
      L2.mWtImageMatch = (skewLogic.atGrid (some 0)).mWtImageMatch ∧
      L2.mWtNormalMatch = (skewLogic.atGrid (some 0)).mWtNormalMatch ∧
      L2.mWtSrad = (skewLogic.atGrid (some 0)).mWtSrad ∧
      L2.mInterpolatePositions = (skewLogic.atGrid (some 0)).mInterpolatePositions ∧
      L2.mCoeffArray = (skewLogic.atGrid (some 0)).mCoeffArray ∧
      L2 = { skewLogic.atGrid (some 0) with mFirstCost := L2.mFirstCost } ∧
      L2.mFirstCost = (if (skewLogic.atGrid (some 0)).mSrep.isSome then false
        else (skewLogic.atGrid (some 0)).mFirstCost) ∧
      cost = (EvaluateObjectiveFunction gridCollaborators
        ((skewLogic.atGrid (some 0)).atGrid ((skewLogic.atGrid (some 0)).mSrep.bind skewStore))
        []).1 :=
  ⟨rfl, fun p h => by cases h; rfl,
    C11_EvaluateObjectiveFunction_frame gridCollaborators (skewLogic.atGrid (some 0)) skewStore 1
      id [] rfl (fun p h => by cases h; rfl)⟩

/-! ## Curvature pass: proofs -/

/-- C15. The curvature pass keeps the boundary point of a crest spoke where it was,
`skeletalPoint' + radius' * direction = skeletalPoint + radius * direction`, and keeps its
direction, whatever the two principal curvatures. -/
theorem C15_curvatureStep_keeps_boundary (curr_max curr_min : ℚ) (s : vtkSpoke) :
    (curvatureStep curr_max curr_min s).GetBoundaryPoint = s.GetBoundaryPoint ∧
    (curvatureStep curr_max curr_min s).direction = s.direction := by
  by_cases h0 : max |curr_max| |curr_min| = 0
  · simp only [curvatureStep, if_pos h0, and_self]
  · by_cases hd : s.radius - 1 / max |curr_max| |curr_min| ≤ 0
    · simp only [curvatureStep, if_neg h0, if_pos hd, and_self]
    · simp only [curvatureStep, if_neg h0, if_neg hd, vtkSpoke.GetBoundaryPoint,
        vtkSpoke.SetRadius, vtkSpoke.SetSkeletalPoint, Vec3.add, Vec3.smul, and_true]
      refine Vec3.ext ?_ ?_ ?_ <;> simp only <;> ring

/-- C16. In the curvature pass with `desiredRadius = 1 / max(|kmax|, |kmin|)`: when
`desiredRadius ≥ currentRadius` the spoke is left as it is; when
`desiredRadius < currentRadius` the skeletal point moves along the direction by
`currentRadius - desiredRadius` and the radius becomes `desiredRadius`; in both cases the new
radius is `min(currentRadius, desiredRadius)`. With both curvatures `0` the desired radius is
infinite and the spoke is left as it is. -/
theorem C16_curvatureStep_cases (curr_max curr_min : ℚ) (s : vtkSpoke) :
    (max |curr_max| |curr_min| = 0 → curvatureStep curr_max curr_min s = s) ∧
    (max |curr_max| |curr_min| ≠ 0 →
      (1 / max |curr_max| |curr_min| ≥ s.radius → curvatureStep curr_max curr_min s = s) ∧
      (1 / max |curr_max| |curr_min| < s.radius →
        curvatureStep curr_max curr_min s
          = ⟨s.skeletalPoint.add
              (Vec3.smul (s.radius - 1 / max |curr_max| |curr_min|) s.direction),
             s.direction, 1 / max |curr_max| |curr_min|⟩) ∧
      (curvatureStep curr_max curr_min s).radius
        = min s.radius (1 / max |curr_max| |curr_min|)) := by
  refine ⟨fun h0 => by simp only [curvatureStep, if_pos h0], fun h0 => ⟨?_, ?_, ?_⟩⟩
  · intro hge
    have : s.radius - 1 / max |curr_max| |curr_min| ≤ 0 := by linarith
    simp only [curvatureStep, if_neg h0, if_pos this]
  · intro hlt
    have : ¬ s.radius - 1 / max |curr_max| |curr_min| ≤ 0 := by linarith
    simp only [curvatureStep, if_neg h0, if_neg this, vtkSpoke.SetRadius,
      vtkSpoke.SetSkeletalPoint, Vec3.add, Vec3.smul]
    congr 1
    refine Vec3.ext ?_ ?_ ?_ <;> simp only <;> ring
  · by_cases hd : s.radius - 1 / max |curr_max| |curr_min| ≤ 0
    · simp only [curvatureStep, if_neg h0, if_pos hd]
      rw [min_eq_left (by linarith)]
    · simp only [curvatureStep, if_neg h0, if_neg hd, vtkSpoke.SetRadius]
      rw [min_eq_right (by linarith)]

/-- C16 for the curvatures `(4, -2)` and a spoke of radius `1`: the desired radius is `1/4`. -/
theorem C16_curvatureStep_cases_witness :
    max |(4 : ℚ)| |(-2 : ℚ)| ≠ 0 ∧
    (curvatureStep 4 (-2) (flatSpoke 0 0)).radius
      = min (flatSpoke 0 0).radius (1 / max |(4 : ℚ)| |(-2 : ℚ)|) :=
  ⟨by norm_num, ((C16_curvatureStep_cases 4 (-2) (flatSpoke 0 0)).2 (by norm_num)).2.2⟩

/-! ## Crest length search: proofs -/

/-- Inside the 32-bit range the counter holds the arithmetic value; it never leaves the range,
and from a value of the range it never grows by more than the arithmetic increment. -/
theorem wrapInt32_bounds (x : Int) :
    -2147483648 ≤ wrapInt32 x ∧ wrapInt32 x ≤ 2147483647 ∧
    (-2147483648 ≤ x → wrapInt32 x ≤ x) ∧
    (-2147483648 ≤ x → x ≤ 2147483647 → wrapInt32 x = x) := by
  unfold wrapInt32
  refine ⟨by omega, by omega, fun h => by omega, fun h1 h2 => by omega⟩

theorem crestLoop_done (distanceFunction : Vec3 → ℚ) (targetSpoke : vtkSpoke) (maxIter : Int)
    (fuel : Nat) (s : CrestSearch) (h : |s.dist| ≤ crestEpsilon) :
    crestLoop distanceFunction targetSpoke maxIter fuel s = s := by
  cases fuel with
  | zero => rfl
  | succ n => simp only [crestLoop, if_neg (not_lt.mpr h)]

/-- One pass of the loop body, field by field. -/
theorem crestBody_eq (distanceFunction : Vec3 → ℚ) (targetSpoke : vtkSpoke) (s : CrestSearch) :
    crestBody distanceFunction targetSpoke s
      = ⟨if s.dist > 0 then s.newR - s.stepSize else s.newR + s.stepSize,
         if s.oldDist * radiusDistance distanceFunction targetSpoke
              (if s.dist > 0 then s.newR - s.stepSize else s.newR + s.stepSize) < 0
           then s.stepSize / 10 else s.stepSize,
         radiusDistance distanceFunction targetSpoke
           (if s.dist > 0 then s.newR - s.stepSize else s.newR + s.stepSize),
         if s.oldDist * radiusDistance distanceFunction targetSpoke
              (if s.dist > 0 then s.newR - s.stepSize else s.newR + s.stepSize) < 0
           then radiusDistance distanceFunction targetSpoke
              (if s.dist > 0 then s.newR - s.stepSize else s.newR + s.stepSize)
           else s.oldDist,
         wrapInt32 (s.iter + 1)⟩ := by
  by_cases hd : s.dist > 0
  · by_cases hf : s.oldDist * radiusDistance distanceFunction targetSpoke
        (s.newR - s.stepSize) < 0
    · simp only [crestBody, if_pos hd, if_pos hf]
    · simp only [crestBody, if_pos hd, if_neg hf]
  · by_cases hf : s.oldDist * radiusDistance distanceFunction targetSpoke
        (s.newR + s.stepSize) < 0
    · simp only [crestBody, if_neg hd, if_pos hf]
    · simp only [crestBody, if_neg hd, if_neg hf]

theorem crestBody_iter (distanceFunction : Vec3 → ℚ) (targetSpoke : vtkSpoke)
    (s : CrestSearch) :
    (crestBody distanceFunction targetSpoke s).iter = wrapInt32 (s.iter + 1) := by
  rw [crestBody_eq]

/-- For `maxIter` below `INT_MAX`, running the loop with more fuel than `crestFuel maxIter`
changes nothing: by then the `break` has been taken. -/
theorem crestLoop_fuel_enough (distanceFunction : Vec3 → ℚ) (targetSpoke : vtkSpoke)
    (maxIter : Int) (hmax : maxIter < 2147483647) (extra : Nat) :
    ∀ (fuel : Nat) (s : CrestSearch), 0 ≤ s.iter → s.iter ≤ maxIter → 1 ≤ fuel →
      maxIter.toNat + 1 ≤ s.iter.toNat + fuel →
      crestLoop distanceFunction targetSpoke maxIter (fuel + extra) s
        = crestLoop distanceFunction targetSpoke maxIter fuel s := by
  intro fuel
  induction fuel with
  | zero => intro s _ _ h; omega
  | succ k ih =>
    intro s h0 hle _ hb
    rw [show k + 1 + extra = (k + extra) + 1 from by omega]
    simp only [crestLoop]
    by_cases hg : |s.dist| > crestEpsilon
    · simp only [if_pos hg]
      have hi := crestBody_iter distanceFunction targetSpoke s
      rw [(wrapInt32_bounds (s.iter + 1)).2.2.2 (by omega) (by omega)] at hi
      by_cases hbrk : (crestBody distanceFunction targetSpoke s).iter > maxIter
      · simp only [if_pos hbrk]
      · simp only [if_neg hbrk]
        exact ih _ (by omega) (by omega) (by omega) (by omega)
    · simp only [if_neg hg]

theorem crestTrace_head (distanceFunction : Vec3 → ℚ) (targetSpoke : vtkSpoke) (maxIter : Int)
    (fuel : Nat) (s : CrestSearch) :
    (crestTrace distanceFunction targetSpoke maxIter fuel s).head? = some s := by
  cases fuel with
  | zero => rfl
  | succ n =>
    simp only [crestTrace]
    split_ifs <;> rfl

/-- The last state of the trace is the state with which the loop is left. -/
theorem crestTrace_getLast (distanceFunction : Vec3 → ℚ) (targetSpoke : vtkSpoke)
    (maxIter : Int) :
    ∀ (fuel : Nat) (s : CrestSearch),
      (crestTrace distanceFunction targetSpoke maxIter fuel s).getLast?
        = some (crestLoop distanceFunction targetSpoke maxIter fuel s) := by
  intro fuel
  induction fuel with
  | zero => intro s; rfl
  | succ n ih =>
    intro s
    simp only [crestTrace, crestLoop]
    split_ifs
    · rfl
    · rw [List.getLast?_cons, ih, Option.getD_some]
    · rfl

theorem mul_neg_iff_of_same_sign (o d e : ℚ) (h : 0 < o * d) : o * e < 0 ↔ d * e < 0 := by
  rcases mul_pos_iff.mp h with ⟨ho, hd⟩ | ⟨ho, hd⟩
  · constructor <;> intro hh <;> rcases mul_neg_iff.mp hh with ⟨_, h2⟩ | ⟨h1, _⟩
    · exact mul_neg_of_pos_of_neg hd h2
    · exact absurd ho (not_lt.mpr h1.le)
    · exact mul_neg_of_pos_of_neg ho h2
    · exact absurd hd (not_lt.mpr h1.le)
  · constructor <;> intro hh <;> rcases mul_neg_iff.mp hh with ⟨h1, _⟩ | ⟨_, h2⟩
    · exact absurd h1 (not_lt.mpr ho.le)
    · exact mul_neg_of_neg_of_pos hd h2
    · exact absurd h1 (not_lt.mpr hd.le)
    · exact mul_neg_of_neg_of_pos ho h2

/-- The step-size rule of one pass, read on the remembered distance `oldDist`. -/
theorem crestBody_stepSize (distanceFunction : Vec3 → ℚ) (targetSpoke : vtkSpoke)
    (s : CrestSearch) :
    (crestBody distanceFunction targetSpoke s).stepSize
      = if s.oldDist * (crestBody distanceFunction targetSpoke s).dist < 0
        then s.stepSize / 10 else s.stepSize := by
  rw [crestBody_eq]

/-- The remembered distance after one pass has the strict sign of the new distance, unless the
new distance is `0`. -/
theorem crestBody_sign_invariant (distanceFunction : Vec3 → ℚ) (targetSpoke : vtkSpoke)
    (s : CrestSearch) (h : 0 < s.oldDist * s.dist) :
    0 < (crestBody distanceFunction targetSpoke s).oldDist
        * (crestBody distanceFunction targetSpoke s).dist ∨
    (crestBody distanceFunction targetSpoke s).dist = 0 := by
  have ho : s.oldDist ≠ 0 := fun h0 => by rw [h0, zero_mul] at h; exact lt_irrefl _ h
  rw [crestBody_eq]
  simp only
  generalize radiusDistance distanceFunction targetSpoke
    (if s.dist > 0 then s.newR - s.stepSize else s.newR + s.stepSize) = d
  by_cases hf : s.oldDist * d < 0
  · rw [if_pos hf]
    have hd : d ≠ 0 := fun h0 => by rw [h0, mul_zero] at hf; exact lt_irrefl _ hf
    exact Or.inl (mul_self_pos.mpr hd)
  · rw [if_neg hf]
    by_cases hd : d = 0
    · exact Or.inr hd
    · exact Or.inl (lt_of_le_of_ne (not_lt.mp hf) (Ne.symm (mul_ne_zero ho hd)))

/-- The step-size rule along a trace that starts with the remembered distance in step with the
current one. -/
theorem crestTrace_chain (distanceFunction : Vec3 → ℚ) (targetSpoke : vtkSpoke)
    (maxIter : Int) :
    ∀ (fuel : Nat) (s : CrestSearch), (0 < s.oldDist * s.dist ∨ |s.dist| ≤ crestEpsilon) →
      List.Chain' (fun a b : CrestSearch =>
          b.stepSize = if a.dist * b.dist < 0 then a.stepSize / 10 else a.stepSize)
        (crestTrace distanceFunction targetSpoke maxIter fuel s) := by
  intro fuel
  induction fuel with
  | zero => intro s _; simp [crestTrace]
  | succ n ih =>
    intro s hinv
    simp only [crestTrace]
    by_cases hg : |s.dist| > crestEpsilon
    · have hpos : 0 < s.oldDist * s.dist := by
        rcases hinv with h | h
        · exact h
        · exact absurd hg (not_lt.mpr h)
      have hstep : (crestBody distanceFunction targetSpoke s).stepSize
          = if s.dist * (crestBody distanceFunction targetSpoke s).dist < 0
            then s.stepSize / 10 else s.stepSize := by
        rw [crestBody_stepSize]
        by_cases hf : s.oldDist * (crestBody distanceFunction targetSpoke s).dist < 0
        · rw [if_pos hf, if_pos ((mul_neg_iff_of_same_sign _ _ _ hpos).mp hf)]
        · rw [if_neg hf, if_neg (fun h => hf ((mul_neg_iff_of_same_sign _ _ _ hpos).mpr h))]
      simp only [if_pos hg]
      split_ifs
      · simp [hstep]
      · rw [List.chain'_cons']
        refine ⟨?_, ih _ ?_⟩
        · intro y hy
          rw [crestTrace_head] at hy
          cases hy
          exact hstep
        · rcases crestBody_sign_invariant distanceFunction targetSpoke s hpos with h | h
          · exact Or.inl h
          · right
            rw [h]
            norm_num [crestEpsilon]
    · simp [if_neg hg]

/-- C13. In every pass of the loop of `OptimizeCrestSpokeLength`, for every distance function,
the step size is divided by `10` exactly when the distance evaluated after the radius update has
the opposite strict sign to the distance evaluated before it, and is unchanged otherwise:
this holds between any two consecutive states of the run. -/
theorem C13_step_decay_on_sign_flip (distanceFunction : Vec3 → ℚ) (targetSpoke : vtkSpoke)
    (stepSize : ℚ) (maxIter : Int) :
    List.Chain' (fun a b : CrestSearch =>
        b.stepSize = if a.dist * b.dist < 0 then a.stepSize / 10 else a.stepSize)
      (crestTrace distanceFunction targetSpoke maxIter (crestFuel maxIter)
        (crestStart distanceFunction targetSpoke stepSize)) ∧
    (crestTrace distanceFunction targetSpoke maxIter (crestFuel maxIter)
        (crestStart distanceFunction targetSpoke stepSize)).getLast?
      = some (crestFinal distanceFunction targetSpoke stepSize maxIter) := by
  refine ⟨crestTrace_chain distanceFunction targetSpoke maxIter _ _ ?_,
    crestTrace_getLast distanceFunction targetSpoke maxIter _ _⟩
  simp only [crestStart]
  by_cases h0 : distanceFunction targetSpoke.GetBoundaryPoint = 0
  · right
    rw [h0]
    norm_num [crestEpsilon]
  · exact Or.inl (mul_self_pos.mpr h0)

/-- C14. With a distance function that is `1` everywhere, a spoke of radius `1`, step `1/4`
and `maxIter = 2` the loop makes three radius updates, `1 → 3/4 → 1/2 → 1/4`, one more than
`maxIter`. -/
theorem C14_three_updates_for_maxIter_two :
    (crestFinal (fun _ => 1) (flatSpoke 0 0) (1 / 4) 2).iter = 3 ∧
    (OptimizeCrestSpokeLength (fun _ => 1) (flatSpoke 0 0) (1 / 4) 2).radius = 1 / 4 ∧
    (crestTrace (fun _ => 1) (flatSpoke 0 0) 2 (crestFuel 2)
      (crestStart (fun _ => 1) (flatSpoke 0 0) (1 / 4))).length = 4 := by
  refine ⟨?_, ?_, ?_⟩ <;>
    norm_num [OptimizeCrestSpokeLength, crestFinal, crestFuel, crestStart, crestLoop,
      crestTrace, crestBody, radiusDistance, crestEpsilon, flatSpoke, vtkSpoke.SetRadius,
      wrapInt32]

/-! ## Radius positivity: proofs -/

theorem radiusDistance_self (distanceFunction : Vec3 → ℚ) (targetSpoke : vtkSpoke) :
    radiusDistance distanceFunction targetSpoke targetSpoke.radius
      = distanceFunction targetSpoke.GetBoundaryPoint := rfl

/-- When the distance is not positive at any positive radius up to the initial step, the loop
keeps the radius positive. -/
theorem crestLoop_radius_pos (distanceFunction : Vec3 → ℚ) (targetSpoke : vtkSpoke)
    (stepSize : ℚ) (maxIter : Int)
    (hin : ∀ r, 0 < r → r ≤ stepSize → radiusDistance distanceFunction targetSpoke r ≤ 0) :
    ∀ (fuel : Nat) (s : CrestSearch), 0 < s.newR → 0 < s.stepSize → s.stepSize ≤ stepSize →
      s.dist = radiusDistance distanceFunction targetSpoke s.newR →
      0 < (crestLoop distanceFunction targetSpoke maxIter fuel s).newR := by
  intro fuel
  induction fuel with
  | zero => intro s h _ _ _; exact h
  | succ n ih =>
    intro s hR hs hle hd
    simp only [crestLoop]
    by_cases hg : |s.dist| > crestEpsilon
    · simp only [if_pos hg]
      have hb := crestBody_eq distanceFunction targetSpoke s
      have hnew : 0 < (crestBody distanceFunction targetSpoke s).newR := by
        rw [hb]
        simp only
        by_cases hpos : s.dist > 0
        · rw [if_pos hpos]
          by_contra hcon
          have : s.newR ≤ stepSize := by linarith
          have := hin _ hR this
          rw [← hd] at this
          linarith
        · rw [if_neg hpos]
          linarith
      have hstep : 0 < (crestBody distanceFunction targetSpoke s).stepSize ∧
          (crestBody distanceFunction targetSpoke s).stepSize ≤ stepSize := by
        rw [crestBody_stepSize]
        split_ifs
        · constructor <;> linarith
        · exact ⟨hs, hle⟩
      have hdist : (crestBody distanceFunction targetSpoke s).dist
          = radiusDistance distanceFunction targetSpoke
              (crestBody distanceFunction targetSpoke s).newR := by
        rw [hb]
      split_ifs
      · exact hnew
      · exact ih _ hnew hstep.1 hstep.2 hdist
    · simp only [if_neg hg]
      exact hR

theorem curvatureStep_radius_pos (curr_max curr_min : ℚ) (s : vtkSpoke) (h : 0 < s.radius) :
    0 < (curvatureStep curr_max curr_min s).radius := by
  by_cases h0 : max |curr_max| |curr_min| = 0
  · simp only [curvatureStep, if_pos h0]
    exact h
  · by_cases hd : s.radius - 1 / max |curr_max| |curr_min| ≤ 0
    · simp only [curvatureStep, if_neg h0, if_pos hd]
      exact h
    · simp only [curvatureStep, if_neg h0, if_neg hd, vtkSpoke.SetRadius]
      have hm : 0 < max |curr_max| |curr_min| :=
        lt_of_le_of_ne (le_trans (abs_nonneg curr_max) (le_max_left _ _)) (Ne.symm h0)
      positivity

/-- C18 (amended statement). The curvature pass of `RefineCrestSpokes` keeps a positive radius
positive, for all curvatures. `OptimizeCrestSpokeLength` keeps the radius positive for every
positive step and every `maxIter`, on return and after any number of passes of its loop, when
the distance function is not positive at any positive radius up to the step size, that is,
when a spoke of positive length no longer than one step does not reach outside the target. -/
theorem C18_radius_stays_positive (distanceFunction : Vec3 → ℚ) (targetSpoke : vtkSpoke)
    (stepSize : ℚ) (maxIter : Int) (hr : 0 < targetSpoke.radius) (hs : 0 < stepSize)
    (hin : ∀ r, 0 < r → r ≤ stepSize → radiusDistance distanceFunction targetSpoke r ≤ 0) :
    0 < (OptimizeCrestSpokeLength distanceFunction targetSpoke stepSize maxIter).radius ∧
    (∀ fuel : Nat,
      0 < (crestLoop distanceFunction targetSpoke maxIter fuel
        (crestStart distanceFunction targetSpoke stepSize)).newR) ∧
    (∀ (curr_max curr_min : ℚ) (s : vtkSpoke), 0 < s.radius →
      0 < (curvatureStep curr_max curr_min s).radius) := by
  refine ⟨?_, fun fuel => crestLoop_radius_pos distanceFunction targetSpoke stepSize maxIter
    hin fuel _ hr hs (le_refl _) (radiusDistance_self distanceFunction targetSpoke).symm,
    fun a b s h => curvatureStep_radius_pos a b s h⟩
  simp only [OptimizeCrestSpokeLength, vtkSpoke.SetRadius, crestFinal]
  exact crestLoop_radius_pos distanceFunction targetSpoke stepSize maxIter hin _ _ hr hs
    (le_refl _) (radiusDistance_self distanceFunction targetSpoke).symm

/-- C18 (amended statement) for a spoke of radius `1` along `z` from the origin, the bounded
target that is the ball of radius `3` about the origin, with the distance `x² + y² + z² - 9`,
step `1/2` and `maxIter = 100`. -/
theorem C18_radius_stays_positive_witness :
    0 < (flatSpoke 0 0).radius ∧ (0 : ℚ) < 1 / 2 ∧
    (∀ r : ℚ, 0 < r → r ≤ 1 / 2 →
      radiusDistance (fun p => p.x * p.x + p.y * p.y + p.z * p.z - 9) (flatSpoke 0 0) r ≤ 0) ∧
    0 < (OptimizeCrestSpokeLength (fun p => p.x * p.x + p.y * p.y + p.z * p.z - 9)
      (flatSpoke 0 0) (1 / 2) 100).radius :=
  ⟨by norm_num [flatSpoke], by norm_num,
    (by
      intro r hr0 hr
      simp only [radiusDistance, vtkSpoke.GetBoundaryPoint, vtkSpoke.SetRadius, flatSpoke,
        Vec3.add, Vec3.smul]
      nlinarith),
    (C18_radius_stays_positive (fun p => p.x * p.x + p.y * p.y + p.z * p.z - 9)
      (flatSpoke 0 0) (1 / 2) 100 (by norm_num [flatSpoke]) (by norm_num)
      (by
        intro r hr0 hr
        simp only [radiusDistance, vtkSpoke.GetBoundaryPoint, vtkSpoke.SetRadius, flatSpoke,
          Vec3.add, Vec3.smul]
        nlinarith)).1⟩

/-- C18 (counterexample). A spoke of radius `1`, a distance function that is `1` everywhere,
step `5` and `maxIter = 0`: the single pass sets the radius to `-4`. -/
theorem C18_counterexample :
    0 < (flatSpoke 0 0).radius ∧
    (OptimizeCrestSpokeLength (fun _ => 1) (flatSpoke 0 0) 5 0).radius = -4 ∧
    ¬ 0 < (OptimizeCrestSpokeLength (fun _ => 1) (flatSpoke 0 0) 5 0).radius := by
  have h : (OptimizeCrestSpokeLength (fun _ => 1) (flatSpoke 0 0) 5 0).radius = -4 := by
    norm_num [OptimizeCrestSpokeLength, crestFinal, crestFuel, crestStart, crestLoop,
      crestBody, radiusDistance, crestEpsilon, flatSpoke, vtkSpoke.SetRadius]
  refine ⟨by norm_num [flatSpoke], h, ?_⟩
  rw [h]
  norm_num

/-! ## Convergence of the length search on a linear distance: proofs -/

/-- One pass on the distance `r - target`: either the sign flips, the step was larger than the
tolerance, it is divided by `10` and the new distance is smaller than the old step; or the sign
does not flip, the step stays and the distance shrinks by one step. -/
theorem crestBody_linear (distanceFunction : Vec3 → ℚ) (targetSpoke : vtkSpoke) (target : ℚ)
    (hlin : ∀ r, radiusDistance distanceFunction targetSpoke r = r - target)
    (s : CrestSearch) (hd : s.dist = s.newR - target)
    (hinv : 0 < s.oldDist * s.dist) (hg : |s.dist| > crestEpsilon) :
    (crestBody distanceFunction targetSpoke s).dist
      = (crestBody distanceFunction targetSpoke s).newR - target ∧
    ((crestBody distanceFunction targetSpoke s).stepSize = s.stepSize / 10 ∧
        crestEpsilon < s.stepSize ∧
        |(crestBody distanceFunction targetSpoke s).dist| < s.stepSize ∧
        0 < (crestBody distanceFunction targetSpoke s).oldDist
          * (crestBody distanceFunction targetSpoke s).dist
      ∨
      (crestBody distanceFunction targetSpoke s).stepSize = s.stepSize ∧
        |(crestBody distanceFunction targetSpoke s).dist| = |s.dist| - s.stepSize ∧
        (0 < (crestBody distanceFunction targetSpoke s).oldDist
            * (crestBody distanceFunction targetSpoke s).dist ∨
          |(crestBody distanceFunction targetSpoke s).dist| ≤ crestEpsilon)) := by
  have heps : (0 : ℚ) < crestEpsilon := by norm_num [crestEpsilon]
  rw [crestBody_eq]
  simp only [hlin]
  by_cases hpos : s.dist > 0
  · have ho : 0 < s.oldDist := by
      rcases mul_pos_iff.mp hinv with ⟨ho, _⟩ | ⟨_, hd2⟩
      · exact ho
      · exact absurd hpos (not_lt.mpr hd2.le)
    have habs : |s.dist| = s.dist := abs_of_pos hpos
    simp only [if_pos hpos]
    refine ⟨trivial, ?_⟩
    by_cases hf : s.oldDist * (s.newR - s.stepSize - target) < 0
    · left
      have hneg : s.newR - s.stepSize - target < 0 := by
        rcases mul_neg_iff.mp hf with ⟨_, h2⟩ | ⟨h1, _⟩
        · exact h2
        · exact absurd ho (not_lt.mpr h1.le)
      simp only [if_pos hf]
      refine ⟨trivial, ?_, ?_, mul_self_pos.mpr (ne_of_lt hneg)⟩
      · rw [habs] at hg
        linarith
      · rw [abs_of_neg hneg]
        linarith
    · right
      have hnn : 0 ≤ s.newR - s.stepSize - target := by
        by_contra hcon
        exact hf (mul_neg_of_pos_of_neg ho (not_le.mp hcon))
      simp only [if_neg hf]
      refine ⟨trivial, ?_, ?_⟩
      · rw [abs_of_nonneg hnn, habs]
        linarith
      · rcases eq_or_lt_of_le hnn with h0 | h0
        · right
          rw [← h0, abs_zero]
          exact heps.le
        · exact Or.inl (mul_pos ho h0)
  · have hneg : s.dist < 0 := by
      rcases lt_or_eq_of_le (not_lt.mp hpos) with h | h
      · exact h
      · rw [h, abs_zero] at hg
        exact absurd heps (not_lt.mpr hg.le)
    have ho : s.oldDist < 0 := by
      rcases mul_pos_iff.mp hinv with ⟨_, hd2⟩ | ⟨ho, _⟩
      · exact absurd hd2 (not_lt.mpr hneg.le)
      · exact ho
    have habs : |s.dist| = -s.dist := abs_of_neg hneg
    simp only [if_neg hpos]
    refine ⟨trivial, ?_⟩
    by_cases hf : s.oldDist * (s.newR + s.stepSize - target) < 0
    · left
      have hp : 0 < s.newR + s.stepSize - target := by
        rcases mul_neg_iff.mp hf with ⟨h1, _⟩ | ⟨_, h2⟩
        · exact absurd h1 (not_lt.mpr ho.le)
        · exact h2
      simp only [if_pos hf]
      refine ⟨trivial, ?_, ?_, mul_self_pos.mpr (ne_of_gt hp)⟩
      · rw [habs] at hg
        linarith
      · rw [abs_of_pos hp]
        linarith
    · right
      have hnp : s.newR + s.stepSize - target ≤ 0 := by
        by_contra hcon
        exact hf (mul_neg_of_neg_of_pos ho (not_le.mp hcon))
      simp only [if_neg hf]
      refine ⟨trivial, ?_, ?_⟩
      · rw [abs_of_nonpos hnp, habs]
        linarith
      · rcases eq_or_lt_of_le hnp with h0 | h0
        · right
          rw [h0, abs_zero]
          exact heps.le
        · exact Or.inl (mul_pos_of_neg_of_neg ho h0)

/-- Convergence from any state: with the step at most `epsilon * 10^m` and the distance at most
`n` steps, `11 * m + n` passes bring the radius within `epsilon` of the target. -/
theorem crestLoop_linear_converges (distanceFunction : Vec3 → ℚ) (targetSpoke : vtkSpoke)
    (target : ℚ) (maxIter : Int)
    (hlin : ∀ r, radiusDistance distanceFunction targetSpoke r = r - target) :
    ∀ (μ m n : Nat) (s : CrestSearch) (fuel : Nat), 11 * m + n ≤ μ → 0 < s.stepSize →
      s.stepSize ≤ crestEpsilon * 10 ^ m → |s.dist| ≤ n * s.stepSize →
      s.dist = s.newR - target → (0 < s.oldDist * s.dist ∨ |s.dist| ≤ crestEpsilon) →
      -2147483648 ≤ s.iter → s.iter + μ ≤ maxIter → μ ≤ fuel →
      |(crestLoop distanceFunction targetSpoke maxIter fuel s).newR - target|
        ≤ crestEpsilon := by
  have heps : (0 : ℚ) < crestEpsilon := by norm_num [crestEpsilon]
  intro μ
  induction μ with
  | zero =>
    intro m n s fuel hμ hs _ hn hd _ _ _ _
    have hn0 : n = 0 := by omega
    have hsmall : |s.dist| ≤ crestEpsilon := by
      rw [hn0] at hn
      simp only [Nat.cast_zero, zero_mul] at hn
      linarith
    rw [crestLoop_done _ _ _ _ _ hsmall, ← hd]
    exact hsmall
  | succ μ ih =>
    intro m n s fuel hμ hs hm hn hd hinv hlow hiter hfuel
    by_cases hg : |s.dist| > crestEpsilon
    · have hpos : 0 < s.oldDist * s.dist := by
        rcases hinv with h | h
        · exact h
        · exact absurd hg (not_lt.mpr h)
      obtain ⟨k, rfl⟩ : ∃ k, fuel = k + 1 := ⟨fuel - 1, by omega⟩
      have hn1 : 1 ≤ n := by
        by_contra hcon
        have hn0 : n = 0 := by omega
        rw [hn0] at hn
        simp only [Nat.cast_zero, zero_mul] at hn
        linarith
      have hi := crestBody_iter distanceFunction targetSpoke s
      have hw := wrapInt32_bounds (s.iter + 1)
      have hwle := hw.2.2.1 (by omega)
      have hnb : ¬ (crestBody distanceFunction targetSpoke s).iter > maxIter := by
        rw [hi]
        push_cast at hiter
        omega
      simp only [crestLoop, if_pos hg, if_neg hnb]
      obtain ⟨hd', hcase⟩ := crestBody_linear distanceFunction targetSpoke target hlin s hd
        hpos hg
      rcases hcase with ⟨hstep, hbig, hlt, hinv'⟩ | ⟨hstep, habs, hinv'⟩
      · have hm1 : 1 ≤ m := by
          by_contra hcon
          have hm0 : m = 0 := by omega
          rw [hm0] at hm
          simp only [pow_zero, mul_one] at hm
          linarith
        obtain ⟨m', rfl⟩ : ∃ m', m = m' + 1 := ⟨m - 1, by omega⟩
        refine ih m' 10 _ k (by omega) (by rw [hstep]; linarith) ?_ ?_ hd' (Or.inl hinv')
          (by rw [hi]; exact hw.1) (by rw [hi]; push_cast at hiter ⊢; omega) (by omega)
        · rw [hstep]
          rw [pow_succ] at hm
          linarith
        · rw [hstep]
          push_cast
          linarith
      · obtain ⟨n', rfl⟩ : ∃ n', n = n' + 1 := ⟨n - 1, by omega⟩
        refine ih m n' _ k (by omega) (by rw [hstep]; exact hs) (by rw [hstep]; exact hm) ?_
          hd' hinv' (by rw [hi]; exact hw.1) (by rw [hi]; push_cast at hiter ⊢; omega)
          (by omega)
        rw [hstep, habs]
        push_cast at hn
        linarith
    · have hsmall : |s.dist| ≤ crestEpsilon := not_lt.mp hg
      rw [crestLoop_done _ _ _ _ _ hsmall, ← hd]
      exact hsmall

/-- C12. For a distance that is linear in the radius, `f(r) = r - target`, every start radius,
every target and every positive step size, there is an `N` such that for every `maxIter ≥ N`
`OptimizeCrestSpokeLength` ends with `|radius - target| ≤ 1e-5`. -/
theorem C12_linear_search_converges (distanceFunction : Vec3 → ℚ) (targetSpoke : vtkSpoke)
    (target stepSize : ℚ) (hs : 0 < stepSize)
    (hlin : ∀ r, radiusDistance distanceFunction targetSpoke r = r - target) :
    ∃ N : Int, ∀ maxIter : Int, N ≤ maxIter →
      |(OptimizeCrestSpokeLength distanceFunction targetSpoke stepSize maxIter).radius - target|
        ≤ 1 / 100000 := by
  have heps : (0 : ℚ) < crestEpsilon := by norm_num [crestEpsilon]
  obtain ⟨m, hm⟩ := pow_unbounded_of_one_lt (stepSize / crestEpsilon)
    (by norm_num : (1 : ℚ) < 10)
  have hm' : stepSize ≤ crestEpsilon * 10 ^ m := by
    have := (div_lt_iff₀ heps).mp hm
    linarith
  have hd0 : distanceFunction targetSpoke.GetBoundaryPoint = targetSpoke.radius - target := by
    rw [← radiusDistance_self distanceFunction targetSpoke, hlin]
  refine ⟨((11 * m + ⌈|targetSpoke.radius - target| / stepSize⌉₊ : Nat) : Int), ?_⟩
  intro maxIter hN
  have hconv := crestLoop_linear_converges distanceFunction targetSpoke target maxIter hlin
    (11 * m + ⌈|targetSpoke.radius - target| / stepSize⌉₊) m
    ⌈|targetSpoke.radius - target| / stepSize⌉₊
    (crestStart distanceFunction targetSpoke stepSize) (crestFuel maxIter) (le_refl _)
    hs hm' ?_ ?_ ?_ (by simp only [crestStart]; decide) ?_ ?_
  · simpa only [OptimizeCrestSpokeLength, vtkSpoke.SetRadius, crestFinal, crestEpsilon]
      using hconv
  · simp only [crestStart, hd0]
    have := Nat.le_ceil (|targetSpoke.radius - target| / stepSize)
    calc |targetSpoke.radius - target|
        = |targetSpoke.radius - target| / stepSize * stepSize := by
          field_simp
      _ ≤ (⌈|targetSpoke.radius - target| / stepSize⌉₊ : ℚ) * stepSize :=
          mul_le_mul_of_nonneg_right this hs.le
  · simp only [crestStart, hd0]
  · simp only [crestStart]
    by_cases h0 : distanceFunction targetSpoke.GetBoundaryPoint = 0
    · right
      rw [h0, abs_zero]
      exact heps.le
    · exact Or.inl (mul_self_pos.mpr h0)
  · simp only [crestStart]
    omega
  · simp only [crestFuel]
    omega

/-- C12 for a spoke of radius `1` along `z` from the origin, the distance `z - 3` to the plane
`z = 3` and step `1/2`. -/
theorem C12_linear_search_converges_witness :
    (0 : ℚ) < 1 / 2 ∧
    ∃ N : Int, ∀ maxIter : Int, N ≤ maxIter →
      |(OptimizeCrestSpokeLength (fun p => p.z - 3) (flatSpoke 0 0) (1 / 2) maxIter).radius - 3|
        ≤ 1 / 100000 :=
  ⟨by norm_num,
    C12_linear_search_converges (fun p => p.z - 3) (flatSpoke 0 0) 3 (1 / 2) (by norm_num)
      (by
        intro r
        simp only [radiusDistance, vtkSpoke.GetBoundaryPoint, vtkSpoke.SetRadius, flatSpoke,
          Vec3.add, Vec3.smul]
        ring)⟩

/-! ## Transform into the unit cube: proofs -/

theorem foldl_min_le (g : Vec3 → ℚ) :
    ∀ (l : List Vec3) (init : ℚ),
      l.foldl (fun m q => min m (g q)) init ≤ init ∧
      ∀ q ∈ l, l.foldl (fun m q => min m (g q)) init ≤ g q := by
  intro l
  induction l with
  | nil => intro init; simp
  | cons a l ih =>
    intro init
    simp only [List.foldl_cons, List.mem_cons]
    obtain ⟨h1, h2⟩ := ih (min init (g a))
    refine ⟨le_trans h1 (min_le_left _ _), ?_⟩
    rintro q (rfl | hq)
    · exact le_trans h1 (min_le_right _ _)
    · exact h2 q hq

theorem le_foldl_max (g : Vec3 → ℚ) :
    ∀ (l : List Vec3) (init : ℚ),
      init ≤ l.foldl (fun m q => max m (g q)) init ∧
      ∀ q ∈ l, g q ≤ l.foldl (fun m q => max m (g q)) init := by
  intro l
  induction l with
  | nil => intro init; simp
  | cons a l ih =>
    intro init
    simp only [List.foldl_cons, List.mem_cons]
    obtain ⟨h1, h2⟩ := ih (max init (g a))
    refine ⟨le_trans (le_max_left _ _) h1, ?_⟩
    rintro q (rfl | hq)
    · exact le_trans (le_max_right _ _) h1
    · exact h2 q hq

/-- Every point lies inside the bounding box of its list. -/
theorem GetBounds_spec (pts : List Vec3) (q : Vec3) (hq : q ∈ pts) :
    ((GetBounds pts).getD 0 0 ≤ q.x ∧ q.x ≤ (GetBounds pts).getD 1 0) ∧
    ((GetBounds pts).getD 2 0 ≤ q.y ∧ q.y ≤ (GetBounds pts).getD 3 0) ∧
    ((GetBounds pts).getD 4 0 ≤ q.z ∧ q.z ≤ (GetBounds pts).getD 5 0) := by
  cases pts with
  | nil => simp at hq
  | cons p ps =>
    simp only [GetBounds, List.getD_cons_zero, List.getD_cons_succ]
    rcases List.mem_cons.mp hq with rfl | hmem
    · exact ⟨⟨(foldl_min_le (fun v => v.x) ps q.x).1, (le_foldl_max (fun v => v.x) ps q.x).1⟩,
        ⟨(foldl_min_le (fun v => v.y) ps q.y).1, (le_foldl_max (fun v => v.y) ps q.y).1⟩,
        ⟨(foldl_min_le (fun v => v.z) ps q.z).1, (le_foldl_max (fun v => v.z) ps q.z).1⟩⟩
    · exact ⟨⟨(foldl_min_le (fun v => v.x) ps p.x).2 q hmem,
          (le_foldl_max (fun v => v.x) ps p.x).2 q hmem⟩,
        ⟨(foldl_min_le (fun v => v.y) ps p.y).2 q hmem,
          (le_foldl_max (fun v => v.y) ps p.y).2 q hmem⟩,
        ⟨(foldl_min_le (fun v => v.z) ps p.z).2 q hmem,
          (le_foldl_max (fun v => v.z) ps p.z).2 q hmem⟩⟩

/-- With three positive extents the branch of `TransformSrep2ImageCS` divides every extent by
the largest one. -/
theorem transformedRanges_eq (xrange yrange zrange : ℚ) (hx : 0 < xrange) (hy : 0 < yrange)
    (hz : 0 < zrange) :
    transformedRanges xrange yrange zrange
      = (xrange / max (max xrange yrange) zrange, yrange / max (max xrange yrange) zrange,
         zrange / max (max xrange yrange) zrange) := by
  unfold transformedRanges
  by_cases h1 : xrange ≥ yrange ∧ xrange ≥ zrange
  · rw [if_pos h1, max_eq_left h1.1, max_eq_left h1.2, div_self (ne_of_gt hx)]
  · rw [if_neg h1]
    by_cases h2 : yrange ≥ xrange ∧ yrange ≥ zrange
    · rw [if_pos h2, max_eq_right h2.1, max_eq_left h2.2, div_self (ne_of_gt hy)]
    · rw [if_neg h2]
      have h3 : zrange ≥ xrange ∧ zrange ≥ yrange := by
        by_contra hcon
        rcases le_total xrange yrange with hxy | hxy <;>
          rcases le_total xrange zrange with hxz | hxz <;>
          rcases le_total yrange zrange with hyz | hyz <;>
          first
          | exact h1 ⟨by assumption, by assumption⟩
          | exact h2 ⟨by assumption, by assumption⟩
          | exact hcon ⟨by assumption, by assumption⟩
          | exact h1 ⟨by linarith, by linarith⟩
      rw [if_pos h3, max_eq_right (max_le h3.1 h3.2), div_self (ne_of_gt hz)]

/-- The affine map of one axis: scale `e / range` and shift `(1/2 - e/2) - e * lo / range` with
`e = range / R` send `[lo, hi]` onto `[1/2 - e/2, 1/2 + e/2]`, inside `[0, 1]`. -/
theorem axis_map (lo hi p R : ℚ) (hr : 0 < hi - lo) (hle : hi - lo ≤ R) (hp0 : lo ≤ p)
    (hp1 : p ≤ hi) :
    lo * ((hi - lo) / R / (hi - lo)) + (1 / 2 - (hi - lo) / R / 2 - (hi - lo) / R * lo / (hi - lo))
      = 1 / 2 - (hi - lo) / R / 2 ∧
    hi * ((hi - lo) / R / (hi - lo)) + (1 / 2 - (hi - lo) / R / 2 - (hi - lo) / R * lo / (hi - lo))
      = 1 / 2 + (hi - lo) / R / 2 ∧
    0 ≤ p * ((hi - lo) / R / (hi - lo))
        + (1 / 2 - (hi - lo) / R / 2 - (hi - lo) / R * lo / (hi - lo)) ∧
    p * ((hi - lo) / R / (hi - lo))
        + (1 / 2 - (hi - lo) / R / 2 - (hi - lo) / R * lo / (hi - lo)) ≤ 1 ∧
    (hi - lo) / R ≤ 1 := by
  have hR : 0 < R := lt_of_lt_of_le hr hle
  have hne : hi - lo ≠ 0 := ne_of_gt hr
  have hs : (hi - lo) / R / (hi - lo) = 1 / R := by field_simp; ring
  have hsh : (hi - lo) / R * lo / (hi - lo) = lo / R := by field_simp; ring
  have he : (hi - lo) / R ≤ 1 := (div_le_one hR).mpr hle
  have he0 : 0 < (hi - lo) / R := div_pos hr hR
  have hmap : ∀ t : ℚ, t * (1 / R) + (1 / 2 - (hi - lo) / R / 2 - lo / R)
      = (t - lo) / R + 1 / 2 - (hi - lo) / R / 2 := by
    intro t; field_simp; ring
  rw [hs, hsh, hmap, hmap, hmap]
  have hp : 0 ≤ (p - lo) / R := div_nonneg (by linarith) hR.le
  have hp' : (p - lo) / R ≤ (hi - lo) / R := div_le_div_of_nonneg_right (by linarith) hR.le
  refine ⟨by simp, by ring, by linarith, by linarith, he⟩

/-- The six entries of the matrix that the affine map reads, in terms of the transformed
ranges. -/
theorem TransformSrep2ImageCS_entries (spokes : List vtkSpoke) (mat4x4 : Nat → Nat → ℚ) :
    TransformSrep2ImageCS false spokes mat4x4 0 0
      = (transformedRanges (boundsRange (boundaryBounds spokes) 0)
          (boundsRange (boundaryBounds spokes) 1) (boundsRange (boundaryBounds spokes) 2)).1
        / boundsRange (boundaryBounds spokes) 0 ∧
    TransformSrep2ImageCS false spokes mat4x4 1 1
      = (transformedRanges (boundsRange (boundaryBounds spokes) 0)
          (boundsRange (boundaryBounds spokes) 1) (boundsRange (boundaryBounds spokes) 2)).2.1
        / boundsRange (boundaryBounds spokes) 1 ∧
    TransformSrep2ImageCS false spokes mat4x4 2 2
      = (transformedRanges (boundsRange (boundaryBounds spokes) 0)
          (boundsRange (boundaryBounds spokes) 1) (boundsRange (boundaryBounds spokes) 2)).2.2
        / boundsRange (boundaryBounds spokes) 2 ∧
    TransformSrep2ImageCS false spokes mat4x4 3 0
      = 1 / 2 - (transformedRanges (boundsRange (boundaryBounds spokes) 0)
          (boundsRange (boundaryBounds spokes) 1) (boundsRange (boundaryBounds spokes) 2)).1 / 2
        - (transformedRanges (boundsRange (boundaryBounds spokes) 0)
          (boundsRange (boundaryBounds spokes) 1) (boundsRange (boundaryBounds spokes) 2)).1
          * (boundaryBounds spokes).getD 0 0 / boundsRange (boundaryBounds spokes) 0 ∧
    TransformSrep2ImageCS false spokes mat4x4 3 1
      = 1 / 2 - (transformedRanges (boundsRange (boundaryBounds spokes) 0)
          (boundsRange (boundaryBounds spokes) 1) (boundsRange (boundaryBounds spokes) 2)).2.1 / 2
        - (transformedRanges (boundsRange (boundaryBounds spokes) 0)
          (boundsRange (boundaryBounds spokes) 1) (boundsRange (boundaryBounds spokes) 2)).2.1
          * (boundaryBounds spokes).getD 2 0 / boundsRange (boundaryBounds spokes) 1 ∧
    TransformSrep2ImageCS false spokes mat4x4 3 2
      = 1 / 2 - (transformedRanges (boundsRange (boundaryBounds spokes) 0)
          (boundsRange (boundaryBounds spokes) 1) (boundsRange (boundaryBounds spokes) 2)).2.2 / 2
        - (transformedRanges (boundsRange (boundaryBounds spokes) 0)
          (boundsRange (boundaryBounds spokes) 1) (boundsRange (boundaryBounds spokes) 2)).2.2
          * (boundaryBounds spokes).getD 4 0 / boundsRange (boundaryBounds spokes) 2 :=
  ⟨rfl, rfl, rfl, rfl, rfl, rfl⟩

/-- C17. For a non-empty list of spokes whose boundary-point bounding box has positive extent
along `x`, `y` and `z`, the map `p_i ↦ p_i * mat[i][i] + mat[3][i]` computed by
`TransformSrep2ImageCS` sends every boundary point into the unit cube: on each axis the
bounding interval goes onto `[0.5 - e_i/2, 0.5 + e_i/2]` with `e_i = range_i / max(range) ≤ 1`,
and `e_i = 1` on a longest axis, whose interval goes onto `[0, 1]`. -/
theorem C17_transform_into_unit_cube (spokes : List vtkSpoke) (mat4x4 : Nat → Nat → ℚ)
    (_hne : spokes ≠ [])
    (hx : 0 < boundsRange (boundaryBounds spokes) 0)
    (hy : 0 < boundsRange (boundaryBounds spokes) 1)
    (hz : 0 < boundsRange (boundaryBounds spokes) 2) :
    (∀ s ∈ spokes,
      0 ≤ (applyTransform (TransformSrep2ImageCS false spokes mat4x4) s.GetBoundaryPoint).x ∧
      (applyTransform (TransformSrep2ImageCS false spokes mat4x4) s.GetBoundaryPoint).x ≤ 1 ∧
      0 ≤ (applyTransform (TransformSrep2ImageCS false spokes mat4x4) s.GetBoundaryPoint).y ∧
      (applyTransform (TransformSrep2ImageCS false spokes mat4x4) s.GetBoundaryPoint).y ≤ 1 ∧
      0 ≤ (applyTransform (TransformSrep2ImageCS false spokes mat4x4) s.GetBoundaryPoint).z ∧
      (applyTransform (TransformSrep2ImageCS false spokes mat4x4) s.GetBoundaryPoint).z ≤ 1) ∧
    (∀ axis, axis < 3 →
      (boundaryBounds spokes).getD (2 * axis) 0
          * TransformSrep2ImageCS false spokes mat4x4 axis axis
          + TransformSrep2ImageCS false spokes mat4x4 3 axis
        = 1 / 2 - boundsRange (boundaryBounds spokes) axis / maxRange (boundaryBounds spokes) / 2 ∧
      (boundaryBounds spokes).getD (2 * axis + 1) 0
          * TransformSrep2ImageCS false spokes mat4x4 axis axis
          + TransformSrep2ImageCS false spokes mat4x4 3 axis
        = 1 / 2 + boundsRange (boundaryBounds spokes) axis / maxRange (boundaryBounds spokes) / 2 ∧
      boundsRange (boundaryBounds spokes) axis / maxRange (boundaryBounds spokes) ≤ 1) ∧
    (∃ axis, axis < 3 ∧
      boundsRange (boundaryBounds spokes) axis / maxRange (boundaryBounds spokes) = 1) := by
  have hx' : 0 < (boundaryBounds spokes).getD 1 0 - (boundaryBounds spokes).getD 0 0 := hx
  have hy' : 0 < (boundaryBounds spokes).getD 3 0 - (boundaryBounds spokes).getD 2 0 := hy
  have hz' : 0 < (boundaryBounds spokes).getD 5 0 - (boundaryBounds spokes).getD 4 0 := hz
  have hR : maxRange (boundaryBounds spokes)
      = max (max ((boundaryBounds spokes).getD 1 0 - (boundaryBounds spokes).getD 0 0)
          ((boundaryBounds spokes).getD 3 0 - (boundaryBounds spokes).getD 2 0))
          ((boundaryBounds spokes).getD 5 0 - (boundaryBounds spokes).getD 4 0) := rfl
  have hlx : (boundaryBounds spokes).getD 1 0 - (boundaryBounds spokes).getD 0 0
      ≤ maxRange (boundaryBounds spokes) := by
    rw [hR]; exact le_trans (le_max_left _ _) (le_max_left _ _)
  have hly : (boundaryBounds spokes).getD 3 0 - (boundaryBounds spokes).getD 2 0
      ≤ maxRange (boundaryBounds spokes) := by
    rw [hR]; exact le_trans (le_max_right _ _) (le_max_left _ _)
  have hlz : (boundaryBounds spokes).getD 5 0 - (boundaryBounds spokes).getD 4 0
      ≤ maxRange (boundaryBounds spokes) := by
    rw [hR]; exact le_max_right _ _
  have hT := transformedRanges_eq _ _ _ hx hy hz
  obtain ⟨e00, e11, e22, e30, e31, e32⟩ := TransformSrep2ImageCS_entries spokes mat4x4
  have hRdef : max (max (boundsRange (boundaryBounds spokes) 0)
      (boundsRange (boundaryBounds spokes) 1)) (boundsRange (boundaryBounds spokes) 2)
      = maxRange (boundaryBounds spokes) := rfl
  simp only [hT, hRdef] at e00 e11 e22 e30 e31 e32
  have r0 : boundsRange (boundaryBounds spokes) 0
      = (boundaryBounds spokes).getD 1 0 - (boundaryBounds spokes).getD 0 0 := rfl
  have r1 : boundsRange (boundaryBounds spokes) 1
      = (boundaryBounds spokes).getD 3 0 - (boundaryBounds spokes).getD 2 0 := rfl
  have r2 : boundsRange (boundaryBounds spokes) 2
      = (boundaryBounds spokes).getD 5 0 - (boundaryBounds spokes).getD 4 0 := rfl
  rw [r0] at e00 e30
  rw [r1] at e11 e31
  rw [r2] at e22 e32
  refine ⟨?_, ?_, ?_⟩
  · intro s hs
    have hmem : s.GetBoundaryPoint ∈ spokes.map fun t => t.GetBoundaryPoint :=
      List.mem_map.mpr ⟨s, hs, rfl⟩
    obtain ⟨⟨bx0, bx1⟩, ⟨by0, by1⟩, ⟨bz0, bz1⟩⟩ := GetBounds_spec _ _ hmem
    simp only [applyTransform, e00, e11, e22, e30, e31, e32]
    obtain ⟨_, _, ax0, ax1, _⟩ := axis_map _ _ s.GetBoundaryPoint.x _ hx' hlx bx0 bx1
    obtain ⟨_, _, ay0, ay1, _⟩ := axis_map _ _ s.GetBoundaryPoint.y _ hy' hly by0 by1
    obtain ⟨_, _, az0, az1, _⟩ := axis_map _ _ s.GetBoundaryPoint.z _ hz' hlz bz0 bz1
    exact ⟨ax0, ax1, ay0, ay1, az0, az1⟩
  · intro axis haxis
    have hcases : axis = 0 ∨ axis = 1 ∨ axis = 2 := by omega
    rcases hcases with rfl | rfl | rfl
    · obtain ⟨a, b, _, _, c⟩ := axis_map _ _ ((boundaryBounds spokes).getD 0 0) _ hx' hlx
        (le_refl _) (by linarith)
      rw [e00, e30]
      exact ⟨a, b, c⟩
    · obtain ⟨a, b, _, _, c⟩ := axis_map _ _ ((boundaryBounds spokes).getD 2 0) _ hy' hly
        (le_refl _) (by linarith)
      rw [e11, e31]
      exact ⟨a, b, c⟩
    · obtain ⟨a, b, _, _, c⟩ := axis_map _ _ ((boundaryBounds spokes).getD 4 0) _ hz' hlz
        (le_refl _) (by linarith)
      rw [e22, e32]
      exact ⟨a, b, c⟩
  · have hpos : 0 < maxRange (boundaryBounds spokes) := lt_of_lt_of_le hx' hlx
    have hcase : maxRange (boundaryBounds spokes) = boundsRange (boundaryBounds spokes) 0 ∨
        maxRange (boundaryBounds spokes) = boundsRange (boundaryBounds spokes) 1 ∨
        maxRange (boundaryBounds spokes) = boundsRange (boundaryBounds spokes) 2 := by
      unfold maxRange
      rcases max_choice (max (boundsRange (boundaryBounds spokes) 0)
        (boundsRange (boundaryBounds spokes) 1)) (boundsRange (boundaryBounds spokes) 2)
        with h | h
      · rcases max_choice (boundsRange (boundaryBounds spokes) 0)
          (boundsRange (boundaryBounds spokes) 1) with h2 | h2
        · left; rw [h, h2]
        · right; left; rw [h, h2]
      · right; right; exact h
    rcases hcase with h | h | h
    · exact ⟨0, by omega, by rw [← h]; exact div_self (ne_of_gt hpos)⟩
    · exact ⟨1, by omega, by rw [← h]; exact div_self (ne_of_gt hpos)⟩
    · exact ⟨2, by omega, by rw [← h]; exact div_self (ne_of_gt hpos)⟩

theorem boxSpokes_ranges :
    boundsRange (boundaryBounds boxSpokes) 0 = 4 ∧ boundsRange (boundaryBounds boxSpokes) 1 = 2 ∧
    boundsRange (boundaryBounds boxSpokes) 2 = 2 := by
  refine ⟨?_, ?_, ?_⟩ <;>
    norm_num [boundsRange, boundaryBounds, GetBounds, boxSpokes, flatSpoke,
      vtkSpoke.GetBoundaryPoint, Vec3.add, Vec3.smul]

/-- C17 on the three spokes `boxSpokes`, whose boundary box has extents `4`, `2`, `2`. -/
theorem C17_transform_into_unit_cube_witness :
    boxSpokes ≠ [] ∧ 0 < boundsRange (boundaryBounds boxSpokes) 0 ∧
    0 < boundsRange (boundaryBounds boxSpokes) 1 ∧
    0 < boundsRange (boundaryBounds boxSpokes) 2 ∧
    (∀ s ∈ boxSpokes,
      0 ≤ (applyTransform (TransformSrep2ImageCS false boxSpokes fun _ _ => 0)
        s.GetBoundaryPoint).x ∧
      (applyTransform (TransformSrep2ImageCS false boxSpokes fun _ _ => 0)
        s.GetBoundaryPoint).x ≤ 1 ∧
      0 ≤ (applyTransform (TransformSrep2ImageCS false boxSpokes fun _ _ => 0)
        s.GetBoundaryPoint).y ∧
      (applyTransform (TransformSrep2ImageCS false boxSpokes fun _ _ => 0)
        s.GetBoundaryPoint).y ≤ 1 ∧
      0 ≤ (applyTransform (TransformSrep2ImageCS false boxSpokes fun _ _ => 0)
        s.GetBoundaryPoint).z ∧
      (applyTransform (TransformSrep2ImageCS false boxSpokes fun _ _ => 0)
        s.GetBoundaryPoint).z ≤ 1) :=
  ⟨by simp [boxSpokes], by rw [boxSpokes_ranges.1]; norm_num,
    by rw [boxSpokes_ranges.2.1]; norm_num, by rw [boxSpokes_ranges.2.2]; norm_num,
    (C17_transform_into_unit_cube boxSpokes (fun _ _ => 0) (by simp [boxSpokes])
      (by rw [boxSpokes_ranges.1]; norm_num) (by rw [boxSpokes_ranges.2.1]; norm_num)
      (by rw [boxSpokes_ranges.2.2]; norm_num)).1⟩

/-! ## Interpolation at the quad corners: proofs -/

/-- At the four parametric corners the blend returns the corner value, whatever the derivative
inputs. -/
theorem hermiteBlend_corners (c0 c1 c2 c3 : ℚ) (du dv : List ℚ) :
    hermiteBlend 0 0 [c0, c1, c2, c3] du dv = c0 ∧
    hermiteBlend 1 0 [c0, c1, c2, c3] du dv = c1 ∧
    hermiteBlend 1 1 [c0, c1, c2, c3] du dv = c2 ∧
    hermiteBlend 0 1 [c0, c1, c2, c3] du dv = c3 := by
  refine ⟨?_, ?_, ?_, ?_⟩ <;>
    simp only [hermiteBlend, hermiteValue, hermiteSlope, cornerParam, List.map_cons,
      List.map_nil, List.sum_cons, List.sum_nil, List.getD_cons_zero, List.getD_cons_succ,
      if_true, if_false, one_ne_zero] <;>
    ring

theorem hermiteBlendVec_corners (c0 c1 c2 c3 : Vec3) (du dv : List Vec3) :
    hermiteBlendVec 0 0 [c0, c1, c2, c3] du dv = c0 ∧
    hermiteBlendVec 1 0 [c0, c1, c2, c3] du dv = c1 ∧
    hermiteBlendVec 1 1 [c0, c1, c2, c3] du dv = c2 ∧
    hermiteBlendVec 0 1 [c0, c1, c2, c3] du dv = c3 := by
  refine ⟨?_, ?_, ?_, ?_⟩ <;>
    · refine Vec3.ext ?_ ?_ ?_ <;>
        simp only [hermiteBlendVec, List.map_cons, List.map_nil]
      · first
          | exact (hermiteBlend_corners _ _ _ _ _ _).1
          | exact (hermiteBlend_corners _ _ _ _ _ _).2.1
          | exact (hermiteBlend_corners _ _ _ _ _ _).2.2.1
          | exact (hermiteBlend_corners _ _ _ _ _ _).2.2.2
      · first
          | exact (hermiteBlend_corners _ _ _ _ _ _).1
          | exact (hermiteBlend_corners _ _ _ _ _ _).2.1
          | exact (hermiteBlend_corners _ _ _ _ _ _).2.2.1
          | exact (hermiteBlend_corners _ _ _ _ _ _).2.2.2
      · first
          | exact (hermiteBlend_corners _ _ _ _ _ _).1
          | exact (hermiteBlend_corners _ _ _ _ _ _).2.1
          | exact (hermiteBlend_corners _ _ _ _ _ _).2.2.1
          | exact (hermiteBlend_corners _ _ _ _ _ _).2.2.2

/-- C20. For every quad, all corner spokes with unit directions (directions that
renormalisation leaves as they are) and all corner tangents, `Interpolate` at
`(u,v) = (0,0)`, `(1,0)`, `(1,1)`, `(0,1)` returns the corner spoke (row,col), (row+1,col),
(row+1,col+1), (row,col+1) respectively, with the same skeletal point, direction and radius. -/
theorem C20_interpolate_at_corners (normalize : Vec3 → Vec3) (radiusSlope : Vec3 → ℚ)
    (s0 s1 s2 s3 : vtkSpoke) (cornerDxdu cornerDxdv : List Vec3)
    (h0 : normalize s0.direction = s0.direction) (h1 : normalize s1.direction = s1.direction)
    (h2 : normalize s2.direction = s2.direction) (h3 : normalize s3.direction = s3.direction) :
    hermiteInterpolate normalize radiusSlope ⟨[s0, s1, s2, s3], cornerDxdu, cornerDxdv⟩ 0 0 = s0 ∧
    hermiteInterpolate normalize radiusSlope ⟨[s0, s1, s2, s3], cornerDxdu, cornerDxdv⟩ 1 0 = s1 ∧
    hermiteInterpolate normalize radiusSlope ⟨[s0, s1, s2, s3], cornerDxdu, cornerDxdv⟩ 1 1 = s2 ∧
    hermiteInterpolate normalize radiusSlope ⟨[s0, s1, s2, s3], cornerDxdu, cornerDxdv⟩ 0 1
      = s3 := by
  obtain ⟨p0, p1, p2, p3⟩ := hermiteBlendVec_corners s0.skeletalPoint s1.skeletalPoint
    s2.skeletalPoint s3.skeletalPoint cornerDxdu cornerDxdv
  obtain ⟨d0, d1, d2, d3⟩ := hermiteBlendVec_corners s0.direction s1.direction
    s2.direction s3.direction cornerDxdu cornerDxdv
  obtain ⟨r0, r1, r2, r3⟩ := hermiteBlend_corners s0.radius s1.radius s2.radius s3.radius
    (cornerDxdu.map radiusSlope) (cornerDxdv.map radiusSlope)
  simp only [hermiteInterpolate, List.map_cons, List.map_nil, p0, p1, p2, p3, d0, d1, d2, d3,
    r0, r1, r2, r3, h0, h1, h2, h3, and_self]

/-- C20 on the four spokes of `skewGrid`, whose directions are `(0,0,1)`, with the tangents of
the grid and the identity as renormalisation of these unit vectors. -/
theorem C20_interpolate_at_corners_witness :
    hermiteInterpolate id (fun t => t.x)
      ⟨[flatSpoke 0 0, flatSpoke 0 1, flatSpoke 2 1, flatSpoke 1 0],
        [⟨0, 1, 0⟩, ⟨0, 1, 0⟩, ⟨1, 1, 0⟩, ⟨1, 1, 0⟩],
        [⟨1, 0, 0⟩, ⟨2, 0, 0⟩, ⟨2, 0, 0⟩, ⟨1, 0, 0⟩]⟩ 1 1 = flatSpoke 2 1 :=
  (C20_interpolate_at_corners id (fun t => t.x) (flatSpoke 0 0) (flatSpoke 0 1) (flatSpoke 2 1)
    (flatSpoke 1 0) [⟨0, 1, 0⟩, ⟨0, 1, 0⟩, ⟨1, 1, 0⟩, ⟨1, 1, 0⟩]
    [⟨1, 0, 0⟩, ⟨2, 0, 0⟩, ⟨2, 0, 0⟩, ⟨1, 0, 0⟩] rfl rfl rfl rfl).2.2.1

/-! ## Parametric positions of the `rSrad` neighbours: proofs -/

/-- C21. In `FindTopLeftNeigbors`, `FindTopRightNeigbors` and `FindBotRightNeigbors` the two
neighbours are interpolated at `(u0 ± step, v0)` and `(u0, v0 ± step)`, where `(u0, v0)` is the
corner of the quad holding spoke `(r, c)`. In `FindBotLeftNeigbors` spoke `(r, c)` is
`cornerSpokes[1]`, at the corner `(1, 0)`, and the U-neighbour is interpolated at
`(1 - step, 0)`, but the V-neighbour is interpolated at `(0, step)`, next to `cornerSpokes[0]`,
the spoke `(r-1, c)`, instead of `(1, step)`. On `skewGrid` with step `1/2` the V-neighbour of
spoke `(1, 0)` is asked for at `(0, 1/2)`. -/
theorem C21_FindBotLeftNeigbors_v_neighbour_off_corner :
    (∀ (K : Collaborators GridSrep) (L : RefinerLogic GridSrep) (r c : Int) (input : GridSrep),
      FindTopLeftNeigbors K L r c input [] []
        = ([K.Interpolate (srepSetup K input .FindTopLeftNeigbors r c)
              ((cornerParam 0).1 + neighborStep L) (cornerParam 0).2],
           [K.Interpolate (srepSetup K input .FindTopLeftNeigbors r c)
              (cornerParam 0).1 ((cornerParam 0).2 + neighborStep L)]) ∧
      (cornerCells .FindTopLeftNeigbors r c)[0]? = some (r, c) ∧
      FindTopRightNeigbors K L r c input [] []
        = ([K.Interpolate (srepSetup K input .FindTopRightNeigbors r c)
              ((cornerParam 3).1 + neighborStep L) (cornerParam 3).2],
           [K.Interpolate (srepSetup K input .FindTopRightNeigbors r c)
              (cornerParam 3).1 ((cornerParam 3).2 - neighborStep L)]) ∧
      (cornerCells .FindTopRightNeigbors r c)[3]? = some (r, c) ∧
      FindBotRightNeigbors K L r c input [] []
        = ([K.Interpolate (srepSetup K input .FindBotRightNeigbors r c)
              ((cornerParam 2).1 - neighborStep L) (cornerParam 2).2],
           [K.Interpolate (srepSetup K input .FindBotRightNeigbors r c)
              (cornerParam 2).1 ((cornerParam 2).2 - neighborStep L)]) ∧
      (cornerCells .FindBotRightNeigbors r c)[2]? = some (r, c) ∧
      FindBotLeftNeigbors K L r c input [] []
        = ([K.Interpolate (srepSetup K input .FindBotLeftNeigbors r c)
              ((cornerParam 1).1 - neighborStep L) (cornerParam 1).2],
           [K.Interpolate (srepSetup K input .FindBotLeftNeigbors r c)
              (cornerParam 0).1 ((cornerParam 0).2 + neighborStep L)]) ∧
      (cornerCells .FindBotLeftNeigbors r c)[1]? = some (r, c) ∧
      (cornerCells .FindBotLeftNeigbors r c)[0]? = some (r - 1, c)) ∧
    cornerParam 1 = (1, 0) ∧ cornerParam 0 = (0, 0) ∧
    neighborStep skewLogic = 1 / 2 ∧
    (FindBotLeftNeigbors probeCollaborators skewLogic 1 0 skewGrid [] []).1
      = [⟨⟨1 / 2, 0, 0⟩, ⟨0, 0, 1⟩, 1⟩] ∧
    (FindBotLeftNeigbors probeCollaborators skewLogic 1 0 skewGrid [] []).2
      = [⟨⟨0, 1 / 2, 0⟩, ⟨0, 0, 1⟩, 1⟩] ∧
    (FindBotLeftNeigbors probeCollaborators skewLogic 1 0 skewGrid [] []).2
      ≠ [⟨⟨1, 1 / 2, 0⟩, ⟨0, 0, 1⟩, 1⟩] := by
  have hstep : neighborStep skewLogic = 1 / 2 := by
    simp [neighborStep, skewLogic, RefineInterpolatePositions, List.range_succ, isQuadCorner,
      List.flatMap, List.filterMap]
    norm_num [abs_lt]
  refine ⟨?_, rfl, rfl, hstep, ?_, ?_, ?_⟩
  · intro K L r c input
    refine ⟨?_, rfl, ?_, rfl, ?_, rfl, ?_, rfl, rfl⟩ <;>
      simp [FindTopLeftNeigbors, FindTopRightNeigbors, FindBotRightNeigbors,
        FindBotLeftNeigbors, cornerParam]
  · simp only [FindBotLeftNeigbors, hstep, probeCollaborators, List.nil_append]
    norm_num
  · simp only [FindBotLeftNeigbors, hstep, probeCollaborators, List.nil_append]
  · simp only [FindBotLeftNeigbors, hstep, probeCollaborators, List.nil_append]
    norm_num

/-! ## Scale factors of the image transform: proofs -/

/-- The branch index describes the branch that `transformedRanges` takes. -/
theorem transformedRanges_branch (xrange yrange zrange : ℚ) :
    transformedRanges xrange yrange zrange
      = match transformedRangesBranch xrange yrange zrange with
        | 0 => (1, yrange / xrange, zrange / xrange)
        | 1 => (xrange / yrange, 1, zrange / yrange)
        | 2 => (xrange / zrange, yrange / zrange, 1)
        | _ => (1, 1, 1) := by
  unfold transformedRanges transformedRangesBranch
  split_ifs <;> rfl

/-- The final `else` of the four-way branch is dead: of three numbers one is a largest. -/
theorem transformedRangesBranch_lt (xrange yrange zrange : ℚ) :
    transformedRangesBranch xrange yrange zrange < 3 := by
  unfold transformedRangesBranch
  split_ifs with h1 h2 h3
  · omega
  · omega
  · omega
  · exfalso
    rcases le_total xrange yrange with hxy | hxy <;>
      rcases le_total xrange zrange with hxz | hxz <;>
      rcases le_total yrange zrange with hyz | hyz <;>
      first
      | exact h1 ⟨by assumption, by assumption⟩
      | exact h2 ⟨by assumption, by assumption⟩
      | exact h3 ⟨by assumption, by assumption⟩
      | exact h1 ⟨by linarith, by linarith⟩

/-- C23. For a non-empty list of spokes whose boundary-point bounding box has positive extent
along all three axes, the three diagonal entries of the matrix computed by
`TransformSrep2ImageCS` are equal: `mat[0][0] = mat[1][1] = mat[2][2] = 1 / max(xrange, yrange,
zrange)`; and for any three ranges the branch taken is one of the first three, never the final
`else` that sets the transformed ranges to `1`. -/
theorem C23_uniform_scale (spokes : List vtkSpoke) (mat4x4 : Nat → Nat → ℚ)
    (_hne : spokes ≠ [])
    (hx : 0 < boundsRange (boundaryBounds spokes) 0)
    (hy : 0 < boundsRange (boundaryBounds spokes) 1)
    (hz : 0 < boundsRange (boundaryBounds spokes) 2) :
    TransformSrep2ImageCS false spokes mat4x4 0 0 = 1 / maxRange (boundaryBounds spokes) ∧
    TransformSrep2ImageCS false spokes mat4x4 1 1 = 1 / maxRange (boundaryBounds spokes) ∧
    TransformSrep2ImageCS false spokes mat4x4 2 2 = 1 / maxRange (boundaryBounds spokes) ∧
    0 < maxRange (boundaryBounds spokes) ∧
    (∀ xrange yrange zrange : ℚ, transformedRangesBranch xrange yrange zrange < 3) ∧
    transformedRanges (boundsRange (boundaryBounds spokes) 0)
        (boundsRange (boundaryBounds spokes) 1) (boundsRange (boundaryBounds spokes) 2)
      = match transformedRangesBranch (boundsRange (boundaryBounds spokes) 0)
          (boundsRange (boundaryBounds spokes) 1) (boundsRange (boundaryBounds spokes) 2) with
        | 0 => (1, boundsRange (boundaryBounds spokes) 1 / boundsRange (boundaryBounds spokes) 0,
            boundsRange (boundaryBounds spokes) 2 / boundsRange (boundaryBounds spokes) 0)
        | 1 => (boundsRange (boundaryBounds spokes) 0 / boundsRange (boundaryBounds spokes) 1, 1,
            boundsRange (boundaryBounds spokes) 2 / boundsRange (boundaryBounds spokes) 1)
        | 2 => (boundsRange (boundaryBounds spokes) 0 / boundsRange (boundaryBounds spokes) 2,
            boundsRange (boundaryBounds spokes) 1 / boundsRange (boundaryBounds spokes) 2, 1)
        | _ => (1, 1, 1) := by
  have hT := transformedRanges_eq _ _ _ hx hy hz
  obtain ⟨e00, e11, e22, -, -, -⟩ := TransformSrep2ImageCS_entries spokes mat4x4
  have hRdef : max (max (boundsRange (boundaryBounds spokes) 0)
      (boundsRange (boundaryBounds spokes) 1)) (boundsRange (boundaryBounds spokes) 2)
      = maxRange (boundaryBounds spokes) := rfl
  simp only [hT, hRdef] at e00 e11 e22
  have hpos : 0 < maxRange (boundaryBounds spokes) := by
    rw [← hRdef]; exact lt_of_lt_of_le hx (le_trans (le_max_left _ _) (le_max_left _ _))
  refine ⟨?_, ?_, ?_, hpos, transformedRangesBranch_lt, transformedRanges_branch _ _ _⟩
  · rw [e00]; field_simp; ring
  · rw [e11]; field_simp; ring
  · rw [e22]; field_simp; ring

/-- C23 on the three spokes `boxSpokes`, whose boundary box has extents `4`, `2`, `2`. -/
theorem C23_uniform_scale_witness :
    boxSpokes ≠ [] ∧ 0 < boundsRange (boundaryBounds boxSpokes) 0 ∧
    0 < boundsRange (boundaryBounds boxSpokes) 1 ∧
    0 < boundsRange (boundaryBounds boxSpokes) 2 ∧
    TransformSrep2ImageCS false boxSpokes (fun _ _ => 0) 0 0
      = 1 / maxRange (boundaryBounds boxSpokes) ∧
    TransformSrep2ImageCS false boxSpokes (fun _ _ => 0) 1 1
      = 1 / maxRange (boundaryBounds boxSpokes) ∧
    TransformSrep2ImageCS false boxSpokes (fun _ _ => 0) 2 2
      = 1 / maxRange (boundaryBounds boxSpokes) :=
  ⟨by simp [boxSpokes], by rw [boxSpokes_ranges.1]; norm_num,
    by rw [boxSpokes_ranges.2.1]; norm_num, by rw [boxSpokes_ranges.2.2]; norm_num,
    (C23_uniform_scale boxSpokes (fun _ _ => 0) (by simp [boxSpokes])
      (by rw [boxSpokes_ranges.1]; norm_num) (by rw [boxSpokes_ranges.2.1]; norm_num)
      (by rw [boxSpokes_ranges.2.2]; norm_num)).1,
    (C23_uniform_scale boxSpokes (fun _ _ => 0) (by simp [boxSpokes])
      (by rw [boxSpokes_ranges.1]; norm_num) (by rw [boxSpokes_ranges.2.1]; norm_num)
      (by rw [boxSpokes_ranges.2.2]; norm_num)).2.1,
    (C23_uniform_scale boxSpokes (fun _ _ => 0) (by simp [boxSpokes])
      (by rw [boxSpokes_ranges.1]; norm_num) (by rw [boxSpokes_ranges.2.1]; norm_num)
      (by rw [boxSpokes_ranges.2.2]; norm_num)).2.2.1⟩

/-! ## Range of the normal-match factor: proofs -/

/-- C24. The factor `1 - dotProduct` that `ComputeDistance` multiplies by the squared distance
is not confined to `[0, 1]`: for the unit spoke direction `(0, 0, 1)` and the unit gradient
`(0, 0, -1)` it is `2`, and with distance `1` the call adds `2` to `*normalMatch`. For unit
vectors the factor lies in `[0, 2]`. -/
theorem C24_normal_match_factor_reaches_two :
    Dot (⟨0, 0, 1⟩ : Vec3) ⟨0, 0, 1⟩ = 1 ∧ Dot (⟨0, 0, -1⟩ : Vec3) ⟨0, 0, -1⟩ = 1 ∧
    1 - Dot (gridCollaborators.Normalize ⟨0, 0, -1⟩) (flatSpoke 0 0).direction = 2 ∧
    ComputeDistance gridCollaborators opposedFieldLogic (flatSpoke 0 0) 0 = (1, 2) ∧
    (∀ n d : Vec3, Dot n n = 1 → Dot d d = 1 → 0 ≤ 1 - Dot n d ∧ 1 - Dot n d ≤ 2) := by
  refine ⟨by norm_num [Dot], by norm_num [Dot], ?_, ?_, ?_⟩
  · norm_num [Dot, gridCollaborators, flatSpoke]
  · simp only [ComputeDistance, opposedFieldLogic, gridCollaborators, flatSpoke, Dot, mul_one,
      roundToFloat_one]
    norm_num
  · intro n d hn hd
    simp only [Dot] at *
    constructor
    · nlinarith [sq_nonneg (n.x - d.x), sq_nonneg (n.y - d.y), sq_nonneg (n.z - d.z)]
    · nlinarith [sq_nonneg (n.x + d.x), sq_nonneg (n.y + d.y), sq_nonneg (n.z + d.z)]

/-! ## Affine grids: proofs -/

/-- C26. On the affine grid `P[r,c] = A + r*U + c*V` with `nRows ≥ 2` and `nCols ≥ 2`,
`ComputeDerivative` returns `dXdu = U` and `dXdv = V` at every cell `(r, c)` of the grid, the
first and last rows and columns included. -/
theorem C26_ComputeDerivative_exact_on_affine (A U V : Vec3) (nRows nCols r c : Nat)
    (hR : 2 ≤ nRows) (hC : 2 ≤ nCols) (hr : r < nRows) (hc : c < nCols) :
    ComputeDerivative (flattenGrid (affineGrid A U V) nRows nCols) r c nRows nCols = (U, V) := by
  rw [ComputeDerivative_flattenGrid (affineGrid A U V) nRows nCols r c hR hC hr hc]
  refine Prod.ext ?_ ?_
  · simp only
    by_cases hr0 : r = 0
    · rw [if_pos hr0]
      ext <;> simp [affineGrid, Vec3.add, Vec3.smul, Vec3.sub]
    · obtain ⟨k, rfl⟩ : ∃ k, r = k + 1 := ⟨r - 1, by omega⟩
      rw [if_neg hr0]
      split_ifs <;> ext <;>
        simp [affineGrid, Vec3.add, Vec3.smul, Vec3.sub] <;> ring
  · simp only
    by_cases hc0 : c = 0
    · rw [if_pos hc0]
      ext <;> simp [affineGrid, Vec3.add, Vec3.smul, Vec3.sub]
    · obtain ⟨k, rfl⟩ : ∃ k, c = k + 1 := ⟨c - 1, by omega⟩
      rw [if_neg hc0]
      split_ifs <;> ext <;>
        simp [affineGrid, Vec3.add, Vec3.smul, Vec3.sub] <;> ring

/-- C26 at the last row and first column of a `3 × 4` affine grid. -/
theorem C26_ComputeDerivative_exact_on_affine_witness :
    ComputeDerivative (flattenGrid (affineGrid ⟨1, 2, 3⟩ ⟨1, 0, 2⟩ ⟨0, 1, -1⟩) 3 4)
      (2 : Nat) (0 : Nat) (3 : Nat) (4 : Nat) = (⟨1, 0, 2⟩, ⟨0, 1, -1⟩) :=
  C26_ComputeDerivative_exact_on_affine ⟨1, 2, 3⟩ ⟨1, 0, 2⟩ ⟨0, 1, -1⟩ 3 4 2 0 (by decide)
    (by decide) (by decide) (by decide)

/-! ## Totality of the crest length search: proofs -/

/-- For `maxIter` below `INT_MAX` the pass counter never decreases, stays at most
`maxIter + 1`, and the trace has one state per pass plus the state on leaving. -/
theorem crestLoop_iter_bounds (distanceFunction : Vec3 → ℚ) (targetSpoke : vtkSpoke)
    (maxIter : Int) (hmax : maxIter < 2147483647) :
    ∀ (fuel : Nat) (s : CrestSearch), 0 ≤ s.iter → s.iter ≤ maxIter →
      s.iter ≤ (crestLoop distanceFunction targetSpoke maxIter fuel s).iter ∧
      (crestLoop distanceFunction targetSpoke maxIter fuel s).iter ≤ maxIter + 1 ∧
      ((crestTrace distanceFunction targetSpoke maxIter fuel s).length : Int)
        = (crestLoop distanceFunction targetSpoke maxIter fuel s).iter - s.iter + 1 := by
  intro fuel
  induction fuel with
  | zero => intro s _ h; simp [crestLoop, crestTrace]; omega
  | succ k ih =>
    intro s h0 h
    simp only [crestLoop, crestTrace]
    by_cases hg : |s.dist| > crestEpsilon
    · simp only [if_pos hg]
      have hi := crestBody_iter distanceFunction targetSpoke s
      rw [(wrapInt32_bounds (s.iter + 1)).2.2.2 (by omega) (by omega)] at hi
      by_cases hbrk : (crestBody distanceFunction targetSpoke s).iter > maxIter
      · simp only [if_pos hbrk, List.length_cons, List.length_nil]
        push_cast
        omega
      · simp only [if_neg hbrk, List.length_cons]
        obtain ⟨h1, h2, h3⟩ := ih (crestBody distanceFunction targetSpoke s) (by omega)
          (by omega)
        push_cast
        omega
    · simp only [if_neg hg, List.length_cons, List.length_nil]
      push_cast
      omega

/-- A pass is made when the loop is entered with fuel and `|dist| > epsilon`. -/
theorem crestLoop_iter_pos (distanceFunction : Vec3 → ℚ) (targetSpoke : vtkSpoke)
    (maxIter : Int) (hmax : maxIter < 2147483647) (fuel : Nat) (s : CrestSearch)
    (h0 : 0 ≤ s.iter) (h : s.iter ≤ maxIter) (hg : |s.dist| > crestEpsilon) :
    s.iter + 1 ≤ (crestLoop distanceFunction targetSpoke maxIter (fuel + 1) s).iter := by
  simp only [crestLoop, if_pos hg]
  have hi := crestBody_iter distanceFunction targetSpoke s
  rw [(wrapInt32_bounds (s.iter + 1)).2.2.2 (by omega) (by omega)] at hi
  by_cases hbrk : (crestBody distanceFunction targetSpoke s).iter > maxIter
  · simp only [if_pos hbrk]; omega
  · simp only [if_neg hbrk]
    have := (crestLoop_iter_bounds distanceFunction targetSpoke maxIter hmax fuel
      (crestBody distanceFunction targetSpoke s) (by omega) (by omega)).1
    omega

/-- With `maxIter = INT_MAX` and a distance that is `1` at every point the loop is never left:
whatever the fuel, every pass is made, the loop condition still holds and the counter has not
exceeded `maxIter`. -/
theorem crestLoop_never_leaves (targetSpoke : vtkSpoke) :
    ∀ (fuel : Nat) (s : CrestSearch), s.dist = 1 →
      (crestTrace (fun _ => 1) targetSpoke 2147483647 fuel s).length = fuel + 1 ∧
      (crestLoop (fun _ => 1) targetSpoke 2147483647 fuel s).dist = 1 ∧
      (fuel ≠ 0 → (crestLoop (fun _ => 1) targetSpoke 2147483647 fuel s).iter ≤ 2147483647) := by
  have heps : |(1 : ℚ)| > crestEpsilon := by norm_num [crestEpsilon]
  intro fuel
  induction fuel with
  | zero => intro s hs; exact ⟨rfl, hs, fun h => absurd rfl h⟩
  | succ k ih =>
    intro s hs
    have hg : |s.dist| > crestEpsilon := by rw [hs]; exact heps
    have hb := crestBody_eq (fun _ => 1) targetSpoke s
    have hd : (crestBody (fun _ => 1) targetSpoke s).dist = 1 := by rw [hb]; rfl
    have hi := crestBody_iter (fun _ => 1) targetSpoke s
    have hw := (wrapInt32_bounds (s.iter + 1)).2.1
    have hnb : ¬ (crestBody (fun _ => 1) targetSpoke s).iter > 2147483647 := by
      rw [hi]; omega
    obtain ⟨h1, h2, h3⟩ := ih (crestBody (fun _ => 1) targetSpoke s) hd
    simp only [crestTrace, crestLoop, if_pos hg, if_neg hnb, List.length_cons]
    refine ⟨by omega, h2, fun _ => ?_⟩
    by_cases hk : k = 0
    · subst hk
      simp only [crestLoop]
      rw [hi]; exact hw
    · exact h3 hk

/-- C28 (amended statement). For every distance function, spoke, step size and
`0 ≤ maxIter < INT_MAX` the loop of `OptimizeCrestSpokeLength` ends: more fuel than
`maxIter + 1` passes changes nothing, the number of passes (`iter` on leaving, one less than
the number of traced states) is at most `maxIter + 1`, and it is `0` exactly when the initial
distance satisfies `|dist| ≤ 1e-5`, in which case the spoke is returned as it was. -/
theorem C28_crest_search_total (distanceFunction : Vec3 → ℚ) (targetSpoke : vtkSpoke)
    (stepSize : ℚ) (maxIter : Int) (hmax : 0 ≤ maxIter) (hint : maxIter < 2147483647) :
    (∀ extra : Nat,
      crestLoop distanceFunction targetSpoke maxIter (crestFuel maxIter + extra)
          (crestStart distanceFunction targetSpoke stepSize)
        = crestFinal distanceFunction targetSpoke stepSize maxIter) ∧
    ((crestTrace distanceFunction targetSpoke maxIter (crestFuel maxIter)
        (crestStart distanceFunction targetSpoke stepSize)).length : Int)
      = (crestFinal distanceFunction targetSpoke stepSize maxIter).iter + 1 ∧
    0 ≤ (crestFinal distanceFunction targetSpoke stepSize maxIter).iter ∧
    (crestFinal distanceFunction targetSpoke stepSize maxIter).iter ≤ maxIter + 1 ∧
    ((crestFinal distanceFunction targetSpoke stepSize maxIter).iter = 0 ↔
      |distanceFunction targetSpoke.GetBoundaryPoint| ≤ crestEpsilon) ∧
    (|distanceFunction targetSpoke.GetBoundaryPoint| ≤ crestEpsilon →
      OptimizeCrestSpokeLength distanceFunction targetSpoke stepSize maxIter = targetSpoke) := by
  have hstart : (crestStart distanceFunction targetSpoke stepSize).iter = 0 := rfl
  have hdist : (crestStart distanceFunction targetSpoke stepSize).dist
      = distanceFunction targetSpoke.GetBoundaryPoint := rfl
  obtain ⟨h1, h2, h3⟩ := crestLoop_iter_bounds distanceFunction targetSpoke maxIter hint
    (crestFuel maxIter) (crestStart distanceFunction targetSpoke stepSize)
    (by rw [hstart]) (by rw [hstart]; exact hmax)
  rw [hstart] at h1 h3
  refine ⟨?_, ?_, h1, h2, ?_, ?_⟩
  · intro extra
    exact crestLoop_fuel_enough distanceFunction targetSpoke maxIter hint extra
      (crestFuel maxIter) (crestStart distanceFunction targetSpoke stepSize)
      (by rw [hstart]) (by rw [hstart]; exact hmax) (by unfold crestFuel; omega)
      (by unfold crestFuel; omega)
  · rw [h3]; unfold crestFinal; ring
  · constructor
    · intro h0
      by_contra hcon
      have hg : |(crestStart distanceFunction targetSpoke stepSize).dist| > crestEpsilon := by
        rw [hdist]; exact not_le.mp hcon
      have := crestLoop_iter_pos distanceFunction targetSpoke maxIter hint maxIter.toNat
        (crestStart distanceFunction targetSpoke stepSize) (by rw [hstart])
        (by rw [hstart]; exact hmax) hg
      rw [hstart] at this
      unfold crestFinal crestFuel at h0
      omega
    · intro hle
      unfold crestFinal
      rw [crestLoop_done distanceFunction targetSpoke maxIter _ _ (by rw [hdist]; exact hle)]
      exact hstart
  · intro hle
    unfold OptimizeCrestSpokeLength crestFinal
    rw [crestLoop_done distanceFunction targetSpoke maxIter _ _ (by rw [hdist]; exact hle)]
    rfl

/-- C28 (amended statement) for a distance that is `1` everywhere, the unit spoke
`flatSpoke 0 0`, step `1/4` and `maxIter = 2`: the loop makes `maxIter + 1 = 3` passes, and
not zero passes, the initial distance being above `1e-5`. -/
theorem C28_crest_search_total_witness :
    (0 : Int) ≤ 2 ∧ (2 : Int) < 2147483647 ∧
    ((crestTrace (fun _ => 1) (flatSpoke 0 0) 2 (crestFuel 2)
        (crestStart (fun _ => 1) (flatSpoke 0 0) (1 / 4))).length : Int)
      = (crestFinal (fun _ => 1) (flatSpoke 0 0) (1 / 4) 2).iter + 1 ∧
    (crestFinal (fun _ => 1) (flatSpoke 0 0) (1 / 4) 2).iter ≤ 2 + 1 ∧
    ((crestFinal (fun _ => 1) (flatSpoke 0 0) (1 / 4) 2).iter = 0 ↔
      |(fun _ : Vec3 => (1 : ℚ)) (flatSpoke 0 0).GetBoundaryPoint| ≤ crestEpsilon) ∧
    (crestFinal (fun _ => 1) (flatSpoke 0 0) (1 / 4) 2).iter = 3 :=
  ⟨by decide, by decide,
    (C28_crest_search_total (fun _ => 1) (flatSpoke 0 0) (1 / 4) 2 (by decide)
      (by decide)).2.1,
    (C28_crest_search_total (fun _ => 1) (flatSpoke 0 0) (1 / 4) 2 (by decide)
      (by decide)).2.2.2.1,
    (C28_crest_search_total (fun _ => 1) (flatSpoke 0 0) (1 / 4) 2 (by decide)
      (by decide)).2.2.2.2.1,
    by norm_num [crestFinal, crestFuel, crestStart, crestLoop, crestBody, radiusDistance,
      crestEpsilon, flatSpoke, vtkSpoke.SetRadius, wrapInt32]⟩

/-- C28 (counterexample). With `maxIter = INT_MAX = 2147483647`, a distance that is `1`
everywhere and the unit spoke `flatSpoke 0 0`, the loop is never left: after any number of
passes the distance is still `1`, above `1e-5`, and the `int` counter has not exceeded
`maxIter`; in particular more than `maxIter + 1` passes are made. -/
theorem C28_counterexample :
    (0 : Int) ≤ 2147483647 ∧
    (∀ fuel : Nat,
      (crestTrace (fun _ => 1) (flatSpoke 0 0) 2147483647 fuel
        (crestStart (fun _ => 1) (flatSpoke 0 0) (1 / 4))).length = fuel + 1 ∧
      |(crestLoop (fun _ => 1) (flatSpoke 0 0) 2147483647 fuel
        (crestStart (fun _ => 1) (flatSpoke 0 0) (1 / 4))).dist| > crestEpsilon ∧
      (crestLoop (fun _ => 1) (flatSpoke 0 0) 2147483647 fuel
        (crestStart (fun _ => 1) (flatSpoke 0 0) (1 / 4))).iter ≤ 2147483647) ∧
    (crestTrace (fun _ => 1) (flatSpoke 0 0) 2147483647 2147483649
      (crestStart (fun _ => 1) (flatSpoke 0 0) (1 / 4))).length = 2147483649 + 1 := by
  refine ⟨by decide, fun fuel => ?_, ?_⟩
  · obtain ⟨h1, h2, h3⟩ := crestLoop_never_leaves (flatSpoke 0 0) fuel
      (crestStart (fun _ => 1) (flatSpoke 0 0) (1 / 4)) rfl
    refine ⟨h1, by rw [h2]; norm_num [crestEpsilon], ?_⟩
    by_cases hf : fuel = 0
    · subst hf
      simp only [crestLoop, crestStart]
      decide
    · exact h3 hf
  · exact (crestLoop_never_leaves (flatSpoke 0 0) 2147483649
      (crestStart (fun _ => 1) (flatSpoke 0 0) (1 / 4)) rfl).1

/-! ## Voxel indices: proofs -/

/-- The constant `maxX = maxY = maxZ = 199`. -/
theorem maxVoxel_eq : truncToInt (1 / voxelSpacing - 1) = 199 := by
  have h : (1 : ℚ) / voxelSpacing - 1 = ((199 : Int) : ℚ) := by norm_num [voxelSpacing]
  rw [h]
  simp [truncToInt]

/-- The clamped coordinate is a voxel of the `200`-voxel axis. -/
theorem voxelCoord_range (p scale shift : ℚ) :
    0 ≤ voxelCoord p scale shift ∧ voxelCoord p scale shift ≤ 199 := by
  unfold voxelCoord
  simp only [maxVoxel_eq]
  split_ifs <;> omega

/-- Away from the two clamps the voxel is the scaled coordinate rounded half up. -/
theorem voxelCoord_round (p scale shift : ℚ)
    (h0 : 0 ≤ (p * scale + shift) / voxelSpacing + 1 / 2)
    (h1 : (p * scale + shift) / voxelSpacing + 1 / 2 < 200) :
    voxelCoord p scale shift = ⌊(p * scale + shift) / voxelSpacing + 1 / 2⌋ := by
  have hf0 : 0 ≤ ⌊(p * scale + shift) / voxelSpacing + 1 / 2⌋ := Int.floor_nonneg.mpr h0
  have hf1 : ⌊(p * scale + shift) / voxelSpacing + 1 / 2⌋ < 200 := by
    rw [Int.floor_lt]; exact_mod_cast h1
  unfold voxelCoord
  simp only [maxVoxel_eq]
  simp only [truncToInt, if_pos h0]
  split_ifs <;> omega

/-- From `200` up to the end of the `int` range the voxel is clamped to `199`. -/
theorem voxelCoord_clamp_high (p scale shift : ℚ)
    (h0 : 200 ≤ (p * scale + shift) / voxelSpacing + 1 / 2)
    (h1 : (p * scale + shift) / voxelSpacing + 1 / 2 < 2147483648) :
    voxelCoord p scale shift = 199 := by
  have hf0 : 200 ≤ ⌊(p * scale + shift) / voxelSpacing + 1 / 2⌋ := by
    rw [Int.le_floor]; exact_mod_cast h0
  have hf1 : ⌊(p * scale + shift) / voxelSpacing + 1 / 2⌋ < 2147483648 := by
    rw [Int.floor_lt]; exact_mod_cast h1
  have hpos : 0 ≤ (p * scale + shift) / voxelSpacing + 1 / 2 := by linarith
  unfold voxelCoord
  simp only [maxVoxel_eq]
  simp only [truncToInt, if_pos hpos]
  split_ifs <;> omega

/-- Below `0` and beyond the `int` range the voxel is `0`. -/
theorem voxelCoord_clamp_low (p scale shift : ℚ)
    (h : (p * scale + shift) / voxelSpacing + 1 / 2 < 0 ∨
      2147483648 ≤ (p * scale + shift) / voxelSpacing + 1 / 2) :
    voxelCoord p scale shift = 0 := by
  unfold voxelCoord
  simp only [maxVoxel_eq]
  rcases h with h | h
  · have hneg : ¬ 0 ≤ (p * scale + shift) / voxelSpacing + 1 / 2 := not_le.mpr h
    have hc : ⌈(p * scale + shift) / voxelSpacing + 1 / 2⌉ ≤ 0 := by
      rw [Int.ceil_le]; exact_mod_cast h.le
    simp only [truncToInt, if_neg hneg]
    split_ifs <;> omega
  · have hpos : 0 ≤ (p * scale + shift) / voxelSpacing + 1 / 2 := by linarith
    have hf0 : 2147483648 ≤ ⌊(p * scale + shift) / voxelSpacing + 1 / 2⌋ := by
      rw [Int.le_floor]; exact_mod_cast h
    simp only [truncToInt, if_pos hpos]
    split_ifs <;> omega

/-- C29 (amended statement). For every spoke and transform matrix the voxel index of
`ComputeDistance` lies in `[0, 199]` on each axis, and `Transform2ImageCS` computes the same
index from the boundary point. With `s` the transformed coordinate divided by the voxel spacing
plus `0.5`: for `0 ≤ s < 200`, that is for transformed coordinates in `[-0.0025, 0.9975)`, the
index is the coordinate divided by the spacing, rounded half up; for `200 ≤ s < 2^31` it is
clamped to `199`; for `s < 0`, and for `s ≥ 2^31` where the conversion to `int` leaves the
range, it is `0`. -/
theorem C29_voxel_index_in_range {Srep : Type} (L : RefinerLogic Srep) (theSpoke : vtkSpoke) :
    (0 ≤ (voxelIndex L theSpoke).1 ∧ (voxelIndex L theSpoke).1 ≤ 199) ∧
    (0 ≤ (voxelIndex L theSpoke).2.1 ∧ (voxelIndex L theSpoke).2.1 ≤ 199) ∧
    (0 ≤ (voxelIndex L theSpoke).2.2 ∧ (voxelIndex L theSpoke).2.2 ≤ 199) ∧
    Transform2ImageCS L theSpoke.GetBoundaryPoint = voxelIndex L theSpoke ∧
    voxelIndex L theSpoke
      = (voxelCoord theSpoke.GetBoundaryPoint.x (L.mTransformationMat 0 0)
          (L.mTransformationMat 3 0),
        voxelCoord theSpoke.GetBoundaryPoint.y (L.mTransformationMat 1 1)
          (L.mTransformationMat 3 1),
        voxelCoord theSpoke.GetBoundaryPoint.z (L.mTransformationMat 2 2)
          (L.mTransformationMat 3 2)) ∧
    (∀ p scale shift : ℚ, 0 ≤ (p * scale + shift) / voxelSpacing + 1 / 2 →
      (p * scale + shift) / voxelSpacing + 1 / 2 < 200 →
      voxelCoord p scale shift = ⌊(p * scale + shift) / voxelSpacing + 1 / 2⌋) ∧
    (∀ p scale shift : ℚ, 200 ≤ (p * scale + shift) / voxelSpacing + 1 / 2 →
      (p * scale + shift) / voxelSpacing + 1 / 2 < 2147483648 →
      voxelCoord p scale shift = 199) ∧
    (∀ p scale shift : ℚ,
      ((p * scale + shift) / voxelSpacing + 1 / 2 < 0 ∨
        2147483648 ≤ (p * scale + shift) / voxelSpacing + 1 / 2) →
      voxelCoord p scale shift = 0) :=
  ⟨voxelCoord_range _ _ _, voxelCoord_range _ _ _, voxelCoord_range _ _ _, rfl, rfl,
    voxelCoord_round, voxelCoord_clamp_high, voxelCoord_clamp_low⟩

/-- C29 (amended statement) under the identity scale: the coordinate `1/2` gives voxel `100`,
the coordinate `999/1000` is clamped to voxel `199`, and the coordinate `20000000`, whose
scaled value leaves the `int` range, gives voxel `0`. -/
theorem C29_voxel_index_in_range_witness :
    (0 : ℚ) ≤ ((1 / 2 : ℚ) * 1 + 0) / voxelSpacing + 1 / 2 ∧
    ((1 / 2 : ℚ) * 1 + 0) / voxelSpacing + 1 / 2 < 200 ∧
    voxelCoord (1 / 2) 1 0 = ⌊((1 / 2 : ℚ) * 1 + 0) / voxelSpacing + 1 / 2⌋ ∧
    ⌊((1 / 2 : ℚ) * 1 + 0) / voxelSpacing + 1 / 2⌋ = 100 ∧
    voxelCoord (999 / 1000) 1 0 = 199 ∧
    voxelCoord 20000000 1 0 = 0 :=
  ⟨by norm_num [voxelSpacing], by norm_num [voxelSpacing],
    (C29_voxel_index_in_range skewLogic (flatSpoke 0 0)).2.2.2.2.2.1 (1 / 2) 1 0
      (by norm_num [voxelSpacing]) (by norm_num [voxelSpacing]),
    by rw [Int.floor_eq_iff]; norm_num [voxelSpacing],
    (C29_voxel_index_in_range skewLogic (flatSpoke 0 0)).2.2.2.2.2.2.1 (999 / 1000) 1 0
      (by norm_num [voxelSpacing]) (by norm_num [voxelSpacing]),
    (C29_voxel_index_in_range skewLogic (flatSpoke 0 0)).2.2.2.2.2.2.2 20000000 1 0
      (Or.inr (by norm_num [voxelSpacing]))⟩

/-- C29 (counterexample). Under the identity transform the spoke from `(0.999, 0.5, 0)` along
`z` with radius `0.5` has the boundary point `(0.999, 0.5, 0.5)`, strictly inside the unit cube
that the volume covers. Its `x` coordinate divided by the spacing `0.005` is `199.8`, which
rounded half up is `200`; the code clamps the index to `199` and reads the voxel
`(199, 100, 100)`. -/
theorem C29_counterexample :
    (⟨⟨999 / 1000, 1 / 2, 0⟩, ⟨0, 0, 1⟩, 1 / 2⟩ : vtkSpoke).GetBoundaryPoint
      = ⟨999 / 1000, 1 / 2, 1 / 2⟩ ∧
    (0 : ℚ) < 999 / 1000 ∧ (999 / 1000 : ℚ) < 1 ∧
    voxelIndex unitCubeLogic ⟨⟨999 / 1000, 1 / 2, 0⟩, ⟨0, 0, 1⟩, 1 / 2⟩ = (199, 100, 100) ∧
    Transform2ImageCS unitCubeLogic ⟨999 / 1000, 1 / 2, 1 / 2⟩ = (199, 100, 100) ∧
    ((999 / 1000 : ℚ) * unitCubeLogic.mTransformationMat 0 0
      + unitCubeLogic.mTransformationMat 3 0) / voxelSpacing = 999 / 5 ∧
    ⌊((999 / 1000 : ℚ) * unitCubeLogic.mTransformationMat 0 0
      + unitCubeLogic.mTransformationMat 3 0) / voxelSpacing + 1 / 2⌋ = 200 ∧
    (voxelIndex unitCubeLogic ⟨⟨999 / 1000, 1 / 2, 0⟩, ⟨0, 0, 1⟩, 1 / 2⟩).1
      ≠ ⌊((999 / 1000 : ℚ) * unitCubeLogic.mTransformationMat 0 0
          + unitCubeLogic.mTransformationMat 3 0) / voxelSpacing + 1 / 2⌋ := by
  have hb : (⟨⟨999 / 1000, 1 / 2, 0⟩, ⟨0, 0, 1⟩, 1 / 2⟩ : vtkSpoke).GetBoundaryPoint
      = ⟨999 / 1000, 1 / 2, 1 / 2⟩ := by
    simp only [vtkSpoke.GetBoundaryPoint, Vec3.add, Vec3.smul]
    norm_num
  have hfl : ⌊((999 / 1000 : ℚ) * 1 + 0) / voxelSpacing + 1 / 2⌋ = 200 := by
    rw [Int.floor_eq_iff]; norm_num [voxelSpacing]
  have hx : voxelCoord (999 / 1000) 1 0 = 199 :=
    voxelCoord_clamp_high (999 / 1000) 1 0 (by norm_num [voxelSpacing])
      (by norm_num [voxelSpacing])
  have hy : voxelCoord (1 / 2) 1 0 = 100 := by
    rw [voxelCoord_round (1 / 2) 1 0 (by norm_num [voxelSpacing]) (by norm_num [voxelSpacing]),
      Int.floor_eq_iff]
    norm_num [voxelSpacing]
  have hidx : voxelIndex unitCubeLogic ⟨⟨999 / 1000, 1 / 2, 0⟩, ⟨0, 0, 1⟩, 1 / 2⟩
      = (199, 100, 100) := by
    simp only [voxelIndex, hb, unitCubeLogic]
    norm_num [hx, hy]
  have ht : Transform2ImageCS unitCubeLogic ⟨999 / 1000, 1 / 2, 1 / 2⟩ = (199, 100, 100) := by
    rw [← hb, ← hidx]
    rfl
  have hm : ((999 / 1000 : ℚ) * unitCubeLogic.mTransformationMat 0 0
      + unitCubeLogic.mTransformationMat 3 0) = 999 / 1000 * 1 + 0 := by
    simp [unitCubeLogic]
  refine ⟨hb, by norm_num, by norm_num, hidx, ht, ?_, ?_, ?_⟩
  · rw [hm]; norm_num [voxelSpacing]
  · rw [hm]; exact hfl
  · rw [hm, hidx, hfl]; decide

/-! ## Tangents of the top row of `InterpolateCrest`: proofs -/

/-- C22. In the loop `top row` of `InterpolateCrest` the tangents of corner 3 are a full copy of
those computed at `(0, i+1)`, but of the tangents of corner 0 only `dXdu11[0]`, `dXdu11[1]`,
`dXdv11[1]` and `dXdv11[2]` are copied from those computed at `(0, i)`: `dXdu11[2]` and
`dXdv11[0]` keep whatever the local arrays held before. On the `3 × 3` grid `sampleGrid` at
column `1`, with arrays that held `(7, 7, 7)`, corner 0 receives `dXdu11 = (1, 0, 7)` and
`dXdv11 = (7, 1, 0)` while the tangents at `(0, 1)` are `(1, 0, 1)` and `(0, 1, 0)`. -/
theorem C22_top_row_tangents_partly_unassigned :
    (∀ (dXdu11 dXdv11 : Vec3) (skeletalPts : List ℚ) (i nRows nCols : Nat),
      (topRowTangents dXdu11 dXdv11 skeletalPts i nRows nCols).1[0]?
        = some ⟨(ComputeDerivative skeletalPts 0 i nRows nCols).1.x,
            (ComputeDerivative skeletalPts 0 i nRows nCols).1.y, dXdu11.z⟩ ∧
      (topRowTangents dXdu11 dXdv11 skeletalPts i nRows nCols).2[0]?
        = some ⟨dXdv11.x, (ComputeDerivative skeletalPts 0 i nRows nCols).2.y,
            (ComputeDerivative skeletalPts 0 i nRows nCols).2.z⟩ ∧
      (topRowTangents dXdu11 dXdv11 skeletalPts i nRows nCols).1[3]?
        = some (ComputeDerivative skeletalPts 0 (i + 1 : Nat) nRows nCols).1 ∧
      (topRowTangents dXdu11 dXdv11 skeletalPts i nRows nCols).2[3]?
        = some (ComputeDerivative skeletalPts 0 (i + 1 : Nat) nRows nCols).2) ∧
    ComputeDerivative (flattenGrid sampleGrid 3 3) 0 (1 : Nat) (3 : Nat) (3 : Nat)
      = (⟨1, 0, 1⟩, ⟨0, 1, 0⟩) ∧
    (topRowTangents ⟨7, 7, 7⟩ ⟨7, 7, 7⟩ (flattenGrid sampleGrid 3 3) 1 3 3).1[0]?
      = some ⟨1, 0, 7⟩ ∧
    (topRowTangents ⟨7, 7, 7⟩ ⟨7, 7, 7⟩ (flattenGrid sampleGrid 3 3) 1 3 3).2[0]?
      = some ⟨7, 1, 0⟩ := by
  have hcd : ComputeDerivative (flattenGrid sampleGrid 3 3) 0 (1 : Nat) (3 : Nat) (3 : Nat)
      = (⟨1, 0, 1⟩, ⟨0, 1, 0⟩) := by
    have h := ComputeDerivative_flattenGrid sampleGrid 3 3 0 1 (by decide) (by decide)
      (by decide) (by decide)
    rw [show ((0 : Nat) : Int) = 0 from rfl] at h
    rw [h]
    norm_num [sampleGrid, Vec3.sub, Vec3.smul]
  refine ⟨?_, hcd, ?_, ?_⟩
  · intro dXdu11 dXdv11 skeletalPts i nRows nCols
    exact ⟨rfl, rfl, rfl, rfl⟩
  · have h : (topRowTangents ⟨7, 7, 7⟩ ⟨7, 7, 7⟩ (flattenGrid sampleGrid 3 3) 1 3 3).1[0]?
        = some ⟨(ComputeDerivative (flattenGrid sampleGrid 3 3) 0 (1 : Nat) (3 : Nat)
            (3 : Nat)).1.x,
          (ComputeDerivative (flattenGrid sampleGrid 3 3) 0 (1 : Nat) (3 : Nat) (3 : Nat)).1.y,
          7⟩ := rfl
    rw [h, hcd]
  · have h : (topRowTangents ⟨7, 7, 7⟩ ⟨7, 7, 7⟩ (flattenGrid sampleGrid 3 3) 1 3 3).2[0]?
        = some ⟨7,
          (ComputeDerivative (flattenGrid sampleGrid 3 3) 0 (1 : Nat) (3 : Nat) (3 : Nat)).2.y,
          (ComputeDerivative (flattenGrid sampleGrid 3 3) 0 (1 : Nat) (3 : Nat)
            (3 : Nat)).2.z⟩ := rfl
    rw [h, hcd]

/-! ## The parametric step of the `rSrad` neighbours: proofs -/

/-- The first element kept by a `filterMap` over a range. -/
theorem filterMap_range'_head {α : Type} (f : Nat → Option α) (a : α) (k : Nat)
    (hk : f k = some a) :
    ∀ (n s : Nat), s ≤ k → k < s + n → (∀ j, s ≤ j → j < k → f j = none) →
      ∃ t, (List.range' s n).filterMap f = a :: t := by
  intro n
  induction n with
  | zero => intro s h1 h2 _; omega
  | succ n ih =>
    intro s h1 h2 hnone
    rw [List.range'_succ]
    by_cases hs : s = k
    · subst hs
      rw [List.filterMap_cons_some hk]
      exact ⟨_, rfl⟩
    · rw [List.filterMap_cons_none (hnone s (le_refl s) (by omega))]
      exact ih (s + 1) (by omega) (by omega) (fun j hj1 hj2 => hnone j (by omega) hj2)

theorem isQuadCorner_iff (u v : ℚ) :
    isQuadCorner u v = true ↔
      (|u| < 1 / 1000000 ∨ |u - 1| < 1 / 1000000) ∧ (|v| < 1 / 1000000 ∨ |v - 1| < 1 / 1000000) := by
  unfold isQuadCorner
  simp only [Bool.or_eq_true, Bool.and_eq_true, decide_eq_true_eq]
  tauto

/-- The position list of `Refine` with the loop counters as natural numbers. -/
theorem RefineInterpolatePositions_eq (L : Nat) :
    RefineInterpolatePositions L
      = if L = 0 then
          ((List.range (2 ^ L + 1)).flatMap fun i : Nat =>
            (List.range (2 ^ L + 1)).filterMap fun j : Nat =>
              if isQuadCorner ((i : ℚ) * (1 / ((2 ^ L : Nat) : ℚ)))
                  ((j : ℚ) * (1 / ((2 ^ L : Nat) : ℚ))) = true then none
              else some ((i : ℚ) * (1 / ((2 ^ L : Nat) : ℚ)),
                (j : ℚ) * (1 / ((2 ^ L : Nat) : ℚ)))) ++ [(0, 0)]
        else
          (List.range (2 ^ L + 1)).flatMap fun i : Nat =>
            (List.range (2 ^ L + 1)).filterMap fun j : Nat =>
              if isQuadCorner ((i : ℚ) * (1 / ((2 ^ L : Nat) : ℚ)))
                  ((j : ℚ) * (1 / ((2 ^ L : Nat) : ℚ))) = true then none
              else some ((i : ℚ) * (1 / ((2 ^ L : Nat) : ℚ)),
                (j : ℚ) * (1 / ((2 ^ L : Nat) : ℚ))) := by
  have hcoe : ∀ n : Nat, (do let a ← List.range n; pure ((a : Nat) : ℚ))
      = (List.range n).map (fun a : Nat => (a : ℚ)) := by
    intro n
    simp only [List.pure_def, List.bind_eq_flatMap]
    induction (List.range n) with
    | nil => rfl
    | cons a l ih => simp only [List.flatMap_cons, List.map_cons, ih, List.singleton_append]
  unfold RefineInterpolatePositions
  dsimp only
  rw [hcoe]
  simp only [List.filterMap_map]
  rfl

/-- The first interpolation position is `(0, k * interval)` for the first `k` whose multiple of
the interval is not within the tolerance of `0`. -/
theorem positions_head (L k : Nat) (hk : k < 2 ^ L)
    (hsmall : ∀ j, j < k → |(j : ℚ) * (1 / ((2 ^ L : Nat) : ℚ))| < 1 / 1000000)
    (hbig : ¬ |(k : ℚ) * (1 / ((2 ^ L : Nat) : ℚ))| < 1 / 1000000)
    (hfar : ¬ |(k : ℚ) * (1 / ((2 ^ L : Nat) : ℚ)) - 1| < 1 / 1000000) :
    ∃ t, RefineInterpolatePositions L = (0, (k : ℚ) * (1 / ((2 ^ L : Nat) : ℚ))) :: t := by
  have hL : L ≠ 0 := by
    rintro rfl
    have : k = 0 := by simpa using hk
    subst this
    exact hbig (by norm_num)
  rw [RefineInterpolatePositions_eq, if_neg hL, List.range_succ_eq_map, List.flatMap_cons,
    ← List.range_succ_eq_map, List.range_eq_range']
  obtain ⟨t, ht⟩ := filterMap_range'_head
    (fun j : Nat => if isQuadCorner (((0 : Nat) : ℚ) * (1 / ((2 ^ L : Nat) : ℚ)))
        ((j : ℚ) * (1 / ((2 ^ L : Nat) : ℚ))) = true then none
      else some (((0 : Nat) : ℚ) * (1 / ((2 ^ L : Nat) : ℚ)),
        (j : ℚ) * (1 / ((2 ^ L : Nat) : ℚ))))
    (0, (k : ℚ) * (1 / ((2 ^ L : Nat) : ℚ))) k
    (by
      have hc : ¬ isQuadCorner (((0 : Nat) : ℚ) * (1 / ((2 ^ L : Nat) : ℚ)))
          ((k : ℚ) * (1 / ((2 ^ L : Nat) : ℚ))) = true := by
        rw [isQuadCorner_iff]
        rintro ⟨-, h | h⟩
        · exact hbig h
        · exact hfar h
      simp only [Nat.cast_zero, zero_mul] at hc ⊢
      rw [if_neg hc])
    (2 ^ L + 1) 0 (Nat.zero_le _) (by omega)
    (by
      intro j _ hj
      have hc : isQuadCorner (((0 : Nat) : ℚ) * (1 / ((2 ^ L : Nat) : ℚ)))
          ((j : ℚ) * (1 / ((2 ^ L : Nat) : ℚ))) = true := by
        rw [isQuadCorner_iff]
        exact ⟨Or.inl (by norm_num), Or.inl (hsmall j hj)⟩
      simp only [if_pos hc])
  rw [ht]
  exact ⟨_, rfl⟩

/-- A multiple of an interval wider than the tolerance is within the tolerance of `0` only when
it is `0`. -/
theorem grid_near_zero (S i : Nat) (hS : 0 < S) (hS6 : S < 1000000) :
    |(i : ℚ) * (1 / (S : ℚ))| < 1 / 1000000 ↔ i = 0 := by
  have hSq : (0 : ℚ) < S := by exact_mod_cast hS
  have hS6q : (S : ℚ) < 1000000 := by exact_mod_cast hS6
  constructor
  · intro h
    by_contra hi
    have hi1 : (1 : ℚ) ≤ i := by exact_mod_cast Nat.one_le_iff_ne_zero.mpr hi
    rw [abs_of_nonneg (by positivity), mul_one_div, div_lt_div_iff₀ hSq (by norm_num)] at h
    nlinarith
  · rintro rfl
    norm_num

/-- It is within the tolerance of `1` only when it is the last multiple. -/
theorem grid_near_one (S i : Nat) (hS : 0 < S) (hS6 : S < 1000000) (hi : i ≤ S) :
    |(i : ℚ) * (1 / (S : ℚ)) - 1| < 1 / 1000000 ↔ i = S := by
  have hSq : (0 : ℚ) < S := by exact_mod_cast hS
  have hS6q : (S : ℚ) < 1000000 := by exact_mod_cast hS6
  constructor
  · intro h
    by_contra hne
    have hlt : i + 1 ≤ S := by omega
    have hltq : (i : ℚ) + 1 ≤ S := by exact_mod_cast hlt
    have he : (i : ℚ) * (1 / (S : ℚ)) - 1 = -(((S : ℚ) - i) / S) := by
      field_simp
    rw [he, abs_neg, abs_of_nonneg (div_nonneg (by linarith) hSq.le),
      div_lt_div_iff₀ hSq (by norm_num)] at h
    nlinarith
  · rintro rfl
    rw [mul_one_div, div_self (ne_of_gt hSq)]
    norm_num

/-- On the grid of multiples the corner test holds at the four corners only. -/
theorem isQuadCorner_grid (S i j : Nat) (hS : 0 < S) (hS6 : S < 1000000) (hi : i ≤ S)
    (hj : j ≤ S) :
    isQuadCorner ((i : ℚ) * (1 / (S : ℚ))) ((j : ℚ) * (1 / (S : ℚ))) = true ↔
      (i = 0 ∨ i = S) ∧ (j = 0 ∨ j = S) := by
  rw [isQuadCorner_iff, grid_near_zero S i hS hS6, grid_near_zero S j hS hS6,
    grid_near_one S i hS hS6 hi, grid_near_one S j hS hS6 hj]

/-- Summing a value `a` at both ends of `0..n` and `b` in between. -/
theorem sum_ends (n a b : Nat) :
    ((List.range (n + 2)).map fun i => if i = 0 ∨ i = n + 1 then a else b).sum
      = 2 * a + n * b := by
  rw [List.range_succ_eq_map, List.range_succ]
  simp only [List.map_cons, List.map_append, List.map_map, List.sum_cons, List.sum_append,
    List.map_nil, List.sum_nil]
  have hmid : (List.map ((fun i => if i = 0 ∨ i = n + 1 then a else b) ∘ Nat.succ)
      (List.range n)) = List.map (fun _ => b) (List.range n) := by
    apply List.map_congr_left
    intro i hi
    have hi2 := List.mem_range.mp hi
    simp only [Function.comp, Nat.succ_eq_add_one]
    rw [if_neg (by omega)]
  rw [hmid]
  simp only [List.map_const', List.length_range, List.sum_replicate, smul_eq_mul,
    Function.comp, Nat.succ_eq_add_one, true_or, or_true, if_true]
  ring

/-- The number of elements kept by a `filterMap` that drops those passing a test. -/
theorem length_filterMap_ite {α : Type} (p : Nat → Prop) [DecidablePred p] (g : Nat → α)
    (l : List Nat) :
    (l.filterMap fun j => if p j then none else some (g j)).length
      = (l.map fun j => if p j then 0 else 1).sum := by
  induction l with
  | nil => rfl
  | cons a l ih =>
    by_cases h : p a
    · simp only [List.filterMap_cons, if_pos h, ih, List.map_cons, List.sum_cons, Nat.zero_add]
    · simp only [List.filterMap_cons, if_neg h, List.length_cons, ih, List.map_cons,
        List.sum_cons]
      omega

/-- The number of positions kept in row `i` of the grid of multiples. -/
theorem row_length (n i : Nat) (hS6 : n + 2 < 1000000) (hi : i ≤ n + 2) :
    ((List.range (n + 2 + 1)).filterMap fun j : Nat =>
        if isQuadCorner ((i : ℚ) * (1 / ((n + 2 : Nat) : ℚ)))
            ((j : ℚ) * (1 / ((n + 2 : Nat) : ℚ))) = true then none
        else some ((i : ℚ) * (1 / ((n + 2 : Nat) : ℚ)),
          (j : ℚ) * (1 / ((n + 2 : Nat) : ℚ)))).length
      = if i = 0 ∨ i = n + 1 + 1 then n + 1 else n + 3 := by
  rw [length_filterMap_ite (fun j : Nat => isQuadCorner ((i : ℚ) * (1 / ((n + 2 : Nat) : ℚ)))
      ((j : ℚ) * (1 / ((n + 2 : Nat) : ℚ))) = true)]
  have hcongr : (List.map (fun j : Nat => if isQuadCorner ((i : ℚ) * (1 / ((n + 2 : Nat) : ℚ)))
        ((j : ℚ) * (1 / ((n + 2 : Nat) : ℚ))) = true then 0 else 1) (List.range (n + 2 + 1)))
      = List.map (fun j : Nat => if j = 0 ∨ j = n + 1 + 1 then
          (if i = 0 ∨ i = n + 1 + 1 then 0 else 1) else 1) (List.range (n + 1 + 2)) := by
    apply List.map_congr_left
    intro j hj
    have hj2 := List.mem_range.mp hj
    have hiff := isQuadCorner_grid (n + 2) i j (by omega) hS6 hi (by omega)
    by_cases hc : isQuadCorner ((i : ℚ) * (1 / ((n + 2 : Nat) : ℚ)))
        ((j : ℚ) * (1 / ((n + 2 : Nat) : ℚ))) = true
    · rw [if_pos hc, if_pos (hiff.mp hc).2, if_pos (hiff.mp hc).1]
    · rw [if_neg hc]
      by_cases hjc : j = 0 ∨ j = n + 1 + 1
      · rw [if_pos hjc, if_neg (fun hic => hc (hiff.mpr ⟨hic, hjc⟩))]
      · rw [if_neg hjc]
  rw [hcongr, sum_ends]
  split_ifs <;> omega

theorem length_flatMap_range {α : Type} (f : Nat → List α) (n : Nat) :
    ((List.range n).flatMap f).length = ((List.range n).map fun i => (f i).length).sum := by
  induction n with
  | zero => rfl
  | succ n ih =>
    rw [List.range_succ, List.flatMap_append, List.length_append, ih, List.map_append,
      List.sum_append]
    simp

/-- The number of interpolation positions when the interval is wider than the tolerance. -/
theorem positions_length (L : Nat) (hL1 : 1 ≤ L) (hL19 : L ≤ 19) :
    (RefineInterpolatePositions L).length = (2 ^ L + 1) ^ 2 - 4 := by
  have hpow : 2 ^ L ≤ 2 ^ 19 := Nat.pow_le_pow_right (by decide) hL19
  have hpow1 : 2 ^ 1 ≤ 2 ^ L := Nat.pow_le_pow_right (by decide) hL1
  obtain ⟨n, hn⟩ : ∃ n, 2 ^ L = n + 2 := ⟨2 ^ L - 2, by omega⟩
  rw [RefineInterpolatePositions_eq, if_neg (by omega), hn, length_flatMap_range]
  have hcongr : (List.map (fun i : Nat => ((List.range (n + 2 + 1)).filterMap fun j : Nat =>
        if isQuadCorner ((i : ℚ) * (1 / ((n + 2 : Nat) : ℚ)))
            ((j : ℚ) * (1 / ((n + 2 : Nat) : ℚ))) = true then none
        else some ((i : ℚ) * (1 / ((n + 2 : Nat) : ℚ)),
          (j : ℚ) * (1 / ((n + 2 : Nat) : ℚ)))).length) (List.range (n + 2 + 1)))
      = List.map (fun i : Nat => if i = 0 ∨ i = n + 1 + 1 then n + 1 else n + 3)
          (List.range (n + 1 + 2)) := by
    apply List.map_congr_left
    intro i hi
    have hi2 := List.mem_range.mp hi
    exact row_length n i (by omega) (by omega)
  rw [hcongr, sum_ends]
  have : (n + 2 + 1) ^ 2 = 2 * (n + 1) + (n + 1) * (n + 3) + 4 := by ring
  omega

/-- C30, amended. For every interpolation level `1 ≤ L ≤ 19` the position list built by `Refine`
starts with `(0, 2^(-L))` and has `(2^L + 1)^2 - 4` entries, so the parametric step read by the
neighbour finders is `2^(-L)`; at level `0` the list is the single pair `(0, 0)` and the step
is `0`. -/
theorem C30_neighbour_step {Srep : Type} (L : Nat) (hL1 : 1 ≤ L) (hL19 : L ≤ 19) :
    (∃ t, RefineInterpolatePositions L = (0, 1 / (2 : ℚ) ^ L) :: t) ∧
    (RefineInterpolatePositions L).length = (2 ^ L + 1) ^ 2 - 4 ∧
    (∀ Lg : RefinerLogic Srep, Lg.mInterpolatePositions = RefineInterpolatePositions L →
      neighborStep Lg = 1 / (2 : ℚ) ^ L) ∧
    RefineInterpolatePositions 0 = [(0, 0)] ∧
    (∀ Lg : RefinerLogic Srep, Lg.mInterpolatePositions = RefineInterpolatePositions 0 →
      neighborStep Lg = 0) := by
  have hpow : 2 ^ L ≤ 2 ^ 19 := Nat.pow_le_pow_right (by decide) hL19
  have hpow1 : 2 ^ 1 ≤ 2 ^ L := Nat.pow_le_pow_right (by decide) hL1
  have hz := grid_near_zero (2 ^ L) 1 (by omega) (by omega)
  have ho := grid_near_one (2 ^ L) 1 (by omega) (by omega) (by omega)
  obtain ⟨t, ht⟩ := positions_head L 1 (by omega)
    (by
      intro j hj
      have : j = 0 := by omega
      subst this
      norm_num)
    (by rw [hz]; decide)
    (by rw [ho]; omega)
  have ht2 : RefineInterpolatePositions L = (0, 1 / (2 : ℚ) ^ L) :: t := by
    rw [ht]; push_cast; rw [one_mul]
  have h0 : RefineInterpolatePositions 0 = [(0, 0)] := by
    rw [RefineInterpolatePositions_eq]
    simp [List.range_succ, isQuadCorner, List.flatMap, List.filterMap]
  refine ⟨⟨t, ht2⟩, positions_length L hL1 hL19, ?_, h0, ?_⟩
  · intro Lg hLg
    unfold neighborStep
    rw [hLg, ht2]
    rfl
  · intro Lg hLg
    unfold neighborStep
    rw [hLg, h0]
    rfl

/-- C30 at level `1`: five positions, the first of them `(0, 1/2)`. -/
theorem C30_neighbour_step_witness :
    1 ≤ 1 ∧ 1 ≤ 19 ∧ (∃ t, RefineInterpolatePositions 1 = (0, 1 / (2 : ℚ) ^ 1) :: t) ∧
    (RefineInterpolatePositions 1).length = (2 ^ 1 + 1) ^ 2 - 4 :=
  ⟨by decide, by decide, (@C30_neighbour_step GridSrep 1 (by decide) (by decide)).1,
    (@C30_neighbour_step GridSrep 1 (by decide) (by decide)).2.1⟩

/-- C30 as stated fails from level `20` on, where the interval `2^(-20)` is below the tolerance
`1e-6` of the corner test: the pair `(0, 2^(-20))` is skipped with the corner, the list starts
with `(0, 2^(-19))`, and that is the step the neighbour finders read. -/
theorem C30_counterexample :
    (∃ t, RefineInterpolatePositions 20 = (0, 1 / (2 : ℚ) ^ 19) :: t) ∧
    (∀ Lg : RefinerLogic GridSrep, Lg.mInterpolatePositions = RefineInterpolatePositions 20 →
      neighborStep Lg = 1 / (2 : ℚ) ^ 19 ∧ neighborStep Lg ≠ 1 / (2 : ℚ) ^ 20) := by
  have hc : (((2 ^ 20 : Nat) : ℚ)) = 1048576 := by norm_num
  obtain ⟨t, ht⟩ := positions_head 20 2 (by norm_num)
    (by
      intro j hj
      have hj2 : j = 0 ∨ j = 1 := by omega
      rcases hj2 with rfl | rfl
      · norm_num
      · rw [hc]; norm_num [abs_lt])
    (by rw [hc]; norm_num [abs_lt])
    (by rw [hc]; norm_num [abs_lt])
  have ht2 : RefineInterpolatePositions 20 = (0, 1 / (2 : ℚ) ^ 19) :: t := by
    rw [ht, hc]; norm_num
  refine ⟨⟨t, ht2⟩, ?_⟩
  intro Lg hLg
  have hs : neighborStep Lg = 1 / (2 : ℚ) ^ 19 := by
    unfold neighborStep
    rw [hLg, ht2]
    rfl
  exact ⟨hs, by rw [hs]; norm_num⟩

/-! ## Number of distance evaluations: proofs -/

/-- A sum over the cells of a row-major grid is the sum over the rows of the row sums. -/
theorem sum_range_mul (R C : Nat) (hC : 0 < C) (g : Nat → Nat → Nat) :
    ((List.range (R * C)).map fun i => g (i / C) (i % C)).sum
      = ((List.range R).map fun r => ((List.range C).map (g r)).sum).sum := by
  induction R with
  | zero => simp
  | succ R ih =>
    rw [Nat.succ_mul, List.range_add, List.map_append, List.sum_append, ih, List.range_succ,
      List.map_append, List.sum_append, List.map_map]
    have hrow : List.map ((fun i => g (i / C) (i % C)) ∘ fun x => R * C + x) (List.range C)
        = List.map (g R) (List.range C) := by
      apply List.map_congr_left
      intro c hc
      have hc2 := List.mem_range.mp hc
      simp only [Function.comp]
      rw [Nat.mul_comm R C, Nat.mul_add_div hC, Nat.div_eq_of_lt hc2, Nat.add_zero,
        Nat.mul_add_mod, Nat.mod_eq_of_lt hc2]
    rw [hrow]
    simp

/-- The number of quads dispatched for the spoke at `(r, c)`: one or two along each axis. -/
theorem quadDispatch_length (R C r c : Nat) (hR : 2 ≤ R) (hC : 2 ≤ C) :
    (quadDispatch (R : Int) (C : Int) (r : Int) (c : Int)).length
      = (if r = 0 ∨ r + 1 = R then 1 else 2) * (if c = 0 ∨ c + 1 = C then 1 else 2) := by
  have h := sampledQuads_length (R : Int) (C : Int) (r : Int) (c : Int) (by omega) (by omega)
  simp only [sampledQuads, List.length_map] at h
  have i1 : ((r : Int) = 0) ↔ r = 0 := by omega
  have i2 : ((r : Int) = (R : Int) - 1) ↔ r + 1 = R := by omega
  have i3 : ((c : Int) = 0) ↔ c = 0 := by omega
  have i4 : ((c : Int) = (C : Int) - 1) ↔ c + 1 = C := by omega
  rw [h]
  simp only [i1, i2, i3, i4]
  by_cases h1 : r = 0 ∨ r + 1 = R <;> by_cases h2 : c = 0 ∨ c + 1 = C
  · rw [if_pos ⟨h1, h2⟩, if_pos h1, if_pos h2]
  · rw [if_neg (fun hh => h2 hh.2), if_pos h1, if_neg h2, if_pos (by tauto)]
  · rw [if_neg (fun hh => h1 hh.1), if_neg h1, if_pos h2, if_pos (by tauto)]
  · rw [if_neg (fun hh => h2 hh.2), if_neg h1, if_neg h2, if_neg (by tauto)]

theorem length_flatMap_map {α β γ : Type} (l : List α) (xs : List β) (f : α → β → γ) :
    (l.flatMap fun a => xs.map (f a)).length = l.length * xs.length := by
  induction l with
  | nil => simp
  | cons a l ih =>
    rw [List.flatMap_cons, List.length_append, ih, List.length_map, List.length_cons]
    ring

/-- The number of spokes handed to `ComputeDistance` while spoke `i` is processed. -/
theorem sampledSpokesAt_length {Srep : Type} (K : Collaborators Srep) (L : RefinerLogic Srep)
    (tempSrep : Srep) (nRows nCols : Nat) (hR : 2 ≤ nRows) (hC : 2 ≤ nCols)
    (hrows : L.mNumRows = nRows) (hcols : L.mNumCols = nCols) (i : Nat) :
    (sampledSpokesAt K L tempSrep i).length
      = 1 + L.mInterpolatePositions.length
          * ((if i / nCols = 0 ∨ i / nCols + 1 = nRows then 1 else 2)
            * (if i % nCols = 0 ∨ i % nCols + 1 = nCols then 1 else 2)) := by
  unfold sampledSpokesAt
  simp only [List.length_cons, hrows, hcols]
  rw [length_flatMap_map, ← Int.ofNat_tdiv, ← Int.ofNat_tmod,
    quadDispatch_length nRows nCols (i / nCols) (i % nCols) hR hC]
  ring

/-- The row sums and the grid sum of the numbers of sampled spokes. -/
theorem sampled_count_sum (m n P : Nat) :
    ((List.range (m + 2)).map fun r =>
      ((List.range (n + 2)).map fun c =>
        1 + P * ((if r = 0 ∨ r + 1 = m + 2 then 1 else 2)
          * (if c = 0 ∨ c + 1 = n + 2 then 1 else 2))).sum).sum
      = (m + 2) * (n + 2) + 4 * (m + 1) * (n + 1) * P := by
  have hrow : ∀ r : Nat,
      ((List.range (n + 2)).map fun c =>
        1 + P * ((if r = 0 ∨ r + 1 = m + 2 then 1 else 2)
          * (if c = 0 ∨ c + 1 = n + 2 then 1 else 2))).sum
      = if r = 0 ∨ r = m + 1 then (n + 2) + 2 * (n + 1) * P else (n + 2) + 4 * (n + 1) * P := by
    intro r
    have hc : (List.map (fun c => 1 + P * ((if r = 0 ∨ r + 1 = m + 2 then 1 else 2)
          * (if c = 0 ∨ c + 1 = n + 2 then 1 else 2))) (List.range (n + 2)))
        = List.map (fun c => if c = 0 ∨ c = n + 1 then
              1 + P * (if r = 0 ∨ r + 1 = m + 2 then 1 else 2)
            else 1 + P * ((if r = 0 ∨ r + 1 = m + 2 then 1 else 2) * 2))
          (List.range (n + 2)) := by
      apply List.map_congr_left
      intro c _
      have e : (c = 0 ∨ c + 1 = n + 2) ↔ (c = 0 ∨ c = n + 1) := by omega
      simp only [e]
      split_ifs <;> ring
    have e : (r = 0 ∨ r + 1 = m + 2) ↔ (r = 0 ∨ r = m + 1) := by omega
    rw [hc, sum_ends]
    simp only [e]
    split_ifs <;> ring
  rw [List.map_congr_left (fun r _ => hrow r), sum_ends]
  ring

theorem countP_flatMap_range {α : Type} (p : α → Bool) (f : Nat → List α) (n : Nat) :
    ((List.range n).flatMap f).countP p = ((List.range n).map fun i => (f i).countP p).sum := by
  induction n with
  | zero => rfl
  | succ n ih =>
    rw [List.range_succ, List.flatMap_append, List.countP_append, ih, List.map_append,
      List.sum_append]
    simp

/-- In a list without repetition an element is counted once or not at all. -/
theorem countP_eq_of_nodup {α : Type} [DecidableEq α] (a : α) :
    ∀ l : List α, l.Nodup → l.countP (fun q => decide (q = a)) = if a ∈ l then 1 else 0 := by
  intro l
  induction l with
  | nil => intro _; rfl
  | cons b l ih =>
    intro hnd
    rw [List.nodup_cons] at hnd
    rw [List.countP_cons, ih hnd.2]
    by_cases hb : b = a
    · subst hb
      simp [hnd.1]
    · have hab : ¬ a = b := fun h => hb h.symm
      simp [hb, hab]

/-- Two consecutive indices below `n` are each met once in `0..n-1`. -/
theorem sum_pair (q : Nat) :
    ∀ n : Nat, ((List.range n).map fun c => if c = q ∨ c = q + 1 then 1 else 0).sum
      = (if q < n then 1 else 0) + (if q + 1 < n then 1 else 0) := by
  intro n
  induction n with
  | zero => simp
  | succ n ih =>
    rw [List.range_succ, List.map_append, List.sum_append, ih]
    simp only [List.map_cons, List.map_nil, List.sum_cons, List.sum_nil]
    split_ifs <;> omega

/-- How often the spoke at `(r, c)` samples the quad with top-left cell `(qr, qc)`. -/
theorem sampledQuads_count (R C r c qr qc : Nat) (hR : 2 ≤ R) (hC : 2 ≤ C) (hr : r < R)
    (hc : c < C) (hqr : qr + 1 < R) (hqc : qc + 1 < C) :
    (sampledQuads (R : Int) (C : Int) (r : Int) (c : Int)).countP
        (fun q => decide (q = quadCorners (qr : Int) (qc : Int)))
      = (if r = qr ∨ r = qr + 1 then 1 else 0) * (if c = qc ∨ c = qc + 1 then 1 else 0) := by
  rw [countP_eq_of_nodup _ _ (sampledQuads_nodup _ _ _ _)]
  have hmem := sampledQuads_mem_iff (R : Int) (C : Int) (r : Int) (c : Int) (by omega)
    (by omega) (by omega) (by omega) (by omega) (by omega) (qr : Int) (qc : Int)
  rw [mem_quadCorners] at hmem
  have hiff : quadCorners (qr : Int) (qc : Int) ∈ sampledQuads (R : Int) (C : Int) (r : Int)
      (c : Int) ↔ (r = qr ∨ r = qr + 1) ∧ (c = qc ∨ c = qc + 1) := by
    rw [hmem]
    constructor
    · rintro ⟨-, -, -, -, h1, h2⟩
      exact ⟨by omega, by omega⟩
    · rintro ⟨h1, h2⟩
      exact ⟨by omega, by omega, by omega, by omega, by omega, by omega⟩
  by_cases h1 : r = qr ∨ r = qr + 1 <;> by_cases h2 : c = qc ∨ c = qc + 1
  · rw [if_pos (hiff.mpr ⟨h1, h2⟩), if_pos h1, if_pos h2]
  · rw [if_neg (fun hh => h2 (hiff.mp hh).2), if_pos h1, if_neg h2]
  · rw [if_neg (fun hh => h1 (hiff.mp hh).1), if_neg h1, if_pos h2]
  · rw [if_neg (fun hh => h1 (hiff.mp hh).1), if_neg h1, if_neg h2]

/-- Over the whole grid every quad is sampled four times at each interpolation position. -/
theorem sampledQuads_total (R C qr qc : Nat) (hR : 2 ≤ R) (hC : 2 ≤ C) (hqr : qr + 1 < R)
    (hqc : qc + 1 < C) :
    ((List.range (R * C)).flatMap fun i : Nat =>
        sampledQuads (R : Int) (C : Int) (Int.tdiv i C) (Int.tmod i C)).countP
      (fun q => decide (q = quadCorners (qr : Int) (qc : Int))) = 4 := by
  rw [countP_flatMap_range]
  have hcongr : (List.map (fun i : Nat => (sampledQuads (R : Int) (C : Int) (Int.tdiv i C)
        (Int.tmod i C)).countP (fun q => decide (q = quadCorners (qr : Int) (qc : Int))))
        (List.range (R * C)))
      = List.map (fun i : Nat => (fun r c : Nat => (if r = qr ∨ r = qr + 1 then 1 else 0)
          * (if c = qc ∨ c = qc + 1 then 1 else 0)) (i / C) (i % C)) (List.range (R * C)) := by
    apply List.map_congr_left
    intro i hi
    have hi2 := List.mem_range.mp hi
    rw [← Int.ofNat_tdiv, ← Int.ofNat_tmod]
    exact sampledQuads_count R C (i / C) (i % C) qr qc hR hC
      (Nat.div_lt_of_lt_mul (by rw [Nat.mul_comm]; exact hi2)) (Nat.mod_lt _ (by omega)) hqr hqc
  rw [hcongr, sum_range_mul R C (by omega) (fun r c : Nat =>
    (if r = qr ∨ r = qr + 1 then 1 else 0) * (if c = qc ∨ c = qc + 1 then 1 else 0))]
  simp only [List.sum_map_mul_left, sum_pair, List.sum_map_mul_right, if_pos hqc,
    if_pos (show qc < C by omega), if_pos hqr, if_pos (show qr < R by omega)]
  rfl

/-- C25. For a grid of `nRows ≥ 2` by `nCols ≥ 2` spokes and a coefficient array of
`4 * nRows * nCols` entries, one evaluation of the objective function hands exactly
`nRows * nCols + 4 * (nRows-1) * (nCols-1) * |positions|` spokes to `ComputeDistance`: every
spoke of the grid once, and for every interpolation position one interpolated spoke per quad
and corner of that quad, every quad of the grid being sampled exactly four times over the
spokes; the image and normal terms are the sums of `ComputeDistance` over exactly these
spokes. -/
theorem C25_distance_call_count {Srep : Type} (K : Collaborators Srep) (L : RefinerLogic Srep)
    (tempSrep : Srep) (nRows nCols : Nat) (hR : 2 ≤ nRows) (hC : 2 ≤ nCols)
    (hrows : L.mNumRows = nRows) (hcols : L.mNumCols = nCols)
    (hlen : L.mCoeffArray.length = 4 * nRows * nCols) :
    (sampledSpokes K L tempSrep).length
      = nRows * nCols + 4 * (nRows - 1) * (nCols - 1) * L.mInterpolatePositions.length ∧
    imageMatchTerms K L tempSrep
      = (((sampledSpokes K L tempSrep).map fun s => (ComputeDistance K L s 0).1).sum,
         ((sampledSpokes K L tempSrep).map fun s => (ComputeDistance K L s 0).2).sum) ∧
    (∀ qr qc : Nat, qr + 1 < nRows → qc + 1 < nCols →
      ((List.range (spokeNum L)).flatMap fun i : Nat =>
          sampledQuads L.mNumRows L.mNumCols (Int.tdiv i L.mNumCols)
            (Int.tmod i L.mNumCols)).countP
        (fun q => decide (q = quadCorners (qr : Int) (qc : Int))) = 4) := by
  have hnum : spokeNum L = nRows * nCols := by
    unfold spokeNum
    rw [hlen, Nat.mul_assoc, Nat.mul_div_cancel_left _ (by decide)]
  refine ⟨?_, imageMatchTerms_eq K L tempSrep, ?_⟩
  swap
  · intro qr qc hqr hqc
    rw [hnum, hrows, hcols]
    exact sampledQuads_total nRows nCols qr qc hR hC hqr hqc
  obtain ⟨m, rfl⟩ : ∃ m, nRows = m + 2 := ⟨nRows - 2, by omega⟩
  obtain ⟨n, rfl⟩ : ∃ n, nCols = n + 2 := ⟨nCols - 2, by omega⟩
  unfold sampledSpokes
  rw [hnum, length_flatMap_range,
    List.map_congr_left (fun i _ => sampledSpokesAt_length K L tempSrep (m + 2) (n + 2) hR hC
      hrows hcols i),
    sum_range_mul (m + 2) (n + 2) (by omega) (fun r c =>
      1 + L.mInterpolatePositions.length * ((if r = 0 ∨ r + 1 = m + 2 then 1 else 2)
        * (if c = 0 ∨ c + 1 = n + 2 then 1 else 2))),
    sampled_count_sum]
  simp only [Nat.add_sub_cancel, show m + 2 - 1 = m + 1 from rfl, show n + 2 - 1 = n + 1 from rfl]

/-- C25 on the `2 × 2` grid of `skewLogic` with its five level-one positions: `24` spokes. -/
theorem C25_distance_call_count_witness :
    2 ≤ 2 ∧ skewLogic.mNumRows = (2 : Nat) ∧ skewLogic.mNumCols = (2 : Nat) ∧
    skewLogic.mCoeffArray.length = 4 * 2 * 2 ∧
    (sampledSpokes gridCollaborators skewLogic skewGrid).length
      = 2 * 2 + 4 * (2 - 1) * (2 - 1) * skewLogic.mInterpolatePositions.length :=
  ⟨by decide, rfl, rfl, rfl,
    (C25_distance_call_count gridCollaborators skewLogic skewGrid 2 2 (by decide) (by decide)
      rfl rfl rfl).1⟩

/-! ## Neighbour counts of the `rSrad` penalty: proofs -/

/-- Neighbour counts stored by the loop body of `ComputeRSradPenalty` on the spoke at `(r, c)`
of a grid of `nRows ≥ 2` by `nCols ≥ 2` spokes, by position in the grid. -/
theorem spokeNeighbors_counts {Srep : Type} (K : Collaborators Srep) (L : RefinerLogic Srep)
    (input : Srep) (nRows nCols r c : Int) (hR : 2 ≤ nRows) (hC : 2 ≤ nCols) :
    ((spokeNeighbors K L input nRows nCols r c).neighborU.length,
      (spokeNeighbors K L input nRows nCols r c).neighborV.length)
      = (if (r = 0 ∨ r = nRows - 1) ∧ (c = 0 ∨ c = nCols - 1) then (1, 1)
         else if r = 0 ∨ r = nRows - 1 then (1, 2)
         else if c = 0 ∨ c = nCols - 1 then (2, 1)
         else (2, 2)) := by
  by_cases h1 : r = 0 <;> by_cases h2 : r = nRows - 1 <;> by_cases h3 : c = 0 <;>
    by_cases h4 : c = nCols - 1 <;>
    first
    | (exfalso; omega)
    | (first | have e1 := eq_false h1 | have e1 := eq_true h1
       first | have e2 := eq_false h2 | have e2 := eq_true h2
       first | have e3 := eq_false h3 | have e3 := eq_true h3
       first | have e4 := eq_false h4 | have e4 := eq_true h4
       simp only [spokeNeighbors, FindTopLeftNeigbors, FindTopRightNeigbors,
         FindBotLeftNeigbors, FindBotRightNeigbors, e1, e2, e3, e4, if_true, if_false,
         and_true, and_false, true_and, false_and, or_true, or_false, true_or, false_or,
         and_self, or_self, List.nil_append, List.length_cons, List.length_nil,
         List.length_append, List.length_dropLast, List.singleton_append, List.dropLast,
         List.cons_append]
       try rfl)

/-- Element `r * n + c` of the row-major list built by a double loop over `m` rows and `n`
columns is the element built for the cell `(r, c)`. -/
theorem getElem?_flatMap_range {α : Type} (f : Nat → Nat → α) (n : Nat) :
    ∀ m r c : Nat, r < m → c < n →
      ((List.range m).flatMap fun r => (List.range n).map fun c => f r c)[r * n + c]?
        = some (f r c) := by
  intro m
  induction m with
  | zero => intro r c hr; omega
  | succ m ih =>
    intro r c hr hc
    have hlen : ((List.range m).flatMap fun r => (List.range n).map fun c => f r c).length
        = m * n := by
      rw [length_flatMap_range]
      simp only [List.length_map, List.length_range, List.map_const', List.sum_replicate,
        smul_eq_mul]
    rw [List.range_succ, List.flatMap_append]
    by_cases h : r < m
    · have hlt : r * n + c < m * n := by
        have h1 : (r + 1) * n ≤ m * n := Nat.mul_le_mul_right n h
        have h2 : (r + 1) * n = r * n + n := Nat.succ_mul r n
        omega
      rw [List.getElem?_append_left (by rw [hlen]; exact hlt)]
      exact ih r c h hc
    · have hrm : r = m := by omega
      subst hrm
      rw [List.getElem?_append_right (by rw [hlen]; omega), hlen]
      simp only [Nat.add_sub_cancel_left, List.flatMap_cons, List.flatMap_nil, List.append_nil]
      rw [List.getElem?_map, List.getElem?_range hc]
      rfl

/-- The list `primarySpokes` of `ComputeRSradPenalty` with the loop counters as natural
numbers. -/
theorem ComputeRSradPenalty_eq {Srep : Type} (K : Collaborators Srep) (L : RefinerLogic Srep)
    (input : Srep) (hne : K.IsEmpty input = false) :
    ComputeRSradPenalty K L input
      = ((List.range (K.GetNumRows input).toNat).flatMap fun r : Nat =>
          (List.range (K.GetNumCols input).toNat).map fun c : Nat =>
            spokeNeighbors K L input (K.GetNumRows input) (K.GetNumCols input) r c).foldl
          (fun penalty s =>
            penalty + K.GetRSradPenalty s.spoke s.neighborU s.forwardU s.neighborV s.forwardV
              (neighborStep L))
          0 := by
  have hcoe : ∀ n : Nat, (do let a ← List.range n; pure ((a : Nat) : Int))
      = (List.range n).map (fun a : Nat => (a : Int)) := by
    intro n
    simp only [List.pure_def, List.bind_eq_flatMap]
    induction (List.range n) with
    | nil => rfl
    | cons a l ih => simp only [List.flatMap_cons, List.map_cons, ih, List.singleton_append]
  simp only [ComputeRSradPenalty, hne, Bool.false_eq_true, if_false]
  rw [hcoe]
  simp only [List.map_map]
  rfl

/-- C19. On a non-empty grid of `nRows ≥ 2` by `nCols ≥ 2` spokes the penalty returned by
`ComputeRSradPenalty` is the sum, started at `0`, of `GetRSradPenalty(step)` over a list
`primarySpokes` of `nRows * nCols` spokes with their stored neighbours, in row-major order:
entry `r * nCols + c` is the spoke `GetSpoke(r, c)` and its stored neighbours are one
U-neighbour and one V-neighbour at the four grid corners, one U-neighbour and two V-neighbours
elsewhere on the top and bottom rows, two U-neighbours and one V-neighbour elsewhere on the left
and right columns, and two of each in the interior. -/
theorem C19_neighbor_counts {Srep : Type} (K : Collaborators Srep) (L : RefinerLogic Srep)
    (input : Srep) (hne : K.IsEmpty input = false) (hR : 2 ≤ K.GetNumRows input)
    (hC : 2 ≤ K.GetNumCols input) :
    ∃ primarySpokes : List SpokeWithNeighbors,
      ComputeRSradPenalty K L input
        = primarySpokes.foldl
            (fun penalty s =>
              penalty + K.GetRSradPenalty s.spoke s.neighborU s.forwardU s.neighborV s.forwardV
                (neighborStep L))
            0 ∧
      primarySpokes.length = (K.GetNumRows input).toNat * (K.GetNumCols input).toNat ∧
      ∀ r c : Nat, (r : Int) < K.GetNumRows input → (c : Int) < K.GetNumCols input →
        ∃ s : SpokeWithNeighbors,
          primarySpokes[r * (K.GetNumCols input).toNat + c]? = some s ∧
          s.spoke = K.GetSpoke input r c ∧
          (s.neighborU.length, s.neighborV.length)
            = (if ((r : Int) = 0 ∨ (r : Int) = K.GetNumRows input - 1) ∧
                  ((c : Int) = 0 ∨ (c : Int) = K.GetNumCols input - 1) then (1, 1)
               else if (r : Int) = 0 ∨ (r : Int) = K.GetNumRows input - 1 then (1, 2)
               else if (c : Int) = 0 ∨ (c : Int) = K.GetNumCols input - 1 then (2, 1)
               else (2, 2)) := by
  refine ⟨(List.range (K.GetNumRows input).toNat).flatMap fun r : Nat =>
      (List.range (K.GetNumCols input).toNat).map fun c : Nat =>
        spokeNeighbors K L input (K.GetNumRows input) (K.GetNumCols input) r c, ?_, ?_, ?_⟩
  · exact ComputeRSradPenalty_eq K L input hne
  · rw [length_flatMap_range]
    simp only [List.length_map, List.length_range, List.map_const', List.sum_replicate,
      smul_eq_mul]
  · intro r c hr hc
    refine ⟨spokeNeighbors K L input (K.GetNumRows input) (K.GetNumCols input) r c, ?_, ?_,
      spokeNeighbors_counts K L input _ _ r c hR hC⟩
    · exact getElem?_flatMap_range
        (fun r c : Nat =>
          spokeNeighbors K L input (K.GetNumRows input) (K.GetNumCols input) r c)
        _ _ r c (by omega) (by omega)
    · unfold spokeNeighbors
      dsimp only
      split_ifs <;> rfl

/-- C19 on the `3 × 3` grid `flatGrid3` with the penalty that counts the stored neighbours:
the four corners count `2`, the four edge spokes `3` and the interior spoke `4`, `24` in
all. -/
theorem C19_neighbor_counts_witness :
    countingCollaborators.IsEmpty flatGrid3 = false ∧
    2 ≤ countingCollaborators.GetNumRows flatGrid3 ∧
    2 ≤ countingCollaborators.GetNumCols flatGrid3 ∧
    ComputeRSradPenalty countingCollaborators skewLogic flatGrid3 = 24 ∧
    ∃ primarySpokes : List SpokeWithNeighbors,
      ComputeRSradPenalty countingCollaborators skewLogic flatGrid3
        = primarySpokes.foldl
            (fun penalty s =>
              penalty + countingCollaborators.GetRSradPenalty s.spoke s.neighborU s.forwardU
                s.neighborV s.forwardV (neighborStep skewLogic))
            0 ∧
      primarySpokes.length = (countingCollaborators.GetNumRows flatGrid3).toNat
        * (countingCollaborators.GetNumCols flatGrid3).toNat ∧
      ∀ r c : Nat, (r : Int) < countingCollaborators.GetNumRows flatGrid3 →
        (c : Int) < countingCollaborators.GetNumCols flatGrid3 →
        ∃ s : SpokeWithNeighbors,
          primarySpokes[r * (countingCollaborators.GetNumCols flatGrid3).toNat + c]? = some s ∧
          s.spoke = countingCollaborators.GetSpoke flatGrid3 r c ∧
          (s.neighborU.length, s.neighborV.length)
            = (if ((r : Int) = 0 ∨ (r : Int) = countingCollaborators.GetNumRows flatGrid3 - 1) ∧
                  ((c : Int) = 0 ∨ (c : Int) = countingCollaborators.GetNumCols flatGrid3 - 1)
                then (1, 1)
               else if (r : Int) = 0 ∨ (r : Int) = countingCollaborators.GetNumRows flatGrid3 - 1
                then (1, 2)
               else if (c : Int) = 0 ∨ (c : Int) = countingCollaborators.GetNumCols flatGrid3 - 1
                then (2, 1)
               else (2, 2)) :=
  ⟨rfl, by decide, by decide, by
      simp [ComputeRSradPenalty, countingCollaborators, gridCollaborators, flatGrid3,
        spokeNeighbors, FindTopLeftNeigbors, FindTopRightNeigbors, FindBotLeftNeigbors,
        FindBotRightNeigbors, List.range_succ, List.flatMap]
      norm_num,
    C19_neighbor_counts countingCollaborators skewLogic flatGrid3 rfl (by decide) (by decide)⟩

/-! ## `InterpolateCrest`: proofs -/

/-- Up to level `30` the power `2^L` fits an `int` and there are `2^L + 1` steps; from level
`31` on the conversion leaves the range, `shares` is `INT_MIN` and there is no step. -/
theorem crestSteps_length (interpolationLevel : Nat) :
    (interpolationLevel ≤ 30 →
      (crestSteps interpolationLevel).length = 2 ^ interpolationLevel + 1) ∧
    (31 ≤ interpolationLevel → crestSteps interpolationLevel = []) := by
  obtain ⟨n, hn⟩ : ∃ n : Nat, 2 ^ interpolationLevel = n := ⟨_, rfl⟩
  have hcast : ((2 : ℚ) ^ interpolationLevel) = ((n : Int) : ℚ) := by
    rw [← hn]; push_cast; rfl
  have hfloor : ⌊((2 : ℚ) ^ interpolationLevel)⌋ = (n : Int) := by
    rw [hcast, Int.floor_intCast]
  have hpos : (0 : ℚ) ≤ (2 : ℚ) ^ interpolationLevel := by positivity
  constructor
  · intro h
    have hpow : n ≤ 1073741824 := by
      have h30 : 2 ^ interpolationLevel ≤ 2 ^ 30 := Nat.pow_le_pow_right (by decide) h
      rw [hn] at h30
      exact h30
    have ht : truncToInt ((2 : ℚ) ^ interpolationLevel) = (n : Int) := by
      simp only [truncToInt, if_pos hpos, hfloor]
      rw [if_pos (by omega)]
    simp only [crestSteps, ht, List.length_map, List.length_range, hn]
    omega
  · intro h
    have hpow : 2147483648 ≤ n := by
      have h31 : 2 ^ 31 ≤ 2 ^ interpolationLevel := Nat.pow_le_pow_right (by decide) h
      rw [hn] at h31
      exact h31
    have ht : truncToInt ((2 : ℚ) ^ interpolationLevel) = -2147483648 := by
      simp only [truncToInt, if_pos hpos, hfloor]
      rw [if_neg (by omega)]
    simp only [crestSteps, ht]
    rfl

/-- One inner loop pushes one spoke per step onto each output vector. -/
theorem pushInterpolated_length (interpolate : InterpolaterSetup → ℚ → ℚ → vtkSpoke)
    (steps : List ℚ) (setup : InterpolaterSetup) (alongV crestFirst reversed : Bool)
    (out : List vtkSpoke × List vtkSpoke) :
    (pushInterpolated interpolate steps setup alongV crestFirst reversed out).1.length
        = out.1.length + steps.length ∧
    (pushInterpolated interpolate steps setup alongV crestFirst reversed out).2.length
        = out.2.length + steps.length := by
  unfold pushInterpolated
  cases alongV <;> cases crestFirst <;> cases reversed <;> simp

/-- A loop whose body, at every counter value met, reads in range and pushes `w i * n` spokes
onto each output vector, reads in range throughout and pushes the sum of these numbers. -/
theorem foldlM_grows {ι : Type}
    (f : List vtkSpoke × List vtkSpoke → ι → Option (List vtkSpoke × List vtkSpoke))
    (w : ι → Nat) (n : Nat) :
    ∀ (l : List ι) (out : List vtkSpoke × List vtkSpoke),
      (∀ i ∈ l, ∀ o, ∃ o2, f o i = some o2 ∧ o2.1.length = o.1.length + w i * n ∧
        o2.2.length = o.2.length + w i * n) →
      ∃ out2, l.foldlM f out = some out2 ∧
        out2.1.length = out.1.length + (l.map w).sum * n ∧
        out2.2.length = out.2.length + (l.map w).sum * n := by
  intro l
  induction l with
  | nil =>
    intro out _
    exact ⟨out, rfl, by simp, by simp⟩
  | cons a l ih =>
    intro out h
    obtain ⟨o2, h1, h2, h3⟩ := h a (List.mem_cons_self a l) out
    obtain ⟨o3, h4, h5, h6⟩ := ih o2 (fun i hi o => h i (List.mem_cons_of_mem a hi) o)
    refine ⟨o3, ?_, ?_, ?_⟩
    · rw [List.foldlM_cons, h1]
      exact h4
    · rw [h5, h2, List.map_cons, List.sum_cons]; ring
    · rw [h6, h3, List.map_cons, List.sum_cons]; ring

theorem topRowBlock_some (interpolate : InterpolaterSetup → ℚ → ℚ → vtkSpoke)
    (dXdu11 dXdv11 : Vec3) (crestSpoke interiorSpokes : List vtkSpoke) (steps : List ℚ)
    (nRows nCols : Nat) (out : List vtkSpoke × List vtkSpoke) (i : Nat)
    (h1 : i + 1 < crestSpoke.length) (h2 : i + 1 < interiorSpokes.length) :
    ∃ o2, topRowBlock interpolate dXdu11 dXdv11 crestSpoke interiorSpokes steps nRows nCols
        out i = some o2 ∧
      o2.1.length = out.1.length + 1 * steps.length ∧
      o2.2.length = out.2.length + 1 * steps.length := by
  have h3 : i < crestSpoke.length := by omega
  have h4 : i < interiorSpokes.length := by omega
  have e : topRowBlock interpolate dXdu11 dXdv11 crestSpoke interiorSpokes steps nRows nCols
      out i = some (pushInterpolated interpolate steps
        ⟨[crestSpoke[i], interiorSpokes[i], interiorSpokes[i + 1], crestSpoke[i + 1]],
          (topRowTangents dXdu11 dXdv11 (crestSkeletalPts interiorSpokes) i nRows nCols).1,
          (topRowTangents dXdu11 dXdv11 (crestSkeletalPts interiorSpokes) i nRows nCols).2⟩
        true true false out) := by
    simp only [topRowBlock, List.getElem?_eq_getElem h1, List.getElem?_eq_getElem h2,
      List.getElem?_eq_getElem h3, List.getElem?_eq_getElem h4, Option.bind_eq_bind,
      Option.some_bind, Option.pure_def]
  refine ⟨_, e, ?_, ?_⟩
  · rw [(pushInterpolated_length _ _ _ _ _ _ _).1, Nat.one_mul]
  · rw [(pushInterpolated_length _ _ _ _ _ _ _).2, Nat.one_mul]

theorem topRightBlock_some (interpolate : InterpolaterSetup → ℚ → ℚ → vtkSpoke)
    (crestSpoke interiorSpokes : List vtkSpoke) (steps : List ℚ)
    (nRows nCols : Nat) (out : List vtkSpoke × List vtkSpoke)
    (h1 : nCols + 1 < crestSpoke.length) (h2 : nCols - 1 + nCols < interiorSpokes.length) :
    ∃ o2, topRightBlock interpolate crestSpoke interiorSpokes steps nRows nCols out = some o2 ∧
      o2.1.length = out.1.length + steps.length ∧
      o2.2.length = out.2.length + steps.length := by
  have h3 : nCols - 1 < crestSpoke.length := by omega
  have h4 : nCols - 1 < interiorSpokes.length := by omega
  have e : topRightBlock interpolate crestSpoke interiorSpokes steps nRows nCols out
      = some (pushInterpolated interpolate steps
        ⟨[interiorSpokes[nCols - 1], interiorSpokes[nCols - 1 + nCols], crestSpoke[nCols + 1],
            crestSpoke[nCols - 1]],
          [(ComputeDerivative (crestSkeletalPts interiorSpokes) 0 ((nCols : Int) - 1) nRows
              nCols).1,
            (ComputeDerivative (crestSkeletalPts interiorSpokes) 1 ((nCols : Int) - 1) nRows
              nCols).1,
            (ComputeDerivative (crestSkeletalPts interiorSpokes) 1 ((nCols : Int) - 1) nRows
              nCols).1,
            (ComputeDerivative (crestSkeletalPts interiorSpokes) 0 ((nCols : Int) - 1) nRows
              nCols).1],
          [Vec3.smul (-1) (ComputeDerivative (crestSkeletalPts interiorSpokes) 0
              ((nCols : Int) - 1) nRows nCols).2,
            Vec3.smul (-1) (ComputeDerivative (crestSkeletalPts interiorSpokes) 1
              ((nCols : Int) - 1) nRows nCols).2,
            Vec3.smul (-1) (ComputeDerivative (crestSkeletalPts interiorSpokes) 1
              ((nCols : Int) - 1) nRows nCols).2,
            Vec3.smul (-1) (ComputeDerivative (crestSkeletalPts interiorSpokes) 0
              ((nCols : Int) - 1) nRows nCols).2]⟩
        false false false out) := by
    simp only [topRightBlock, List.getElem?_eq_getElem h1, List.getElem?_eq_getElem h2,
      List.getElem?_eq_getElem h3, List.getElem?_eq_getElem h4, Option.bind_eq_bind,
      Option.some_bind, Option.pure_def]
  exact ⟨_, e, (pushInterpolated_length _ _ _ _ _ _ _).1,
    (pushInterpolated_length _ _ _ _ _ _ _).2⟩

theorem rightColBlock_some (interpolate : InterpolaterSetup → ℚ → ℚ → vtkSpoke)
    (crestSpoke interiorSpokes : List vtkSpoke) (steps : List ℚ)
    (nRows nCols : Nat) (out : List vtkSpoke × List vtkSpoke) (k : Nat) (hC : 0 < nCols)
    (h1 : nCols + 1 + 2 * k + 2 < crestSpoke.length)
    (h2 : nCols + 1 + 2 * k + nCols < crestSpoke.length)
    (h3 : nCols * (k + 3) ≤ interiorSpokes.length) :
    ∃ o2, rightColBlock interpolate crestSpoke interiorSpokes steps nRows nCols out
        (nCols + 1 + 2 * k) = some o2 ∧
      o2.1.length = out.1.length + 1 * steps.length ∧
      o2.2.length = out.2.length + 1 * steps.length := by
  have hr : (nCols + 1 + 2 * k - nCols) / 2 + 1 = k + 1 := by omega
  have hodd : ¬ (nCols + 1 + 2 * k - nCols) % 2 = 0 := by omega
  have hmul : nCols * (k + 3) = nCols * (k + 1 + 1) + nCols := by ring
  have hpos : nCols ≤ nCols * (k + 1 + 1) := Nat.le_mul_of_pos_right _ (by omega)
  have h4 : nCols * (k + 1 + 1) - 1 < interiorSpokes.length := by omega
  have h5 : nCols * (k + 1 + 1) - 1 + nCols < interiorSpokes.length := by omega
  have h6 : nCols + 1 + 2 * k < crestSpoke.length := by omega
  unfold rightColBlock
  simp only [hr, if_neg hodd, List.getElem?_eq_getElem h1, List.getElem?_eq_getElem h2,
    List.getElem?_eq_getElem h4, List.getElem?_eq_getElem h5, List.getElem?_eq_getElem h6,
    Option.bind_eq_bind, Option.some_bind, Option.pure_def]
  by_cases hlast : k + 1 = nRows - 2
  · simp only [if_pos hlast, Option.some_bind]
    exact ⟨_, rfl, by rw [(pushInterpolated_length _ _ _ _ _ _ _).1, Nat.one_mul],
      by rw [(pushInterpolated_length _ _ _ _ _ _ _).2, Nat.one_mul]⟩
  · simp only [if_neg hlast, Option.some_bind]
    exact ⟨_, rfl, by rw [(pushInterpolated_length _ _ _ _ _ _ _).1, Nat.one_mul],
      by rw [(pushInterpolated_length _ _ _ _ _ _ _).2, Nat.one_mul]⟩

theorem bottomRowBlock_some (interpolate : InterpolaterSetup → ℚ → ℚ → vtkSpoke)
    (crestSpoke interiorSpokes : List vtkSpoke) (steps : List ℚ)
    (nRows nCols : Nat) (out : List vtkSpoke × List vtkSpoke) (i : Nat)
    (h1 : i + 1 < crestSpoke.length)
    (h2 : (nRows - 1) * nCols + (i - nCols - 2 * (nRows - 2)) + 1 < interiorSpokes.length) :
    ∃ o2, bottomRowBlock interpolate crestSpoke interiorSpokes steps nRows nCols out i
        = some o2 ∧
      o2.1.length = out.1.length + 1 * steps.length ∧
      o2.2.length = out.2.length + 1 * steps.length := by
  have h3 : i < crestSpoke.length := by omega
  have h4 : (nRows - 1) * nCols + (i - nCols - 2 * (nRows - 2)) < interiorSpokes.length := by
    omega
  unfold bottomRowBlock
  simp only [List.getElem?_eq_getElem h1, List.getElem?_eq_getElem h2,
    List.getElem?_eq_getElem h3, List.getElem?_eq_getElem h4, Option.bind_eq_bind,
    Option.some_bind, Option.pure_def]
  exact ⟨_, rfl, by rw [(pushInterpolated_length _ _ _ _ _ _ _).1, Nat.one_mul],
    by rw [(pushInterpolated_length _ _ _ _ _ _ _).2, Nat.one_mul]⟩

theorem leftColBlock_some (interpolate : InterpolaterSetup → ℚ → ℚ → vtkSpoke)
    (crestSpoke interiorSpokes : List vtkSpoke) (steps : List ℚ)
    (nRows nCols : Nat) (out : List vtkSpoke × List vtkSpoke) (k : Nat) (hC : 0 < nCols)
    (h1 : nCols + 2 * k + 2 < crestSpoke.length)
    (h2 : nCols * (k + 2) < interiorSpokes.length) :
    ∃ o2, leftColBlock interpolate crestSpoke interiorSpokes steps nRows nCols out
        (nCols + 2 * k) = some o2 ∧
      o2.1.length = out.1.length + (if nCols + 2 * k = nCols then 2 else 1) * steps.length ∧
      o2.2.length = out.2.length + (if nCols + 2 * k = nCols then 2 else 1) * steps.length := by
  have hr : (nCols + 2 * k - nCols) / 2 + 1 = k + 1 := by omega
  have heven : (nCols + 2 * k - nCols) % 2 = 0 := by omega
  have hmul : nCols * (k + 2) = nCols * (k + 1) + nCols := by ring
  have hpos : nCols ≤ nCols * (k + 1) := Nat.le_mul_of_pos_right _ (by omega)
  have h3 : nCols * (k + 1) + nCols < interiorSpokes.length := by omega
  have h4 : nCols * (k + 1) < interiorSpokes.length := by omega
  have h5 : nCols + 2 * k < crestSpoke.length := by omega
  have h6 : 0 < crestSpoke.length := by omega
  have h7 : 0 < interiorSpokes.length := by omega
  unfold leftColBlock
  simp only [hr, if_pos heven, List.getElem?_eq_getElem h1, List.getElem?_eq_getElem h3,
    List.getElem?_eq_getElem h4, List.getElem?_eq_getElem h5, List.getElem?_eq_getElem h6,
    List.getElem?_eq_getElem h7, Option.bind_eq_bind, Option.some_bind, Option.pure_def]
  by_cases hlast : nCols + 2 * k = nCols
  · simp only [if_pos hlast]
    refine ⟨_, rfl, ?_, ?_⟩
    · rw [(pushInterpolated_length _ _ _ _ _ _ _).1, (pushInterpolated_length _ _ _ _ _ _ _).1]
      ring
    · rw [(pushInterpolated_length _ _ _ _ _ _ _).2, (pushInterpolated_length _ _ _ _ _ _ _).2]
      ring
  · simp only [if_neg hlast]
    exact ⟨_, rfl, by rw [(pushInterpolated_length _ _ _ _ _ _ _).1, Nat.one_mul],
      by rw [(pushInterpolated_length _ _ _ _ _ _ _).2, Nat.one_mul]⟩

theorem leftCol_weight (t nCols : Nat) :
    (((List.range (t + 1)).reverse.map fun k => nCols + 2 * k).map
      fun i => if i = nCols then 2 else 1).sum = t + 2 := by
  rw [List.map_map, List.map_reverse, List.sum_reverse, List.range_succ_eq_map, List.map_cons,
    List.sum_cons, List.map_map]
  have hrest : List.map (((fun i => if i = nCols then 2 else 1) ∘ fun k => nCols + 2 * k)
      ∘ Nat.succ) (List.range t) = List.map (fun _ => 1) (List.range t) := by
    apply List.map_congr_left
    intro k _
    simp only [Function.comp, Nat.succ_eq_add_one]
    rw [if_neg (by omega)]
  rw [hrest]
  simp only [Function.comp, Nat.mul_zero, Nat.add_zero, if_true, List.map_const',
    List.length_range, List.sum_replicate, smul_eq_mul, Nat.mul_one]
  omega

/-- On a crest of `2 * (nRows + nCols - 2)` spokes and at least `nRows * nCols` interior spokes,
with `nRows ≥ 3` and `nCols ≥ 2`, `InterpolateCrest` reads in range throughout and appends
`steps.size() * 2 * (nRows + nCols - 2)` spokes to each output vector. -/
theorem InterpolateCrest_some (interpolate : InterpolaterSetup → ℚ → ℚ → vtkSpoke)
    (dXdu11 dXdv11 : Vec3) (crestSpoke interiorSpokes : List vtkSpoke)
    (interpolationLevel nRows nCols : Nat) (crest interior : List vtkSpoke)
    (hR : 3 ≤ nRows) (hC : 2 ≤ nCols)
    (hcrest : crestSpoke.length = 2 * (nRows + nCols - 2))
    (hint : nRows * nCols ≤ interiorSpokes.length) :
    ∃ out, InterpolateCrest interpolate dXdu11 dXdv11 crestSpoke interiorSpokes
        interpolationLevel nRows nCols crest interior = some out ∧
      out.1.length
        = crest.length
          + (crestSteps interpolationLevel).length * (2 * (nRows + nCols - 2)) ∧
      out.2.length
        = interior.length
          + (crestSteps interpolationLevel).length * (2 * (nRows + nCols - 2)) := by
  obtain ⟨t, rfl⟩ : ∃ t, nRows = t + 3 := ⟨nRows - 3, by omega⟩
  have hP : (t + 3 - 1) * nCols + nCols = (t + 3) * nCols := by
    rw [show t + 3 - 1 = t + 2 from rfl]; ring
  have hP1 : nCols ≤ (t + 3) * nCols := Nat.le_mul_of_pos_left _ (by omega)
  have hP2 : 2 * nCols ≤ (t + 3) * nCols := Nat.mul_le_mul_right _ (by omega)
  have hk : ∀ k, k + 3 ≤ t + 3 → nCols * (k + 3) ≤ (t + 3) * nCols := by
    intro k hk
    rw [Nat.mul_comm nCols]
    exact Nat.mul_le_mul_right _ hk
  obtain ⟨o1, e1, a1, b1⟩ := foldlM_grows
    (topRowBlock interpolate dXdu11 dXdv11 crestSpoke interiorSpokes
      (crestSteps interpolationLevel) (t + 3) nCols)
    (fun _ => 1) (crestSteps interpolationLevel).length (List.range (nCols - 1))
    (crest, interior)
    (by
      intro i hi o
      have hi2 := List.mem_range.mp hi
      exact topRowBlock_some _ _ _ _ _ _ _ _ o i (by omega) (by omega))
  obtain ⟨o2, e2, a2, b2⟩ := topRightBlock_some interpolate crestSpoke interiorSpokes
    (crestSteps interpolationLevel) (t + 3) nCols o1 (by omega) (by omega)
  obtain ⟨o3, e3, a3, b3⟩ := foldlM_grows
    (rightColBlock interpolate crestSpoke interiorSpokes (crestSteps interpolationLevel)
      (t + 3) nCols)
    (fun _ => 1) (crestSteps interpolationLevel).length
    ((List.range (t + 3 - 2)).map fun k => nCols + 1 + 2 * k) o2
    (by
      intro i hi o
      obtain ⟨k, hk1, rfl⟩ := List.mem_map.mp hi
      have hk2 := List.mem_range.mp hk1
      have := hk k (by omega)
      exact rightColBlock_some _ _ _ _ _ _ o k (by omega) (by omega) (by omega) (by omega))
  obtain ⟨o4, e4, a4, b4⟩ := foldlM_grows
    (bottomRowBlock interpolate crestSpoke interiorSpokes (crestSteps interpolationLevel)
      (t + 3) nCols)
    (fun _ => 1) (crestSteps interpolationLevel).length
    (List.range' (nCols + 2 * (t + 3 - 2))
      (crestSpoke.length - 1 - (nCols + 2 * (t + 3 - 2)))).reverse o3
    (by
      intro i hi o
      have hi2 := List.mem_range'_1.mp (List.mem_reverse.mp hi)
      exact bottomRowBlock_some _ _ _ _ _ _ o i (by omega) (by omega))
  obtain ⟨o5, e5, a5, b5⟩ := foldlM_grows
    (leftColBlock interpolate crestSpoke interiorSpokes (crestSteps interpolationLevel)
      (t + 3) nCols)
    (fun i => if i = nCols then 2 else 1) (crestSteps interpolationLevel).length
    ((List.range (t + 3 - 2)).reverse.map fun k => nCols + 2 * k) o4
    (by
      intro i hi o
      obtain ⟨k, hk1, rfl⟩ := List.mem_map.mp hi
      have hk2 := List.mem_range.mp (List.mem_reverse.mp hk1)
      have h3 := hk k (by omega)
      have hmul : nCols * (k + 3) = nCols * (k + 2) + nCols := by ring
      exact leftColBlock_some _ _ _ _ _ _ o k (by omega) (by omega) (by omega))
  have hw := leftCol_weight t nCols
  rw [show t + 3 - 2 = t + 1 from rfl] at a5 b5 a3 b3
  rw [hw] at a5 b5
  simp only [List.map_const', List.length_range, List.length_reverse, List.length_range',
    List.length_map, List.sum_replicate, smul_eq_mul, Nat.mul_one] at a1 b1 a3 b3 a4 b4
  refine ⟨o5, ?_, ?_, ?_⟩
  · unfold InterpolateCrest
    simp only [Option.bind_eq_bind, e1, Option.some_bind, e2, e3, e4]
    exact e5
  · rw [a5, a4, a3, a2, a1, hcrest]
    have h1 : 2 * (t + 3 + nCols - 2) - 1 - (nCols + 2 * (t + 3 - 2)) = nCols - 1 := by omega
    rw [h1]
    obtain ⟨c, rfl⟩ : ∃ c, nCols = c + 2 := ⟨nCols - 2, by omega⟩
    simp only [show t + 3 + (c + 2) - 2 = t + c + 3 from by omega,
      show c + 2 - 1 = c + 1 from rfl]
    ring
  · rw [b5, b4, b3, b2, b1, hcrest]
    have h1 : 2 * (t + 3 + nCols - 2) - 1 - (nCols + 2 * (t + 3 - 2)) = nCols - 1 := by omega
    rw [h1]
    obtain ⟨c, rfl⟩ : ∃ c, nCols = c + 2 := ⟨nCols - 2, by omega⟩
    simp only [show t + 3 + (c + 2) - 2 = t + c + 3 from by omega,
      show c + 2 - 1 = c + 1 from rfl]
    ring

/-- C27 (amended statement). For `nRows ≥ 3`, `nCols ≥ 2`, a crest list of
`N = 2 * (nRows + nCols - 2)` spokes and up and down lists of at least `nRows * nCols` spokes,
at every interpolation level the two calls of `InterpolateCrest` made by `ConnectImpliedCrest`
with empty output vectors read only elements inside the input vectors and each append the same
number `steps.size() * N` of spokes to `crest` and to `interior`, so for every index `i` of the
interpolated crest the reads `upInterpSpokes[i]` and `downInterpSpokes[i]` are in range. That
number is `(2^L + 1) * N` for the levels `L ≤ 30`, where `2^L` fits an `int`. -/
theorem C27_InterpolateCrest_in_range (interpolate : InterpolaterSetup → ℚ → ℚ → vtkSpoke)
    (dXdu11 dXdv11 dXdu11b dXdv11b : Vec3) (reorderedCrest upSpokes downSpokes : List vtkSpoke)
    (interpolationLevel nRows nCols : Nat) (hR : 3 ≤ nRows) (hC : 2 ≤ nCols)
    (hcrest : reorderedCrest.length = 2 * (nRows + nCols - 2))
    (hup : nRows * nCols ≤ upSpokes.length) (hdown : nRows * nCols ≤ downSpokes.length) :
    ∃ crestInterpSpokes upInterpSpokes tempInterp downInterpSpokes : List vtkSpoke,
      InterpolateCrest interpolate dXdu11 dXdv11 reorderedCrest upSpokes interpolationLevel
          nRows nCols [] [] = some (crestInterpSpokes, upInterpSpokes) ∧
      InterpolateCrest interpolate dXdu11b dXdv11b reorderedCrest downSpokes interpolationLevel
          nRows nCols [] [] = some (tempInterp, downInterpSpokes) ∧
      crestInterpSpokes.length
        = (crestSteps interpolationLevel).length * (2 * (nRows + nCols - 2)) ∧
      upInterpSpokes.length = crestInterpSpokes.length ∧
      tempInterp.length = crestInterpSpokes.length ∧
      downInterpSpokes.length = crestInterpSpokes.length ∧
      (interpolationLevel ≤ 30 →
        crestInterpSpokes.length = (2 ^ interpolationLevel + 1) * (2 * (nRows + nCols - 2)) ∧
        upInterpSpokes.length = (2 ^ interpolationLevel + 1) * (2 * (nRows + nCols - 2)) ∧
        downInterpSpokes.length
          = (2 ^ interpolationLevel + 1) * (2 * (nRows + nCols - 2))) ∧
      (∀ i, i < crestInterpSpokes.length →
        (upInterpSpokes[i]?).isSome = true ∧ (downInterpSpokes[i]?).isSome = true) := by
  obtain ⟨⟨c, u⟩, e1, a1, b1⟩ := InterpolateCrest_some interpolate dXdu11 dXdv11 reorderedCrest
    upSpokes interpolationLevel nRows nCols [] [] hR hC hcrest hup
  obtain ⟨⟨t, d⟩, e2, a2, b2⟩ := InterpolateCrest_some interpolate dXdu11b dXdv11b
    reorderedCrest downSpokes interpolationLevel nRows nCols [] [] hR hC hcrest hdown
  simp only [List.length_nil, Nat.zero_add] at a1 b1 a2 b2
  refine ⟨c, u, t, d, e1, e2, a1, by rw [b1, a1], by rw [a2, a1], by rw [b2, a1], ?_, ?_⟩
  · intro hL
    have hs := (crestSteps_length interpolationLevel).1 hL
    rw [hs] at a1 b1 b2
    exact ⟨a1, b1, b2⟩
  · intro i hi
    have hu : i < u.length := by rw [b1, ← a1]; exact hi
    have hd : i < d.length := by rw [b2, ← a1]; exact hi
    rw [List.getElem?_eq_getElem hu, List.getElem?_eq_getElem hd]
    exact ⟨rfl, rfl⟩

/-- C27 (amended statement) on the crest `crestRing` of ten spokes around the `3 × 4` grid
`crestInterior`, at level `1`: thirty spokes on each output vector. -/
theorem C27_InterpolateCrest_in_range_witness :
    3 ≤ 3 ∧ 2 ≤ 4 ∧ crestRing.length = 2 * (3 + 4 - 2) ∧ 3 * 4 ≤ crestInterior.length ∧
    ∃ crestInterpSpokes upInterpSpokes tempInterp downInterpSpokes : List vtkSpoke,
      InterpolateCrest gridCollaborators.Interpolate ⟨0, 0, 0⟩ ⟨0, 0, 0⟩ crestRing crestInterior
          1 3 4 [] [] = some (crestInterpSpokes, upInterpSpokes) ∧
      InterpolateCrest gridCollaborators.Interpolate ⟨0, 0, 0⟩ ⟨0, 0, 0⟩ crestRing crestInterior
          1 3 4 [] [] = some (tempInterp, downInterpSpokes) ∧
      crestInterpSpokes.length = (crestSteps 1).length * (2 * (3 + 4 - 2)) ∧
      upInterpSpokes.length = crestInterpSpokes.length ∧
      tempInterp.length = crestInterpSpokes.length ∧
      downInterpSpokes.length = crestInterpSpokes.length ∧
      (1 ≤ 30 →
        crestInterpSpokes.length = (2 ^ 1 + 1) * (2 * (3 + 4 - 2)) ∧
        upInterpSpokes.length = (2 ^ 1 + 1) * (2 * (3 + 4 - 2)) ∧
        downInterpSpokes.length = (2 ^ 1 + 1) * (2 * (3 + 4 - 2))) ∧
      (∀ i, i < crestInterpSpokes.length →
        (upInterpSpokes[i]?).isSome = true ∧ (downInterpSpokes[i]?).isSome = true) :=
  ⟨by decide, by decide, by simp [crestRing], by simp [crestInterior],
    C27_InterpolateCrest_in_range gridCollaborators.Interpolate ⟨0, 0, 0⟩ ⟨0, 0, 0⟩ ⟨0, 0, 0⟩
      ⟨0, 0, 0⟩ crestRing crestInterior crestInterior 1 3 4 (by decide) (by decide)
      (by simp [crestRing]) (by simp [crestInterior]) (by simp [crestInterior])⟩

/-- C27 (counterexample). At level `31` the power `2^31` does not fit the `int shares`, the
vector `steps` is empty, and on the crest `crestRing` around the `3 × 4` grid `crestInterior`
the call appends nothing to either output vector, not `(2^31 + 1) * 10` spokes. -/
theorem C27_counterexample :
    3 ≤ 3 ∧ 2 ≤ 4 ∧ crestRing.length = 2 * (3 + 4 - 2) ∧ 3 * 4 ≤ crestInterior.length ∧
    crestSteps 31 = [] ∧
    InterpolateCrest gridCollaborators.Interpolate ⟨0, 0, 0⟩ ⟨0, 0, 0⟩ crestRing crestInterior
      31 3 4 [] [] = some ([], []) ∧
    (([] : List vtkSpoke).length ≠ (2 ^ 31 + 1) * (2 * (3 + 4 - 2))) := by
  have hsteps : crestSteps 31 = [] := (crestSteps_length 31).2 (le_refl _)
  obtain ⟨⟨c, u⟩, e, a, b⟩ := InterpolateCrest_some gridCollaborators.Interpolate ⟨0, 0, 0⟩
    ⟨0, 0, 0⟩ crestRing crestInterior 31 3 4 [] [] (by decide) (by decide)
    (by simp [crestRing]) (by simp [crestInterior])
  rw [hsteps] at a b
  simp only [List.length_nil, Nat.zero_mul, Nat.add_zero] at a b
  have hc : c = [] := List.length_eq_zero.mp a
  have hu : u = [] := List.length_eq_zero.mp b
  rw [hc, hu] at e
  exact ⟨by decide, by decide, by simp [crestRing], by simp [crestInterior], hsteps, e,
    by simp⟩

end SRepRefiner
